import Mathlib

/-!
# MPTCP handshake engine of packetdrill (gtests/net/packetdrill/mptcp.c)

A shallow embedding of `mptcp.c`.  The process-wide `mp_state` is passed explicitly.
Pointers into `mp_state` (the values stored in the variable hashmap) are modelled by
`key_ptr`; a pointer to a subflow record is its position in the `subflows` list.
The collaborators that are not part of `mptcp.c` (the HMAC/token primitives, the random
source, `malloc`) are parameters of the functions that call them.

Names are followed on two levels. In `mp_state` a pending name and the name of a variable
are strings, compared by their characters. In the `Memory` definitions they are the blocks of
memory that the pointers of the source point to, measured with `strlen` as the source does; the
results that depend on how a name is measured (what `add_mp_var_key` binds and what
`find_next_key` finds for a block that `enqueue_var` has left) are stated on that level.
-/

namespace Mptcp

/-! ## Constants -/

/-- Modelled from the spec: the status codes of the missing `types.h`; success is zero and
the callers of this file only test a status for being non-zero. -/
def STATUS_OK : Int := 0

/-- Modelled from the spec: the failure status of the missing `types.h` (a non-zero value). -/
def STATUS_ERR : Int := -1

/-- Modelled from the spec: the direction tag of a packet flowing from the script toward the
live peer (missing `packet.h`); only its being different from `DIRECTION_OUTBOUND` is used. -/
def DIRECTION_INBOUND : Nat := 1

/-- Modelled from the spec: the direction tag of a packet captured from the live peer. -/
def DIRECTION_OUTBOUND : Nat := 2

/-- Modelled from the spec: the TCP option kind of MPTCP options (missing `tcp.h`). -/
def TCPOPT_MPTCP : Nat := 30

/-- Modelled from the spec: MP_CAPABLE in SYN form, "total option length 12 bytes". -/
def TCPOLEN_MP_CAPABLE_SYN : Nat := 12

/-- Modelled from the spec: MP_CAPABLE in key-exchange form, "total option length 20 bytes". -/
def TCPOLEN_MP_CAPABLE : Nat := 20

/-- Modelled from the spec: length of the MP_JOIN SYN shape (kind, length, flags/subtype,
address-id, 32-bit token, 32-bit random). -/
def TCPOLEN_MP_JOIN_SYN : Nat := 12

/-- Modelled from the spec: length of the MP_JOIN SYN-ACK shape (kind, length, flags/subtype,
address-id, 64-bit truncated HMAC, 32-bit random). -/
def TCPOLEN_MP_JOIN_SYN_ACK : Nat := 16

/-- Modelled from the spec: length of the MP_JOIN ACK shape (kind, length, 12 reserved bits and
subtype, 160-bit HMAC). -/
def TCPOLEN_MP_JOIN_ACK : Nat := 24

/-- Modelled from the spec: the subtype value identifying MP_CAPABLE (missing `mptcp.h`). -/
def MP_CAPABLE_SUBTYPE : Nat := 0

/-- Modelled from the spec: the subtype value identifying MP_JOIN (missing `mptcp.h`). -/
def MP_JOIN_SUBTYPE : Nat := 1

/-- Modelled from the spec: the tag of the only kind of variable value that is produced,
a 64-bit key (enum of the missing `mptcp.h`). -/
def KEY : Nat := 0

/-! ## Machine integers and memory bytes -/

/-- Modelled from the spec: conversion to the 8-bit type of an address id. The subflow record
is declared in the missing `mptcp.h`; the spec gives its address ids as "8-bit" and
`tcp_options.h` declares the option's `address_id` as `u8`. -/
def to_u8 (n : Nat) : Nat := n % 2 ^ 8

/-- Modelled from the spec: conversion to the type of the address-id counter, declared in the
missing `mptcp.h`; the spec gives it as an "unsigned integer", taken to be C `unsigned`
(32 bits). -/
def to_unsigned (n : Nat) : Nat := n % 2 ^ 32

/-- The `w` bytes an unsigned integer occupies in memory, least significant byte first
(the host is taken to be little-endian). Storing truncates to `w` bytes. -/
def bytes_of : Nat → Nat → List Nat
  | 0, _ => []
  | w + 1, n => n % 256 :: bytes_of w (n / 256)

/-- The array `unsigned char hmac_key[16]` after `*first = a; *second = b`, where `first` points
to `hmac_key[0]` and `second` to `hmac_key[8]` (both `unsigned long`, 8 bytes). -/
def hmac_key (a b : Nat) : List Nat := bytes_of 8 a ++ bytes_of 8 b

/-- The array `unsigned msg[2]` viewed as 8 chars after `msg[0] = a; msg[1] = b`. -/
def hmac_msg (a b : Nat) : List Nat := bytes_of 4 a ++ bytes_of 4 b

/-! ## Packets and TCP options -/

/-- Member `mp_capable_syn` of the option payload. -/
structure mp_capable_syn_t where
  key : Nat
  deriving DecidableEq, Repr

/-- Member `mp_capable` of the option payload; the driver reads the subtype through it. -/
structure mp_capable_t where
  subtype : Nat
  sender_key : Nat
  receiver_key : Nat
  deriving DecidableEq, Repr

/-- Member `mp_join_syn` of the option payload. -/
structure mp_join_syn_t where
  address_id : Nat
  receiver_token : Nat
  sender_random_number : Nat
  deriving DecidableEq, Repr

/-- Member `mp_join_syn_ack` of the option payload. -/
structure mp_join_syn_ack_t where
  address_id : Nat
  sender_hmac : Nat
  sender_random_number : Nat
  deriving DecidableEq, Repr

/-- Member `mp_join_ack` of the option payload: the 20 bytes of `sender_hmac`. -/
structure mp_join_ack_t where
  sender_hmac : List Nat
  deriving DecidableEq, Repr

/-- The payload of a TCP option, one field per access path used by `mptcp.c`.
The overlap of the members in memory is not modelled. -/
structure tcp_option_data where
  mp_capable_syn : mp_capable_syn_t
  mp_capable : mp_capable_t
  mp_join_syn : mp_join_syn_t
  mp_join_syn_ack : mp_join_syn_ack_t
  mp_join_ack : mp_join_ack_t
  deriving DecidableEq, Repr

/-- A single TCP option (`struct tcp_option`). -/
structure tcp_option where
  kind : Nat
  length : Nat
  data : tcp_option_data
  deriving DecidableEq, Repr

/-- An address as `ip_from_ipv4` / `ip_from_ipv6` store it: tagged by its family. -/
inductive ip_address where
  | v4 (addr : Nat)
  | v6 (addr : Nat)
  deriving DecidableEq, Repr

/-- The addresses of an IPv4 or IPv6 header. -/
structure ip_header where
  src_ip : Nat
  dst_ip : Nat
  deriving DecidableEq, Repr

def ip_from_ipv4 (a : Nat) : ip_address := ip_address.v4 a

def ip_from_ipv6 (a : Nat) : ip_address := ip_address.v6 a

/-- The fields of the TCP header that `mptcp.c` reads. -/
structure tcp where
  src_port : Nat
  dst_port : Nat
  syn : Bool
  ack : Bool
  deriving DecidableEq, Repr

/-- A packet: `ipv4` / `ipv6` are the header pointers (`none` is `NULL`), `tcp_options` the
options in wire order. -/
structure packet where
  ipv4 : Option ip_header
  ipv6 : Option ip_header
  tcp : tcp
  tcp_options : List tcp_option
  deriving DecidableEq, Repr

/-- Modelled from the spec: `get_tcp_option` of the missing packet accessor, "given a packet
and an option kind, return the first matching option or none". -/
def get_tcp_option (p : packet) (kind : Nat) : Option tcp_option :=
  p.tcp_options.find? (fun o => o.kind == kind)

/-! ## The MPTCP state -/

/-- A pointer to one of the two keys of `mp_state`: `&mp_state.packetdrill_key` or
`&mp_state.kernel_key`. -/
inductive key_ptr where
  | packetdrill_key
  | kernel_key
  deriving DecidableEq, Repr

/-- A script variable (`struct mp_var`): name, pointer to its value, kind tag. -/
structure mp_var where
  name : String
  value : key_ptr
  type : Nat
  deriving DecidableEq, Repr

/-- One subflow record (`struct mp_subflow`); the `next` link is the list structure. -/
structure mp_subflow where
  src_ip : ip_address
  dst_ip : ip_address
  src_port : Nat
  dst_port : Nat
  kernel_rand_nbr : Nat
  packetdrill_rand_nbr : Nat
  packetdrill_addr_id : Nat
  kernel_addr_id : Nat
  deriving DecidableEq, Repr

/-- The process-wide state `mp_state`. -/
structure mp_state where
  packetdrill_key : Nat
  kernel_key : Nat
  packetdrill_key_set : Bool
  kernel_key_set : Bool
  vars_queue : List String
  vars : List mp_var
  subflows : List mp_subflow
  last_packetdrill_addr_id : Nat
  deriving DecidableEq, Repr

/-- The collaborators `hmac_sha1`, `hmac_sha1_truncat_64` and `get_token_32`, consumed as
black boxes: key bytes and message bytes to digest, key to token. -/
structure crypto where
  hmac_sha1 : List Nat → List Nat → List Nat
  hmac_sha1_truncat_64 : List Nat → List Nat → Nat
  get_token_32 : Nat → Nat

/-- What the outside world supplies to one option handler: the value drawn by
`generate_key64`, the value drawn by `generate_32`, and the contents of the record that
`malloc(sizeof(struct mp_subflow))` returns (`malloc` is taken to succeed). -/
structure environment where
  generate_key64 : Nat
  generate_32 : Nat
  malloc_subflow : mp_subflow
  deriving DecidableEq, Repr

/-- The value a key pointer points to. -/
def mp_state.deref (s : mp_state) : key_ptr → Nat
  | key_ptr.packetdrill_key => s.packetdrill_key
  | key_ptr.kernel_key => s.kernel_key

/-- The static storage of `mp_state` before `init_mp_state` runs: all zero. -/
def mp_state_zero : mp_state :=
  { packetdrill_key := 0, kernel_key := 0, packetdrill_key_set := false,
    kernel_key_set := false, vars_queue := [], vars := [], subflows := [],
    last_packetdrill_addr_id := 0 }

def init_mp_state (s : mp_state) : mp_state :=
  { s with packetdrill_key_set := false, kernel_key_set := false, vars_queue := [], vars := [] }

/-- The state right after start-up: zeroed static storage on which `init_mp_state` has run. -/
def initial_state : mp_state := init_mp_state mp_state_zero

def set_packetdrill_key (s : mp_state) (sender_key : Nat) : mp_state :=
  { s with packetdrill_key := sender_key, packetdrill_key_set := true }

def set_kernel_key (s : mp_state) (receiver_key : Nat) : mp_state :=
  { s with kernel_key := receiver_key, kernel_key_set := true }

/-! ## Pending-variable queue and variable map -/

/-- Modelled from the spec: `queue_front` of the missing queue, "reads without popping";
`none` is the error returned on an empty queue. -/
def queue_front (q : List String) : Option String := q.head?

/-- Modelled from the spec: `queue_dequeue` of the missing queue, "pops and returns the front";
`none` is the error returned on an empty queue. -/
def queue_dequeue (q : List String) : Option (String × List String) :=
  match q with
  | [] => none
  | name :: rest => some (name, rest)

def dequeue_var (s : mp_state) : Option (String × mp_state) :=
  match queue_dequeue s.vars_queue with
  | none => none
  | some (name, rest) => some (name, { s with vars_queue := rest })

/-- Modelled from the spec: `HASH_ADD_KEYPTR` of the missing hashmap; an insertion never
overwrites or removes an entry ("bindings entries are never overwritten"). -/
def add_mp_var (s : mp_state) (var : mp_var) : mp_state :=
  { s with vars := s.vars ++ [var] }

/-- Binds `name`, given by its characters, to the pointer `key`. How the source measures and
copies the block that `name` points to is followed byte by byte in `Memory.add_mp_var_key`. -/
def add_mp_var_key (s : mp_state) (name : String) (key : key_ptr) : mp_state :=
  add_mp_var s { name := name, value := key, type := KEY }

/-- Modelled from the spec: `HASH_FIND_STR` of the missing hashmap; the entry stored under
`name`, the first one written when there are several ("first writer wins"), `none` if absent. -/
def find_mp_var (s : mp_state) (name : String) : Option mp_var :=
  s.vars.find? (fun v => v.name == name)

/-- Returns the pointer (`none` for `NULL`) and the state. A pending name is given by its
characters and looked up by them; how the source measures the dequeued block with `strlen`, and
what that does to a block that `enqueue_var` has left, is followed byte by byte in
`Memory.find_next_key`. The queue holds no `NULL` element, so the test `!var_name` of the source
never fires and has no counterpart. -/
def find_next_key (s : mp_state) : Option key_ptr × mp_state :=
  match dequeue_var s with
  | none => (none, s)
  | some (var_name, s1) =>
    match find_mp_var s1 var_name with
    | none => (none, s1)
    | some var => if var.type ≠ KEY then (none, s1) else (some var.value, s1)

/-! ## Subflow registry -/

/-- The result of a call that may dereference a `NULL` pointer instead of returning. -/
inductive outcome (α : Type) where
  | returned (a : α)
  | null_dereference
  deriving DecidableEq, Repr

/-- What a call left behind, when it returned. -/
def outcome.result? {α : Type} : outcome α → Option α
  | outcome.returned a => some a
  | outcome.null_dereference => none

/-- The source checks one of `ipv4` / `ipv6` and copies the addresses of the header it finds into
the record; `swap` tells whether source and destination are exchanged (`new_subflow_outound`).
`none` is the `return NULL` of the final `else`. -/
def subflow_addresses (subflow : mp_subflow) (p : packet) (swap : Bool) : Option mp_subflow :=
  match p.ipv4, p.ipv6 with
  | some ipv4, _ =>
    if swap then
      some { subflow with src_ip := ip_from_ipv4 ipv4.dst_ip, dst_ip := ip_from_ipv4 ipv4.src_ip }
    else
      some { subflow with src_ip := ip_from_ipv4 ipv4.src_ip, dst_ip := ip_from_ipv4 ipv4.dst_ip }
  | none, some ipv6 =>
    if swap then
      some { subflow with src_ip := ip_from_ipv6 ipv6.dst_ip, dst_ip := ip_from_ipv6 ipv6.src_ip }
    else
      some { subflow with src_ip := ip_from_ipv6 ipv6.src_ip, dst_ip := ip_from_ipv6 ipv6.dst_ip }
  | none, none => none

/-- Returns the new record (`none` for `NULL`) and the state; the record is the new head of
`subflows`. -/
def new_subflow_inbound (env : environment) (s : mp_state) (inbound_packet : packet) :
    Option mp_subflow × mp_state :=
  match subflow_addresses env.malloc_subflow inbound_packet false with
  | none => (none, s)
  | some subflow =>
    let subflow := { subflow with
      src_port := inbound_packet.tcp.src_port,
      dst_port := inbound_packet.tcp.dst_port,
      packetdrill_rand_nbr := env.generate_32,
      packetdrill_addr_id := to_u8 s.last_packetdrill_addr_id }
    (some subflow,
      { s with last_packetdrill_addr_id := to_unsigned (s.last_packetdrill_addr_id + 1),
               subflows := subflow :: s.subflows })

/-- Returns the new record (`none` for `NULL`) and the state; the record is the new head of
`subflows`. -/
def new_subflow_outound (env : environment) (s : mp_state) (outbound_packet : packet) :
    Option mp_subflow × mp_state :=
  match get_tcp_option outbound_packet TCPOPT_MPTCP with
  | none => (none, s)
  | some mp_join_syn =>
    match subflow_addresses env.malloc_subflow outbound_packet true with
    | none => (none, s)
    | some subflow =>
      let subflow := { subflow with
        src_port := outbound_packet.tcp.dst_port,
        dst_port := outbound_packet.tcp.src_port,
        kernel_rand_nbr := mp_join_syn.data.mp_join_syn.sender_random_number,
        kernel_addr_id := mp_join_syn.data.mp_join_syn.address_id }
      (some subflow, { s with subflows := subflow :: s.subflows })

/-- The first subflow of the list for which `match_ subflow packet` holds, with its position in
the list (the pointer the source returns); `none` is `NULL`. -/
def find_matching_subflow (subflows : List mp_subflow) (packet : packet)
    (match_ : mp_subflow → Mptcp.packet → Bool) : Option (Nat × mp_subflow) :=
  match subflows with
  | [] => none
  | subflow :: next =>
    if match_ subflow packet then some (0, subflow)
    else
      match find_matching_subflow next packet match_ with
      | none => none
      | some (i, found) => some (i + 1, found)

def does_subflow_match_outbound_packet (subflow : mp_subflow) (outbound_packet : packet) : Bool :=
  subflow.dst_port == outbound_packet.tcp.src_port &&
    subflow.src_port == outbound_packet.tcp.dst_port

def find_subflow_matching_outbound_packet (s : mp_state) (outbound_packet : packet) :
    Option (Nat × mp_subflow) :=
  find_matching_subflow s.subflows outbound_packet does_subflow_match_outbound_packet

def does_subflow_match_inbound_packet (subflow : mp_subflow) (inbound_packet : packet) : Bool :=
  subflow.dst_port == inbound_packet.tcp.dst_port &&
    subflow.src_port == inbound_packet.tcp.src_port

def find_subflow_matching_inbound_packet (s : mp_state) (inbound_packet : packet) :
    Option (Nat × mp_subflow) :=
  find_matching_subflow s.subflows inbound_packet does_subflow_match_inbound_packet

/-- A write through a subflow pointer: the record at position `i` becomes `f` of itself. -/
def write_subflow (f : mp_subflow → mp_subflow) : List mp_subflow → Nat → List mp_subflow
  | [], _ => []
  | subflow :: next, 0 => f subflow :: next
  | subflow :: next, i + 1 => subflow :: write_subflow f next i

/-! ## MP_CAPABLE -/

/-- What an option handler leaves behind when it returns: its return value, the state and the
option it was given to modify. -/
structure handled where
  error : Int
  state : mp_state
  opt : tcp_option
  deriving DecidableEq, Repr

/-- The C expression `a || b` on two status values. -/
def c_or (a b : Int) : Int := if a ≠ 0 ∨ b ≠ 0 then 1 else 0

def mptcp_gen_key (env : environment) (s : mp_state) : Int × mp_state :=
  match queue_front s.vars_queue with
  | none => (STATUS_ERR, s)
  | some snd_var_name =>
    if s.packetdrill_key_set = false then
      let key := env.generate_key64
      let s1 := set_packetdrill_key s key
      (STATUS_OK, add_mp_var_key s1 snd_var_name key_ptr.packetdrill_key)
    else (STATUS_OK, s)

def mptcp_set_mp_cap_syn_key (s : mp_state) (tcp_opt : tcp_option) : handled :=
  match find_next_key s with
  | (none, s1) => { error := STATUS_ERR, state := s1, opt := tcp_opt }
  | (some key, s1) =>
    { error := STATUS_OK, state := s1,
      opt := { tcp_opt with data := { tcp_opt.data with mp_capable_syn := { key := s1.deref key } } } }

def mptcp_set_mp_cap_keys (s : mp_state) (tcp_opt : tcp_option) : handled :=
  match find_next_key s with
  | (none, s1) => { error := STATUS_ERR, state := s1, opt := tcp_opt }
  | (some key, s1) =>
    let opt1 := { tcp_opt with data := { tcp_opt.data with
      mp_capable := { tcp_opt.data.mp_capable with sender_key := s1.deref key } } }
    match find_next_key s1 with
    | (none, s2) => { error := STATUS_ERR, state := s2, opt := opt1 }
    | (some key2, s2) =>
      { error := STATUS_OK, state := s2,
        opt := { opt1 with data := { opt1.data with
          mp_capable := { opt1.data.mp_capable with receiver_key := s2.deref key2 } } } }

def extract_and_set_kernel_key (s : mp_state) (live_packet : packet) : Int × mp_state :=
  match get_tcp_option live_packet TCPOPT_MPTCP with
  | none => (STATUS_ERR, s)
  | some mpcap_opt =>
    if s.kernel_key_set = false then
      let s1 := set_kernel_key s mpcap_opt.data.mp_capable_syn.key
      match queue_front s1.vars_queue with
      | none => (STATUS_ERR, s1)
      | some var_name => (STATUS_OK, add_mp_var_key s1 var_name key_ptr.kernel_key)
    else (STATUS_OK, s)

def mptcp_subtype_mp_capable (env : environment) (s : mp_state) (packet_to_modify : packet)
    (live_packet : packet) (tcp_opt_to_modify : tcp_option) (direction : Nat) : handled :=
  if tcp_opt_to_modify.length = TCPOLEN_MP_CAPABLE_SYN ∧ packet_to_modify.tcp.syn = true ∧
      direction = DIRECTION_INBOUND ∧ packet_to_modify.tcp.ack = false then
    let (error, s1) := mptcp_gen_key env s
    let r := mptcp_set_mp_cap_syn_key s1 tcp_opt_to_modify
    { r with error := c_or r.error error }
  else if tcp_opt_to_modify.length = TCPOLEN_MP_CAPABLE_SYN ∧ packet_to_modify.tcp.syn = true ∧
      direction = DIRECTION_OUTBOUND then
    let (_, s1) := extract_and_set_kernel_key s live_packet
    mptcp_set_mp_cap_syn_key s1 tcp_opt_to_modify
  else if tcp_opt_to_modify.length = TCPOLEN_MP_CAPABLE ∧ packet_to_modify.tcp.syn = false ∧
      packet_to_modify.tcp.ack = true then
    mptcp_set_mp_cap_keys s tcp_opt_to_modify
  else if tcp_opt_to_modify.length = TCPOLEN_MP_CAPABLE_SYN ∧ packet_to_modify.tcp.syn = true ∧
      direction = DIRECTION_INBOUND ∧ packet_to_modify.tcp.ack = true then
    let (error, s1) := mptcp_gen_key env s
    let r := mptcp_set_mp_cap_syn_key s1 tcp_opt_to_modify
    { r with error := c_or r.error error }
  else
    { error := STATUS_ERR, state := s, opt := tcp_opt_to_modify }

/-! ## MP_JOIN -/

def mptcp_subtype_mp_join (c : crypto) (env : environment) (s : mp_state)
    (packet_to_modify : packet) (live_packet : packet) (tcp_opt_to_modify : tcp_option)
    (direction : Nat) : outcome handled :=
  if direction = DIRECTION_INBOUND ∧ packet_to_modify.tcp.ack = false ∧
      packet_to_modify.tcp.syn = true ∧ tcp_opt_to_modify.length = TCPOLEN_MP_JOIN_SYN then
    match new_subflow_inbound env s packet_to_modify with
    | (none, s1) =>
      outcome.returned { error := STATUS_ERR, state := s1, opt := tcp_opt_to_modify }
    | (some subflow, s1) =>
      outcome.returned {
        error := STATUS_OK, state := s1,
        opt := { tcp_opt_to_modify with data := { tcp_opt_to_modify.data with
          mp_join_syn := {
            receiver_token := c.get_token_32 s1.kernel_key,
            sender_random_number := subflow.packetdrill_rand_nbr,
            address_id := subflow.packetdrill_addr_id } } } }
  else if direction = DIRECTION_OUTBOUND ∧ packet_to_modify.tcp.ack = true ∧
      packet_to_modify.tcp.syn = true ∧ tcp_opt_to_modify.length = TCPOLEN_MP_JOIN_SYN_ACK then
    match find_subflow_matching_outbound_packet s live_packet,
        get_tcp_option live_packet TCPOPT_MPTCP with
    | some (i, subflow), some live_mp_join =>
      let update := fun (sf : mp_subflow) => { sf with
        kernel_addr_id := live_mp_join.data.mp_join_syn_ack.address_id,
        kernel_rand_nbr := live_mp_join.data.mp_join_syn_ack.sender_random_number }
      let subflow1 := update subflow
      outcome.returned {
        error := STATUS_OK,
        state := { s with subflows := write_subflow update s.subflows i },
        opt := { tcp_opt_to_modify with data := { tcp_opt_to_modify.data with
          mp_join_syn_ack := {
            address_id := live_mp_join.data.mp_join_syn_ack.address_id,
            sender_random_number := live_mp_join.data.mp_join_syn_ack.sender_random_number,
            sender_hmac := c.hmac_sha1_truncat_64
              (hmac_key s.kernel_key s.packetdrill_key)
              (hmac_msg subflow1.kernel_rand_nbr subflow1.packetdrill_rand_nbr) } } } }
    | _, _ => outcome.returned { error := STATUS_ERR, state := s, opt := tcp_opt_to_modify }
  else if direction = DIRECTION_INBOUND ∧ packet_to_modify.tcp.ack = true ∧
      packet_to_modify.tcp.syn = false ∧ tcp_opt_to_modify.length = TCPOLEN_MP_JOIN_ACK then
    match find_subflow_matching_inbound_packet s packet_to_modify with
    | none => outcome.returned { error := STATUS_ERR, state := s, opt := tcp_opt_to_modify }
    | some (_, subflow) =>
      outcome.returned {
        error := STATUS_OK, state := s,
        opt := { tcp_opt_to_modify with data := { tcp_opt_to_modify.data with
          mp_join_ack := {
            sender_hmac := c.hmac_sha1
              (hmac_key s.packetdrill_key s.kernel_key)
              (hmac_msg subflow.packetdrill_rand_nbr subflow.kernel_rand_nbr) } } } }
  else if direction = DIRECTION_OUTBOUND ∧ packet_to_modify.tcp.ack = false ∧
      packet_to_modify.tcp.syn = true ∧ tcp_opt_to_modify.length = TCPOLEN_MP_JOIN_SYN then
    match new_subflow_outound env s live_packet with
    | (none, _) => outcome.null_dereference
    | (some subflow, s1) =>
      outcome.returned {
        error := STATUS_OK, state := s1,
        opt := { tcp_opt_to_modify with data := { tcp_opt_to_modify.data with
          mp_join_syn := {
            address_id := subflow.kernel_addr_id,
            sender_random_number := subflow.kernel_rand_nbr,
            receiver_token := c.get_token_32 s1.kernel_key } } } }
  else if direction = DIRECTION_INBOUND ∧ packet_to_modify.tcp.ack = true ∧
      packet_to_modify.tcp.syn = true ∧ tcp_opt_to_modify.length = TCPOLEN_MP_JOIN_SYN_ACK then
    match find_subflow_matching_inbound_packet s packet_to_modify with
    | none => outcome.returned { error := STATUS_ERR, state := s, opt := tcp_opt_to_modify }
    | some (i, subflow) =>
      let update := fun (sf : mp_subflow) => { sf with packetdrill_rand_nbr := env.generate_32 }
      let subflow1 := update subflow
      outcome.returned {
        error := STATUS_OK,
        state := { s with
          subflows := write_subflow update s.subflows i,
          last_packetdrill_addr_id := to_unsigned (s.last_packetdrill_addr_id + 1) },
        opt := { tcp_opt_to_modify with data := { tcp_opt_to_modify.data with
          mp_join_syn_ack := {
            address_id := to_u8 s.last_packetdrill_addr_id,
            sender_random_number := subflow1.packetdrill_rand_nbr,
            sender_hmac := c.hmac_sha1_truncat_64
              (hmac_key s.packetdrill_key s.kernel_key)
              (hmac_msg subflow1.packetdrill_rand_nbr subflow1.kernel_rand_nbr) } } } }
  else if direction = DIRECTION_OUTBOUND ∧ packet_to_modify.tcp.ack = true ∧
      packet_to_modify.tcp.syn = false ∧ tcp_opt_to_modify.length = TCPOLEN_MP_JOIN_ACK then
    match find_subflow_matching_outbound_packet s packet_to_modify with
    | none => outcome.returned { error := STATUS_ERR, state := s, opt := tcp_opt_to_modify }
    | some (_, subflow) =>
      outcome.returned {
        error := STATUS_OK, state := s,
        opt := { tcp_opt_to_modify with data := { tcp_opt_to_modify.data with
          mp_join_ack := {
            sender_hmac := c.hmac_sha1
              (hmac_key s.kernel_key s.packetdrill_key)
              (hmac_msg subflow.kernel_rand_nbr subflow.packetdrill_rand_nbr) } } } }
  else
    outcome.returned { error := STATUS_ERR, state := s, opt := tcp_opt_to_modify }

/-! ## Top-level driver -/

/-- The `switch` on the option's subtype in the loop body of
`mptcp_insert_and_extract_opt_fields`. -/
def mptcp_option_switch (c : crypto) (env : environment) (s : mp_state)
    (packet_to_modify : packet) (live_packet : packet) (tcp_opt_to_modify : tcp_option)
    (direction : Nat) : outcome handled :=
  if tcp_opt_to_modify.data.mp_capable.subtype = MP_CAPABLE_SUBTYPE then
    outcome.returned
      (mptcp_subtype_mp_capable env s packet_to_modify live_packet tcp_opt_to_modify direction)
  else if tcp_opt_to_modify.data.mp_capable.subtype = MP_JOIN_SUBTYPE then
    mptcp_subtype_mp_join c env s packet_to_modify live_packet tcp_opt_to_modify direction
  else
    outcome.returned { error := STATUS_ERR, state := s, opt := tcp_opt_to_modify }

/-- What the driver leaves behind when it returns: its return value, the state and the packet
it was given to modify. -/
structure processed where
  error : Int
  state : mp_state
  packet : packet
  deriving DecidableEq, Repr

/-- The `while` loop of `mptcp_insert_and_extract_opt_fields`: `visited` are the options the
iterator has passed (as the handlers left them), the second list the options still to visit.
`live_packet = none` stands for a live packet that is the very object `packet_to_modify`, so that
it shows the modifications made so far. The handler of the option at position `i` is given
`envs i`. -/
def options_loop (c : crypto) (envs : Nat → environment) (live_packet : Option packet)
    (direction : Nat) (packet_to_modify : packet) :
    List tcp_option → List tcp_option → mp_state → outcome processed
  | visited, [], s =>
    outcome.returned {
      error := STATUS_OK, state := s,
      packet := { packet_to_modify with tcp_options := visited } }
  | visited, tcp_opt_to_modify :: rest, s =>
    if tcp_opt_to_modify.kind = TCPOPT_MPTCP then
      let current := { packet_to_modify with tcp_options := visited ++ tcp_opt_to_modify :: rest }
      let live := match live_packet with
        | none => current
        | some l => l
      match mptcp_option_switch c (envs visited.length) s current live tcp_opt_to_modify
          direction with
      | outcome.null_dereference => outcome.null_dereference
      | outcome.returned r =>
        if r.error ≠ 0 then
          outcome.returned {
            error := STATUS_ERR, state := r.state,
            packet := { packet_to_modify with tcp_options := visited ++ r.opt :: rest } }
        else
          options_loop c envs live_packet direction packet_to_modify (visited ++ [r.opt]) rest
            r.state
    else
      options_loop c envs live_packet direction packet_to_modify (visited ++ [tcp_opt_to_modify])
        rest s

def mptcp_insert_and_extract_opt_fields (c : crypto) (envs : Nat → environment) (s : mp_state)
    (packet_to_modify : packet) (live_packet : Option packet) (direction : Nat) :
    outcome processed :=
  options_loop c envs live_packet direction packet_to_modify [] packet_to_modify.tcp_options s

/-! ## Runs of the engine -/

/-- What happens to `mp_state` between start-up and teardown: the script parser leaves the
pending queue with some contents `queue` (nothing is assumed about how it changes the queue), or
the driver processes a packet. -/
inductive event where
  | parse (queue : List String)
  | process (envs : Nat → environment) (packet_to_modify : packet)
      (live_packet : Option packet) (direction : Nat)

/-- The state after one event; `none` when the driver dereferenced `NULL`. -/
def step (c : crypto) (s : mp_state) : event → Option mp_state
  | event.parse queue => some { s with vars_queue := queue }
  | event.process envs packet_to_modify live_packet direction =>
    match mptcp_insert_and_extract_opt_fields c envs s packet_to_modify live_packet direction with
    | outcome.returned r => some r.state
    | outcome.null_dereference => none

/-- The state after a sequence of events; `none` when one of them dereferenced `NULL`. -/
def run (c : crypto) (s : mp_state) : List event → Option mp_state
  | [] => some s
  | e :: es =>
    match step c s e with
    | none => none
    | some s1 => run c s1 es

/-- A key that is set in `s` is still set in `t` and has the same value there. -/
def keys_kept (s t : mp_state) : Prop :=
  (s.packetdrill_key_set = true →
    t.packetdrill_key_set = true ∧ t.packetdrill_key = s.packetdrill_key) ∧
  (s.kernel_key_set = true → t.kernel_key_set = true ∧ t.kernel_key = s.kernel_key)

/-- The local address id that a returned call of `mptcp_subtype_mp_join` handed out, read off
what the call left behind: on a successful inbound SYN (case 1) the id stored in the record that
`new_subflow_inbound` put at the head of the registry, on a successful inbound SYN-ACK (case 5)
the `address_id` written into the option; `none` for every other call. -/
def handed_out_id (packet_to_modify : packet) (tcp_opt_to_modify : tcp_option) (direction : Nat)
    (r : handled) : Option Nat :=
  if r.error = STATUS_OK ∧ direction = DIRECTION_INBOUND ∧ packet_to_modify.tcp.syn = true then
    if packet_to_modify.tcp.ack = false ∧ tcp_opt_to_modify.length = TCPOLEN_MP_JOIN_SYN then
      r.state.subflows.head?.map (fun subflow => subflow.packetdrill_addr_id)
    else if packet_to_modify.tcp.ack = true ∧
        tcp_opt_to_modify.length = TCPOLEN_MP_JOIN_SYN_ACK then
      some r.opt.data.mp_join_syn_ack.address_id
    else none
  else none

/-- The local address ids handed out by the MP_JOIN handler calls of the driver's loop, in the
order of the calls. It follows `options_loop` step by step and only observes what each handler
call left behind (those before a `NULL` dereference included). -/
def options_loop_ids (c : crypto) (envs : Nat → environment) (live_packet : Option packet)
    (direction : Nat) (packet_to_modify : packet) :
    List tcp_option → List tcp_option → mp_state → List Nat
  | _, [], _ => []
  | visited, tcp_opt_to_modify :: rest, s =>
    if tcp_opt_to_modify.kind = TCPOPT_MPTCP then
      let current := { packet_to_modify with tcp_options := visited ++ tcp_opt_to_modify :: rest }
      let live := match live_packet with
        | none => current
        | some l => l
      match mptcp_option_switch c (envs visited.length) s current live tcp_opt_to_modify
          direction with
      | outcome.null_dereference => []
      | outcome.returned r =>
        (if tcp_opt_to_modify.data.mp_capable.subtype = MP_JOIN_SUBTYPE then
          (handed_out_id current tcp_opt_to_modify direction r).toList
        else []) ++
        (if r.error ≠ 0 then []
        else
          options_loop_ids c envs live_packet direction packet_to_modify (visited ++ [r.opt])
            rest r.state)
    else
      options_loop_ids c envs live_packet direction packet_to_modify
        (visited ++ [tcp_opt_to_modify]) rest s

/-- The local address ids handed out during one event. -/
def step_ids (c : crypto) (s : mp_state) : event → List Nat
  | event.parse _ => []
  | event.process envs packet_to_modify live_packet direction =>
    options_loop_ids c envs live_packet direction packet_to_modify []
      packet_to_modify.tcp_options s

/-- The local address ids handed out during a sequence of events, in order. -/
def run_ids (c : crypto) (s : mp_state) : List event → List Nat
  | [] => []
  | e :: es =>
    step_ids c s e ++
      (match step c s e with
        | none => []
        | some s1 => run_ids c s1 es)

/-- The ids `to_u8 ctr`, `to_u8 (ctr + 1)`, ..., `to_u8 (ctr + k - 1)`: what `k` successive
hand-outs give when the counter starts at `ctr`. -/
def ids_from (ctr k : Nat) : List Nat := (List.range k).map (fun j => to_u8 (ctr + j))

/-- The registry a sequence of events leaves when it starts from the start-up state (empty when
the driver dereferenced `NULL` on the way). -/
def registry_after (c : crypto) (es : List event) : List mp_subflow :=
  match run c initial_state es with
  | some s => s.subflows
  | none => []

/-- The state a sequence of events leaves when it starts from the start-up state (the start-up
state itself when the driver dereferenced `NULL` on the way). -/
def state_after (c : crypto) (es : List event) : mp_state :=
  match run c initial_state es with
  | some s => s
  | none => initial_state

/-- The handler calls that the driver's loop makes, in order: the position in the packet of the
option handled and the outcome of its handler. It follows `options_loop` step by step. -/
def handler_calls (c : crypto) (envs : Nat → environment) (live_packet : Option packet)
    (direction : Nat) (packet_to_modify : packet) :
    List tcp_option → List tcp_option → mp_state → List (Nat × outcome handled)
  | _, [], _ => []
  | visited, tcp_opt_to_modify :: rest, s =>
    if tcp_opt_to_modify.kind = TCPOPT_MPTCP then
      let current := { packet_to_modify with tcp_options := visited ++ tcp_opt_to_modify :: rest }
      let live := match live_packet with
        | none => current
        | some l => l
      match mptcp_option_switch c (envs visited.length) s current live tcp_opt_to_modify
          direction with
      | outcome.null_dereference => [(visited.length, outcome.null_dereference)]
      | outcome.returned r =>
        (visited.length, outcome.returned r) ::
          (if r.error ≠ 0 then []
          else
            handler_calls c envs live_packet direction packet_to_modify (visited ++ [r.opt])
              rest r.state)
    else
      handler_calls c envs live_packet direction packet_to_modify
        (visited ++ [tcp_opt_to_modify]) rest s

/-- The handler calls that one call of `mptcp_insert_and_extract_opt_fields` makes, in order. -/
def driver_calls (c : crypto) (envs : Nat → environment) (s : mp_state)
    (packet_to_modify : packet) (live_packet : Option packet) (direction : Nat) :
    List (Nat × outcome handled) :=
  handler_calls c envs live_packet direction packet_to_modify [] packet_to_modify.tcp_options s

/-- A call of one of the two functions that create a subflow, with what it is given. -/
inductive creation where
  | inbound (env : environment) (inbound_packet : packet)
  | outbound (env : environment) (outbound_packet : packet)

/-- One creation call: the record it returns (`none` for `NULL`) and the state it leaves. -/
def create_subflow (s : mp_state) : creation → Option mp_subflow × mp_state
  | creation.inbound env inbound_packet => new_subflow_inbound env s inbound_packet
  | creation.outbound env outbound_packet => new_subflow_outound env s outbound_packet

/-- A sequence of creation calls, one after the other: the records they returned, the oldest
first, and the state they leave. -/
def create_subflows (s : mp_state) : List creation → List mp_subflow × mp_state
  | [] => ([], s)
  | call :: calls =>
    match create_subflow s call with
    | (none, s1) => create_subflows s1 calls
    | (some subflow, s1) =>
      ((subflow :: (create_subflows s1 calls).1), (create_subflows s1 calls).2)

/-- What it means for a lookup result to be the most recently created match: `age` lists the
records from the oldest to the youngest. A result `some (i, subflow)` is the record at some place
`k` of `age`, it matches the packet, no younger record (at a place after `k`) matches, and `i`
counts its place from the youngest record. A result `none` means that no record matches. -/
def most_recent_match (age : List mp_subflow) (packet : packet)
    (match_ : mp_subflow → Mptcp.packet → Bool) : Option (Nat × mp_subflow) → Prop
  | none => ∀ subflow ∈ age, match_ subflow packet = false
  | some (i, subflow) =>
    ∃ k, age[k]? = some subflow ∧ i + k + 1 = age.length ∧ match_ subflow packet = true ∧
      ∀ j younger, k < j → age[j]? = some younger → match_ younger packet = false

/-- The number of entries of the variable map whose value is the pointer `key`. -/
def bindings_of (s : mp_state) (key : key_ptr) : Nat :=
  s.vars.countP (fun var => var.value == key)

/-- The invariant of the variable map: every entry is of kind `KEY`, and the map holds at most
one entry pointing to the local key and none while `packetdrill_key_set` is false, and likewise
for the remote key and `kernel_key_set`. -/
def bindings_invariant (s : mp_state) : Prop :=
  (∀ var ∈ s.vars, var.type = KEY) ∧
  bindings_of s key_ptr.packetdrill_key ≤ (if s.packetdrill_key_set = true then 1 else 0) ∧
  bindings_of s key_ptr.kernel_key ≤ (if s.kernel_key_set = true then 1 else 0)

/-- From `s` to `t` the invariant of the variable map is kept and no entry of the map is removed
or changed: the map of `s` is an initial segment of the map of `t`. -/
def bindings_kept (s t : mp_state) : Prop :=
  (bindings_invariant s → bindings_invariant t) ∧ s.vars <+: t.vars

/-! ## Names in memory

`mp_state` above holds the pending names and the names of the variables as strings. The
definitions of this section follow the bytes of a name through `enqueue_var`, `dequeue_var`,
`add_mp_var_key` and `find_next_key`: a pointer to a string is the block of memory it points to
the start of, and a read or write past the end of a block has no result. -/

/-- The C library's `strlen` on a pointer to the start of a block of memory, the block given by
its bytes: the number of bytes before the first zero byte. `none` when the block holds no zero
byte: the scan then reads past the end of the block. -/
def strlen : List Nat → Option Nat
  | [] => none
  | b :: rest =>
    if b = 0 then some 0
    else
      match strlen rest with
      | none => none
      | some n => some (n + 1)

/-- The C library's `malloc(size)`: a block of `size` bytes whose contents are unspecified, here
the values that `fill` gives (`malloc` is taken to succeed). -/
def malloc (fill : Nat → Nat) (size : Nat) : List Nat := (List.range size).map fill

/-- The C library's `memcpy(dst, src, n)` with both pointers at the start of their blocks: the
first `n` bytes of `dst` become the first `n` bytes of `src`. `none` when `n` exceeds one of the
two blocks. -/
def memcpy (dst src : List Nat) (n : Nat) : Option (List Nat) :=
  if n ≤ dst.length ∧ n ≤ src.length then some (src.take n ++ dst.drop n) else none

/-- The characters of the string that starts a block: its bytes before the first zero byte. -/
def chars (block : List Nat) : List Nat := block.takeWhile (fun b => b != 0)

/-- A script variable (`struct mp_var`) with its name as it lies in memory: the block that
`var->name` points to. -/
structure Memory.mp_var where
  name : List Nat
  value : key_ptr
  type : Nat
  deriving DecidableEq, Repr

/-- The two members of `mp_state` that hold names, as they lie in memory: the blocks that the
elements of `vars_queue` point to, and the entries of the hashmap `vars`. -/
structure Memory.mp_state where
  vars_queue : List (List Nat)
  vars : List Memory.mp_var
  deriving DecidableEq, Repr

/-- Modelled from the spec: `queue_enqueue` of the missing queue, a "FIFO queue": the element is
put behind the elements already there. The source says of `enqueue_var` that an "error is
returned if queue is full"; how many elements the queue takes is the parameter `capacity`. -/
def Memory.queue_enqueue (capacity : Nat) (q : List (List Nat)) (el : List Nat) :
    Int × List (List Nat) :=
  if q.length < capacity then (STATUS_OK, q ++ [el]) else (STATUS_ERR, q)

/-- Modelled from the spec: `queue_dequeue` of the missing queue, "pops and returns the front";
`none` is the error returned on an empty queue. -/
def Memory.queue_dequeue (q : List (List Nat)) : Option (List Nat × List (List Nat)) :=
  match q with
  | [] => none
  | el :: rest => some (el, rest)

/-- The function `enqueue_var` on the level of bytes; `name` is the block of the caller's string.
Returns `full_err` and the state; `none` when a read or write runs past the end of a block. -/
def Memory.enqueue_var (fill : Nat → Nat) (capacity : Nat) (s : Memory.mp_state)
    (name : List Nat) : Option (Int × Memory.mp_state) :=
  match strlen name with
  | none => none
  | some name_length =>
    match memcpy (malloc fill name_length) name name_length with
    | none => none
    | some new_el =>
      let (full_err, q) := Memory.queue_enqueue capacity s.vars_queue new_el
      some (full_err, { s with vars_queue := q })

/-- The function `dequeue_var` on the level of bytes: the block the dequeued pointer points to
and the state; `none` is `empty_err`. -/
def Memory.dequeue_var (s : Memory.mp_state) : Option (List Nat × Memory.mp_state) :=
  match Memory.queue_dequeue s.vars_queue with
  | none => none
  | some (name, rest) => some (name, { s with vars_queue := rest })

/-- Modelled from the spec: `HASH_ADD_KEYPTR(hh, mp_state.vars, var->name, strlen(var->name),
var)` of the missing hashmap, an insertion that never overwrites or removes an entry. The key
length is computed by `strlen` on the entry's name: `none` when that read runs past the end of
the block. -/
def Memory.add_mp_var (s : Memory.mp_state) (var : Memory.mp_var) : Option Memory.mp_state :=
  match strlen var.name with
  | none => none
  | some _ => some { s with vars := s.vars ++ [var] }

/-- The function `add_mp_var_key` on the level of bytes; `none` when a read or write runs past
the end of a block. -/
def Memory.add_mp_var_key (fill : Nat → Nat) (s : Memory.mp_state) (name : List Nat)
    (key : key_ptr) : Option Memory.mp_state :=
  match strlen name with
  | none => none
  | some name_length =>
    match memcpy (malloc fill (name_length + 1)) name (name_length + 1) with
    | none => none
    | some var_name => Memory.add_mp_var s { name := var_name, value := key, type := KEY }

/-- Modelled from the spec: `HASH_FIND_STR` of the missing hashmap, which measures the string it
is given with `strlen` and returns the entry whose key equals its characters (the first one
written when there are several), `NULL` if there is none. The outer `none`: the read of `name`
runs past the end of its block. -/
def Memory.find_mp_var (s : Memory.mp_state) (name : List Nat) :
    Option (Option Memory.mp_var) :=
  match strlen name with
  | none => none
  | some name_length =>
    some (s.vars.find? (fun var => chars var.name == name.take name_length))

/-- The function `find_next_key` on the level of bytes: the pointer (`none` for `NULL`) and the
state; the outer `none` when a read runs past the end of a block. Every element of the queue
is a pointer that `enqueue_var` got from `malloc`, which is taken to succeed, so the test
`!var_name` of the source never fires. -/
def Memory.find_next_key (s : Memory.mp_state) : Option (Option key_ptr × Memory.mp_state) :=
  match Memory.dequeue_var s with
  | none => some (none, s)
  | some (var_name, s1) =>
    match Memory.find_mp_var s1 var_name with
    | none => none
    | some none => some (none, s1)
    | some (some var) => if var.type ≠ KEY then some (none, s1) else some (some var.value, s1)

/-! ## MP_CAPABLE with the names in memory

The MP_CAPABLE handlers once more, this time handing the blocks of the pending queue to
`add_mp_var_key` and `find_next_key` as the source does. -/

/-- The part of `mp_state` that the MP_CAPABLE handlers read and write: the two keys, their
flags, and the two members that hold names, as they lie in memory. -/
structure Memory.state where
  packetdrill_key : Nat
  kernel_key : Nat
  packetdrill_key_set : Bool
  kernel_key_set : Bool
  names : Memory.mp_state
  deriving DecidableEq, Repr

/-- The value a key pointer points to. -/
def Memory.state.deref (s : Memory.state) : key_ptr → Nat
  | key_ptr.packetdrill_key => s.packetdrill_key
  | key_ptr.kernel_key => s.kernel_key

/-- What an MP_CAPABLE handler leaves behind when it returns: its return value, the state and
the option it was given to modify. -/
structure Memory.handled where
  error : Int
  state : Memory.state
  opt : tcp_option
  deriving DecidableEq, Repr

def Memory.set_packetdrill_key (s : Memory.state) (sender_key : Nat) : Memory.state :=
  { s with packetdrill_key := sender_key, packetdrill_key_set := true }

def Memory.set_kernel_key (s : Memory.state) (receiver_key : Nat) : Memory.state :=
  { s with kernel_key := receiver_key, kernel_key_set := true }

/-- Modelled from the spec: `queue_front` of the missing queue, "reads without popping": the
pointer at the front (the block it points to); `none` is the error returned on an empty queue. -/
def Memory.queue_front (q : List (List Nat)) : Option (List Nat) := q.head?

/-- The function `mptcp_gen_key` on the level of bytes: its return value and the state; `none`
when a read runs past the end of a block. -/
def Memory.mptcp_gen_key (fill : Nat → Nat) (env : environment) (s : Memory.state) :
    Option (Int × Memory.state) :=
  match Memory.queue_front s.names.vars_queue with
  | none => some (STATUS_ERR, s)
  | some snd_var_name =>
    if s.packetdrill_key_set = false then
      let key := env.generate_key64
      let s1 := Memory.set_packetdrill_key s key
      match Memory.add_mp_var_key fill s1.names snd_var_name key_ptr.packetdrill_key with
      | none => none
      | some names1 => some (STATUS_OK, { s1 with names := names1 })
    else some (STATUS_OK, s)

/-- The function `mptcp_set_mp_cap_syn_key` on the level of bytes; `none` when a read runs past
the end of a block. -/
def Memory.mptcp_set_mp_cap_syn_key (s : Memory.state) (tcp_opt : tcp_option) :
    Option Memory.handled :=
  match Memory.find_next_key s.names with
  | none => none
  | some (none, names1) =>
    some { error := STATUS_ERR, state := { s with names := names1 }, opt := tcp_opt }
  | some (some key, names1) =>
    some {
      error := STATUS_OK, state := { s with names := names1 },
      opt := { tcp_opt with data := { tcp_opt.data with
        mp_capable_syn := { key := s.deref key } } } }

/-- The function `mptcp_set_mp_cap_keys` on the level of bytes; `none` when a read runs past the
end of a block. -/
def Memory.mptcp_set_mp_cap_keys (s : Memory.state) (tcp_opt : tcp_option) :
    Option Memory.handled :=
  match Memory.find_next_key s.names with
  | none => none
  | some (none, names1) =>
    some { error := STATUS_ERR, state := { s with names := names1 }, opt := tcp_opt }
  | some (some key, names1) =>
    let opt1 := { tcp_opt with data := { tcp_opt.data with
      mp_capable := { tcp_opt.data.mp_capable with sender_key := s.deref key } } }
    match Memory.find_next_key names1 with
    | none => none
    | some (none, names2) =>
      some { error := STATUS_ERR, state := { s with names := names2 }, opt := opt1 }
    | some (some key2, names2) =>
      some {
        error := STATUS_OK, state := { s with names := names2 },
        opt := { opt1 with data := { opt1.data with
          mp_capable := { opt1.data.mp_capable with receiver_key := s.deref key2 } } } }

/-- The function `extract_and_set_kernel_key` on the level of bytes: its return value and the
state; `none` when a read runs past the end of a block. -/
def Memory.extract_and_set_kernel_key (fill : Nat → Nat) (s : Memory.state)
    (live_packet : packet) : Option (Int × Memory.state) :=
  match get_tcp_option live_packet TCPOPT_MPTCP with
  | none => some (STATUS_ERR, s)
  | some mpcap_opt =>
    if s.kernel_key_set = false then
      let s1 := Memory.set_kernel_key s mpcap_opt.data.mp_capable_syn.key
      match Memory.queue_front s1.names.vars_queue with
      | none => some (STATUS_ERR, s1)
      | some var_name =>
        match Memory.add_mp_var_key fill s1.names var_name key_ptr.kernel_key with
        | none => none
        | some names1 => some (STATUS_OK, { s1 with names := names1 })
    else some (STATUS_OK, s)

/-- The function `mptcp_subtype_mp_capable` on the level of bytes; `none` when a read runs past
the end of a block. -/
def Memory.mptcp_subtype_mp_capable (fill : Nat → Nat) (env : environment) (s : Memory.state)
    (packet_to_modify : packet) (live_packet : packet) (tcp_opt_to_modify : tcp_option)
    (direction : Nat) : Option Memory.handled :=
  if tcp_opt_to_modify.length = TCPOLEN_MP_CAPABLE_SYN ∧ packet_to_modify.tcp.syn = true ∧
      direction = DIRECTION_INBOUND ∧ packet_to_modify.tcp.ack = false then
    match Memory.mptcp_gen_key fill env s with
    | none => none
    | some (error, s1) =>
      match Memory.mptcp_set_mp_cap_syn_key s1 tcp_opt_to_modify with
      | none => none
      | some r => some { r with error := c_or r.error error }
  else if tcp_opt_to_modify.length = TCPOLEN_MP_CAPABLE_SYN ∧ packet_to_modify.tcp.syn = true ∧
      direction = DIRECTION_OUTBOUND then
    match Memory.extract_and_set_kernel_key fill s live_packet with
    | none => none
    | some (_, s1) => Memory.mptcp_set_mp_cap_syn_key s1 tcp_opt_to_modify
  else if tcp_opt_to_modify.length = TCPOLEN_MP_CAPABLE ∧ packet_to_modify.tcp.syn = false ∧
      packet_to_modify.tcp.ack = true then
    Memory.mptcp_set_mp_cap_keys s tcp_opt_to_modify
  else if tcp_opt_to_modify.length = TCPOLEN_MP_CAPABLE_SYN ∧ packet_to_modify.tcp.syn = true ∧
      direction = DIRECTION_INBOUND ∧ packet_to_modify.tcp.ack = true then
    match Memory.mptcp_gen_key fill env s with
    | none => none
    | some (error, s1) =>
      match Memory.mptcp_set_mp_cap_syn_key s1 tcp_opt_to_modify with
      | none => none
      | some r => some { r with error := c_or r.error error }
  else
    some { error := STATUS_ERR, state := s, opt := tcp_opt_to_modify }

/-- The script parser's calls of `enqueue_var`, one per name, in order: the state of the names
after them; `none` when a read or write runs past the end of a block. -/
def Memory.enqueue_vars (fill : Nat → Nat) (capacity : Nat) (s : Memory.mp_state) :
    List (List Nat) → Option Memory.mp_state
  | [] => some s
  | name :: names =>
    match Memory.enqueue_var fill capacity s name with
    | none => none
    | some (_, s1) => Memory.enqueue_vars fill capacity s1 names

/-! ## Concrete inputs -/

/-- An option of the given kind, length and subtype whose other payload fields are zero. -/
def blank_option (kind length subtype : Nat) : tcp_option :=
  { kind := kind, length := length,
    data := {
      mp_capable_syn := { key := 0 },
      mp_capable := { subtype := subtype, sender_key := 0, receiver_key := 0 },
      mp_join_syn := { address_id := 0, receiver_token := 0, sender_random_number := 0 },
      mp_join_syn_ack := { address_id := 0, sender_hmac := 0, sender_random_number := 0 },
      mp_join_ack := { sender_hmac := [] } } }

/-- An IPv4 packet between ports `src_port` and `dst_port` with the given flags and options. -/
def ipv4_packet (src_port dst_port : Nat) (syn ack : Bool) (opts : List tcp_option) : packet :=
  { ipv4 := some { src_ip := 1, dst_ip := 2 }, ipv6 := none,
    tcp := { src_port := src_port, dst_port := dst_port, syn := syn, ack := ack },
    tcp_options := opts }

/-- A subflow record whose fields are all zero. -/
def blank_subflow : mp_subflow :=
  { src_ip := ip_address.v4 0, dst_ip := ip_address.v4 0, src_port := 0, dst_port := 0,
    kernel_rand_nbr := 0, packetdrill_rand_nbr := 0, packetdrill_addr_id := 0,
    kernel_addr_id := 0 }

/-- An environment drawing `key` as 64-bit value and `rand` as 32-bit value. -/
def draws (key rand : Nat) : environment :=
  { generate_key64 := key, generate_32 := rand, malloc_subflow := blank_subflow }

/-- A stand-in for the cryptographic collaborators that keeps its inputs visible: the digest is
the key bytes followed by the message bytes. -/
def transparent_crypto : crypto :=
  { hmac_sha1 := fun key msg => key ++ msg,
    hmac_sha1_truncat_64 := fun key msg => (key ++ msg).sum,
    get_token_32 := fun key => key % 2 ^ 32 }

/-- The subflow of scenario B, between ports 1000 and 2000, holding both random numbers. -/
def scenario_b_subflow : mp_subflow :=
  { blank_subflow with
    src_port := 1000, dst_port := 2000,
    packetdrill_rand_nbr := 0xAAAA0001, kernel_rand_nbr := 0xBBBB0002 }

/-- The subflow of scenario B before the peer's SYN-ACK has been seen: it holds only the local
random number. -/
def scenario_b_fresh_subflow : mp_subflow :=
  { blank_subflow with src_port := 1000, dst_port := 2000, packetdrill_rand_nbr := 0xAAAA0001 }

/-- The state of scenario B: both keys set and the one subflow registered. -/
def scenario_b_state : mp_state :=
  { initial_state with
    packetdrill_key := 0x1111111111111111, kernel_key := 0x2222222222222222,
    packetdrill_key_set := true, kernel_key_set := true,
    subflows := [scenario_b_subflow] }

/-- A live MP_JOIN SYN-ACK option carrying address id 5 and sender random `0xBBBB0002`. -/
def live_syn_ack_option : tcp_option :=
  { blank_option 30 16 1 with data := { (blank_option 30 16 1).data with
      mp_join_syn_ack := { address_id := 5, sender_hmac := 0, sender_random_number := 0xBBBB0002 } } }

/-- An inbound SYN (ACK clear) between ports 1000 and 2000 carrying one MP_CAPABLE option of
length 12. -/
def inbound_capable_syn : packet := ipv4_packet 1000 2000 true false [blank_option 30 12 0]

/-- A live SYN from the peer between ports 2000 and 1000 whose MP_CAPABLE option carries the
key `0x2222222222222222`. -/
def live_capable_syn : packet :=
  ipv4_packet 2000 1000 true false
    [{ blank_option 30 12 0 with data := { (blank_option 30 12 0).data with
        mp_capable_syn := { key := 0x2222222222222222 } } }]

/-- The script's view of an outbound SYN between ports 2000 and 1000 with one MP_CAPABLE option
of length 12. -/
def outbound_capable_syn : packet := ipv4_packet 2000 1000 true false [blank_option 30 12 0]

/-- The start of a script: `key1` is parsed and an inbound MP_CAPABLE SYN is processed while the
random source draws `0x1111111111111111`. -/
def handshake_start : List event :=
  [event.parse ["key1"],
   event.process (fun _ => draws 0x1111111111111111 0) inbound_capable_syn none DIRECTION_INBOUND]

/-- The state `handshake_start` leads to from start-up. -/
def handshake_start_state : mp_state :=
  { initial_state with
    packetdrill_key := 0x1111111111111111, packetdrill_key_set := true,
    vars := [{ name := "key1", value := key_ptr.packetdrill_key, type := KEY }] }

/-- The script goes on: `key2` is parsed and the peer's SYN carrying `0x2222222222222222` is
processed, then `key3` is parsed and the inbound SYN is processed once more while the random
source draws `0x4444444444444444`. -/
def handshake_rest : List event :=
  [event.parse ["key2"],
   event.process (fun _ => draws 0 0) outbound_capable_syn (some live_capable_syn)
     DIRECTION_OUTBOUND,
   event.parse ["key3"],
   event.process (fun _ => draws 0x4444444444444444 0) inbound_capable_syn none
     DIRECTION_INBOUND]

/-- The state `handshake_rest` leads to from `handshake_start_state`. -/
def handshake_rest_state : mp_state :=
  { handshake_start_state with
    kernel_key := 0x2222222222222222, kernel_key_set := true,
    vars := [{ name := "key1", value := key_ptr.packetdrill_key, type := KEY },
             { name := "key2", value := key_ptr.kernel_key, type := KEY }] }

/-- An inbound SYN (ACK clear) between ports 1000 and 2000 carrying one MP_JOIN option of the
SYN length. -/
def inbound_join_syn : packet := ipv4_packet 1000 2000 true false [blank_option 30 12 1]

/-- The driver processes `inbound_join_syn`: the test tool opens one more subflow. -/
def join_syn_event : event :=
  event.process (fun _ => draws 0 7) inbound_join_syn none DIRECTION_INBOUND

/-- A state in which both keys are set, `key1` is bound to the local key and `key2` to the
remote key, and the script names `key1`, `key2` for the next option. -/
def both_keys_bound_state : mp_state :=
  { initial_state with
    packetdrill_key := 0x1111111111111111, packetdrill_key_set := true,
    kernel_key := 0x2222222222222222, kernel_key_set := true,
    vars := [{ name := "key1", value := key_ptr.packetdrill_key, type := KEY },
             { name := "key2", value := key_ptr.kernel_key, type := KEY }],
    vars_queue := ["key1", "key2"] }

/-- An inbound ACK (SYN clear) between ports 1000 and 2000 carrying one MP_CAPABLE option of
length 20. -/
def inbound_capable_ack : packet := ipv4_packet 1000 2000 false true [blank_option 30 20 0]

/-- A live MP_JOIN SYN option carrying address id 9 and sender random `0xCCCC0003`. -/
def live_join_syn_option : tcp_option :=
  { blank_option 30 12 1 with data := { (blank_option 30 12 1).data with
      mp_join_syn := { address_id := 9, receiver_token := 0, sender_random_number := 0xCCCC0003 } } }

/-- A live SYN from the peer, from port 5000 to port 6000, carrying `live_join_syn_option`. -/
def live_join_syn : packet := ipv4_packet 5000 6000 true false [live_join_syn_option]

/-- The script's view of an outbound SYN from port 5000 to port 6000 with one MP_JOIN option of
the SYN length. -/
def outbound_join_syn : packet := ipv4_packet 5000 6000 true false [blank_option 30 12 1]

/-- A live SYN from the peer, from port 5000 to port 6000, that carries no option at all. -/
def live_join_syn_without_options : packet := ipv4_packet 5000 6000 true false []

/-- An inbound SYN with three options: a non-MPTCP option (kind 2), an MP_CAPABLE option of
length 12 and an MP_JOIN option of the SYN length. -/
def inbound_syn_three_options : packet :=
  ipv4_packet 1000 2000 true false
    [blank_option 2 4 0, blank_option 30 12 0, blank_option 30 12 1]

/-- A subflow between ports 3000 and 4000 that holds both random numbers and both ids. -/
def other_subflow : mp_subflow :=
  { blank_subflow with
    src_port := 3000, dst_port := 4000,
    packetdrill_rand_nbr := 0xAAAA0009, kernel_rand_nbr := 0xBBBB0009,
    packetdrill_addr_id := 3, kernel_addr_id := 4 }

/-- Both keys set and two subflows registered: `other_subflow` at the head, then the subflow of
scenario B before the peer's SYN-ACK has been seen. -/
def two_subflows_state : mp_state :=
  { scenario_b_state with subflows := [other_subflow, scenario_b_fresh_subflow] }

/-- The peer's live SYN-ACK from port 2000 to port 1000 carrying `live_syn_ack_option`. -/
def live_join_syn_ack : packet := ipv4_packet 2000 1000 true true [live_syn_ack_option]

/-- The script's view of that outbound SYN-ACK, with one MP_JOIN option of the SYN-ACK length. -/
def outbound_join_syn_ack : packet := ipv4_packet 2000 1000 true true [blank_option 30 16 1]

/-- The test tool opens two subflows between the same ports 1000 and 2000, drawing the random
7 for the first and 8 for the second. -/
def two_creations : List creation :=
  [creation.inbound (draws 0 7) inbound_join_syn, creation.inbound (draws 0 8) inbound_join_syn]

/-- The second subflow that `two_creations` creates from start-up: random 8, address id 1. -/
def second_created_subflow : mp_subflow :=
  { blank_subflow with
    src_ip := ip_address.v4 1, dst_ip := ip_address.v4 2, src_port := 1000, dst_port := 2000,
    packetdrill_rand_nbr := 8, packetdrill_addr_id := 1 }

/-- The string "key1" as the caller of `enqueue_var` holds it: four characters and the
terminating zero byte. -/
def key1_name : List Nat := [107, 101, 121, 49, 0]

/-- No name pending and no variable bound. -/
def no_names : Memory.mp_state := { vars_queue := [], vars := [] }

/-- Unspecified contents of a fresh block: every byte `0xAA`. -/
def stale_bytes : Nat → Nat := fun _ => 0xAA

/-- The names as the parser leaves them after `enqueue_var` of "key1" at start-up: the queue
holds the four characters of "key1" without a terminating zero byte; no variable is bound. -/
def key1_pending : Memory.mp_state := { vars_queue := [[107, 101, 121, 49]], vars := [] }

/-- The start-up state with the names `names`: no key is set. -/
def start_up_with (names : Memory.mp_state) : Memory.state :=
  { packetdrill_key := 0, kernel_key := 0, packetdrill_key_set := false,
    kernel_key_set := false, names := names }

/-- The string "key2" as the caller of `enqueue_var` holds it: four characters and the
terminating zero byte. -/
def key2_name : List Nat := [107, 101, 121, 50, 0]

/-- The variable that `add_mp_var_key` makes for "key1" and the local key: its name is a copy
of the string with its terminating zero byte. -/
def key1_var : Memory.mp_var :=
  { name := key1_name, value := key_ptr.packetdrill_key, type := KEY }

/-- The variable that `add_mp_var_key` makes for "key2" and the remote key. -/
def key2_var : Memory.mp_var :=
  { name := key2_name, value := key_ptr.kernel_key, type := KEY }

/-- The names as the parser leaves them after `enqueue_var` of "key2" at start-up. -/
def key2_pending : Memory.mp_state := { vars_queue := [[107, 101, 121, 50]], vars := [] }

/-- The local key `0x1111111111111111` is set, the remote key is not; the names are `names`. -/
def local_key_with (names : Memory.mp_state) : Memory.state :=
  { packetdrill_key := 0x1111111111111111, kernel_key := 0, packetdrill_key_set := true,
    kernel_key_set := false, names := names }

/-- Both keys are set, the local key `0x1111111111111111` and the remote key
`0x2222222222222222`; the names are `names`. -/
def both_keys_with (names : Memory.mp_state) : Memory.state :=
  { packetdrill_key := 0x1111111111111111, kernel_key := 0x2222222222222222,
    packetdrill_key_set := true, kernel_key_set := true, names := names }

/-! ## Theorems -/

/-! ### Lookup in the subflow registry -/

theorem find_matching_subflow_some {l : List mp_subflow} {p : packet}
    {m : mp_subflow → packet → Bool} {i : Nat} {sf : mp_subflow}
    (h : find_matching_subflow l p m = some (i, sf)) :
    l[i]? = some sf ∧ m sf p = true ∧
      ∀ j sf', j < i → l[j]? = some sf' → m sf' p = false := by
  induction l generalizing i with
  | nil => simp [find_matching_subflow] at h
  | cons a t ih =>
    unfold find_matching_subflow at h
    by_cases ha : m a p = true
    · simp only [ha, if_true, Option.some.injEq, Prod.mk.injEq] at h
      obtain ⟨rfl, rfl⟩ := h
      simp [ha]
    · simp only [ha, Bool.false_eq_true, if_false] at h
      cases hrec : find_matching_subflow t p m with
      | none => simp [hrec] at h
      | some r =>
        obtain ⟨k, f⟩ := r
        simp only [hrec, Option.some.injEq, Prod.mk.injEq] at h
        obtain ⟨rfl, rfl⟩ := h
        obtain ⟨h1, h2, h3⟩ := ih hrec
        refine ⟨by simpa using h1, h2, ?_⟩
        intro j sf' hj hget
        cases j with
        | zero =>
          simp only [List.getElem?_cons_zero, Option.some.injEq] at hget
          subst hget
          simpa using ha
        | succ j => exact h3 j sf' (by omega) (by simpa using hget)

theorem find_matching_subflow_none {l : List mp_subflow} {p : packet}
    {m : mp_subflow → packet → Bool} :
    find_matching_subflow l p m = none ↔ ∀ sf ∈ l, m sf p = false := by
  induction l with
  | nil => simp [find_matching_subflow]
  | cons a t ih =>
    unfold find_matching_subflow
    by_cases ha : m a p = true
    · simp [ha]
    · simp only [ha, Bool.false_eq_true, if_false, List.mem_cons, forall_eq_or_imp]
      cases hrec : find_matching_subflow t p m with
      | none =>
        have hall := ih.mp hrec
        simp only [Bool.eq_false_iff.mpr ha, true_and, true_iff]
        exact hall
      | some r =>
        have hne : ¬ ∀ sf ∈ t, m sf p = false := fun hall => by
          rw [ih.mpr hall] at hrec
          cases hrec
        simp [hne]

theorem find_matching_subflow_of_mem {l : List mp_subflow} {p : packet}
    {m : mp_subflow → packet → Bool} (h : ∃ sf ∈ l, m sf p = true) :
    ∃ i sf, find_matching_subflow l p m = some (i, sf) := by
  cases hfind : find_matching_subflow l p m with
  | none =>
    obtain ⟨sf, hmem, hm⟩ := h
    have := find_matching_subflow_none.mp hfind sf hmem
    rw [hm] at this
    cases this
  | some r => exact ⟨r.1, r.2, rfl⟩

theorem write_subflow_getElem (f : mp_subflow → mp_subflow) (l : List mp_subflow) (i : Nat)
    (sf : mp_subflow) (h : l[i]? = some sf) : (write_subflow f l i)[i]? = some (f sf) := by
  induction l generalizing i with
  | nil => simp at h
  | cons a t ih =>
    cases i with
    | zero =>
      simp only [List.getElem?_cons_zero, Option.some.injEq] at h
      simp [write_subflow, h]
    | succ i =>
      simp only [List.getElem?_cons_succ] at h
      simpa [write_subflow] using ih i h

theorem does_subflow_match_inbound_packet_iff (sf : mp_subflow) (p : packet) :
    does_subflow_match_inbound_packet sf p = true ↔
      sf.src_port = p.tcp.src_port ∧ sf.dst_port = p.tcp.dst_port := by
  simp [does_subflow_match_inbound_packet, and_comm]

theorem does_subflow_match_outbound_packet_iff (sf : mp_subflow) (p : packet) :
    does_subflow_match_outbound_packet sf p = true ↔
      sf.dst_port = p.tcp.src_port ∧ sf.src_port = p.tcp.dst_port := by
  simp [does_subflow_match_outbound_packet]

/-- C2: MP_JOIN case 3 (inbound, SYN clear, ACK set, ACK length). If the registry holds a subflow
whose ports equal the packet's, the call returns success and the option's `sender_hmac` is
`hmac_sha1` keyed by the bytes of the local key followed by the bytes of the remote key, over the
bytes of the local random followed by the bytes of the remote random of the first such subflow;
nothing else changes. -/
theorem mp_join_inbound_ack_writes_full_hmac (c : crypto) (env : environment) (s : mp_state)
    (packet_to_modify live_packet : packet) (tcp_opt_to_modify : tcp_option)
    (hsyn : packet_to_modify.tcp.syn = false) (hack : packet_to_modify.tcp.ack = true)
    (hlen : tcp_opt_to_modify.length = TCPOLEN_MP_JOIN_ACK)
    (hreg : ∃ sf ∈ s.subflows, sf.src_port = packet_to_modify.tcp.src_port ∧
      sf.dst_port = packet_to_modify.tcp.dst_port) :
    ∃ (i : Nat) (sf : mp_subflow), s.subflows[i]? = some sf ∧
      (sf.src_port = packet_to_modify.tcp.src_port ∧
        sf.dst_port = packet_to_modify.tcp.dst_port) ∧
      (∀ (j : Nat) (sf' : mp_subflow), j < i → s.subflows[j]? = some sf' →
        ¬ (sf'.src_port = packet_to_modify.tcp.src_port ∧
          sf'.dst_port = packet_to_modify.tcp.dst_port)) ∧
      mptcp_subtype_mp_join c env s packet_to_modify live_packet tcp_opt_to_modify
          DIRECTION_INBOUND =
        outcome.returned {
          error := STATUS_OK, state := s,
          opt := { tcp_opt_to_modify with data := { tcp_opt_to_modify.data with
            mp_join_ack := {
              sender_hmac := c.hmac_sha1
                (bytes_of 8 s.packetdrill_key ++ bytes_of 8 s.kernel_key)
                (bytes_of 4 sf.packetdrill_rand_nbr ++ bytes_of 4 sf.kernel_rand_nbr) } } } } := by
  obtain ⟨i, sf, hfind⟩ := find_matching_subflow_of_mem
    (l := s.subflows) (p := packet_to_modify) (m := does_subflow_match_inbound_packet)
    (by
      obtain ⟨sf, hmem, hports⟩ := hreg
      exact ⟨sf, hmem, (does_subflow_match_inbound_packet_iff sf packet_to_modify).mpr hports⟩)
  obtain ⟨hget, hmatch, hfirst⟩ := find_matching_subflow_some hfind
  refine ⟨i, sf, hget, (does_subflow_match_inbound_packet_iff _ _).mp hmatch, ?_, ?_⟩
  · intro j sf' hj hgetj hports
    have := hfirst j sf' hj hgetj
    rw [(does_subflow_match_inbound_packet_iff _ _).mpr hports] at this
    cases this
  · simp [mptcp_subtype_mp_join, hsyn, hack, hlen, find_subflow_matching_inbound_packet, hfind,
      DIRECTION_INBOUND, DIRECTION_OUTBOUND, TCPOLEN_MP_JOIN_ACK, TCPOLEN_MP_JOIN_SYN,
      TCPOLEN_MP_JOIN_SYN_ACK, hmac_key, hmac_msg]

/-- Scenario B with the values of the spec: the field receives the digest of the key bytes
`11.. 22..` and the message bytes of `0xAAAA0001`, `0xBBBB0002` (least significant byte first). -/
theorem mp_join_inbound_ack_writes_full_hmac_witness :
    (∃ (i : Nat) (sf : mp_subflow), scenario_b_state.subflows[i]? = some sf ∧
      (sf.src_port = 1000 ∧ sf.dst_port = 2000) ∧
      (∀ (j : Nat) (sf' : mp_subflow), j < i → scenario_b_state.subflows[j]? = some sf' →
        ¬ (sf'.src_port = 1000 ∧ sf'.dst_port = 2000)) ∧
      mptcp_subtype_mp_join transparent_crypto (draws 0 0) scenario_b_state
          (ipv4_packet 1000 2000 false true [blank_option 30 24 1])
          (ipv4_packet 1000 2000 false true [blank_option 30 24 1])
          (blank_option 30 24 1) DIRECTION_INBOUND =
        outcome.returned {
          error := STATUS_OK, state := scenario_b_state,
          opt := { blank_option 30 24 1 with data := { (blank_option 30 24 1).data with
            mp_join_ack := {
              sender_hmac := transparent_crypto.hmac_sha1
                (bytes_of 8 scenario_b_state.packetdrill_key ++
                  bytes_of 8 scenario_b_state.kernel_key)
                (bytes_of 4 sf.packetdrill_rand_nbr ++ bytes_of 4 sf.kernel_rand_nbr) } } } }) ∧
    (match mptcp_subtype_mp_join transparent_crypto (draws 0 0) scenario_b_state
          (ipv4_packet 1000 2000 false true [blank_option 30 24 1])
          (ipv4_packet 1000 2000 false true [blank_option 30 24 1])
          (blank_option 30 24 1) DIRECTION_INBOUND with
      | outcome.returned r => r.opt.data.mp_join_ack.sender_hmac
      | outcome.null_dereference => []) =
      [0x11, 0x11, 0x11, 0x11, 0x11, 0x11, 0x11, 0x11,
       0x22, 0x22, 0x22, 0x22, 0x22, 0x22, 0x22, 0x22,
       0x01, 0x00, 0xAA, 0xAA, 0x02, 0x00, 0xBB, 0xBB] :=
  ⟨mp_join_inbound_ack_writes_full_hmac transparent_crypto (draws 0 0) scenario_b_state
    (ipv4_packet 1000 2000 false true [blank_option 30 24 1])
    (ipv4_packet 1000 2000 false true [blank_option 30 24 1])
    (blank_option 30 24 1) rfl rfl rfl
    ⟨_, List.mem_singleton.mpr rfl, rfl, rfl⟩, by decide⟩

/-- C4: `find_subflow_matching_outbound_packet` returns a subflow exactly when some registered
subflow has `dst_port` equal to the packet's `src_port` and `src_port` equal to the packet's
`dst_port`; whatever it returns is registered and satisfies that condition; and on a registry
holding the single subflow `sf0` it returns `sf0` for the packet whose source port is
`sf0.dst_port` and whose destination port is `sf0.src_port`, and nothing for any other ports. -/
theorem find_subflow_matching_outbound_packet_spec (s : mp_state) (outbound_packet : packet)
    (sf0 : mp_subflow) :
    ((find_subflow_matching_outbound_packet s outbound_packet).isSome = true ↔
      ∃ sf ∈ s.subflows, sf.dst_port = outbound_packet.tcp.src_port ∧
        sf.src_port = outbound_packet.tcp.dst_port) ∧
    (∀ (i : Nat) (sf : mp_subflow),
      find_subflow_matching_outbound_packet s outbound_packet = some (i, sf) →
      s.subflows[i]? = some sf ∧ sf.dst_port = outbound_packet.tcp.src_port ∧
        sf.src_port = outbound_packet.tcp.dst_port) ∧
    find_subflow_matching_outbound_packet { s with subflows := [sf0] } outbound_packet =
      (if outbound_packet.tcp.src_port = sf0.dst_port ∧
          outbound_packet.tcp.dst_port = sf0.src_port then some (0, sf0) else none) := by
  refine ⟨?_, ?_, ?_⟩
  · constructor
    · intro h
      cases hfind : find_subflow_matching_outbound_packet s outbound_packet with
      | none => simp [hfind] at h
      | some r =>
        obtain ⟨i, sf⟩ := r
        obtain ⟨hget, hmatch, _⟩ := find_matching_subflow_some hfind
        exact ⟨sf, List.getElem?_mem hget,
          (does_subflow_match_outbound_packet_iff _ _).mp hmatch⟩
    · rintro ⟨sf, hmem, hports⟩
      obtain ⟨i, sf1, hfind⟩ := find_matching_subflow_of_mem
        (l := s.subflows) (p := outbound_packet) (m := does_subflow_match_outbound_packet)
        ⟨sf, hmem, (does_subflow_match_outbound_packet_iff _ _).mpr hports⟩
      simp [find_subflow_matching_outbound_packet, hfind]
  · intro i sf hfind
    obtain ⟨hget, hmatch, _⟩ := find_matching_subflow_some hfind
    exact ⟨hget, (does_subflow_match_outbound_packet_iff _ _).mp hmatch⟩
  · by_cases h : outbound_packet.tcp.src_port = sf0.dst_port ∧
        outbound_packet.tcp.dst_port = sf0.src_port
    · simp [find_subflow_matching_outbound_packet, find_matching_subflow,
        does_subflow_match_outbound_packet, h]
    · have hm : does_subflow_match_outbound_packet sf0 outbound_packet = false := by
        rw [Bool.eq_false_iff]
        intro hm
        have := (does_subflow_match_outbound_packet_iff _ _).mp hm
        exact h ⟨this.1.symm, this.2.symm⟩
      simp [find_subflow_matching_outbound_packet, find_matching_subflow, hm, h]

theorem mptcp_subtype_mp_capable_inbound_syn (env : environment) (s : mp_state)
    (packet_to_modify live_packet : packet) (tcp_opt_to_modify : tcp_option)
    (hlen : tcp_opt_to_modify.length = 12) (hsyn : packet_to_modify.tcp.syn = true) :
    mptcp_subtype_mp_capable env s packet_to_modify live_packet tcp_opt_to_modify
        DIRECTION_INBOUND =
      { mptcp_set_mp_cap_syn_key (mptcp_gen_key env s).2 tcp_opt_to_modify with
        error := c_or (mptcp_set_mp_cap_syn_key (mptcp_gen_key env s).2 tcp_opt_to_modify).error
          (mptcp_gen_key env s).1 } := by
  cases hack : packet_to_modify.tcp.ack <;>
    simp [mptcp_subtype_mp_capable, hlen, hsyn, hack, TCPOLEN_MP_CAPABLE_SYN, TCPOLEN_MP_CAPABLE,
      DIRECTION_INBOUND, DIRECTION_OUTBOUND]

/-! ### MP_CAPABLE on an outbound SYN -/

theorem find_next_key_frame (s : mp_state) :
    (find_next_key s).2 = { s with vars_queue := (find_next_key s).2.vars_queue } := by
  unfold find_next_key dequeue_var queue_dequeue
  cases hq : s.vars_queue with
  | nil => rfl
  | cons n q =>
    simp only []
    cases hfind : find_mp_var { s with vars_queue := q } n with
    | none => simp
    | some var => by_cases ht : var.type = KEY <;> simp [ht]

theorem mptcp_set_mp_cap_syn_key_frame (s : mp_state) (tcp_opt : tcp_option) :
    (mptcp_set_mp_cap_syn_key s tcp_opt).state =
      { s with vars_queue := (mptcp_set_mp_cap_syn_key s tcp_opt).state.vars_queue } := by
  have h := find_next_key_frame s
  unfold mptcp_set_mp_cap_syn_key
  cases hk : find_next_key s with
  | mk key s1 =>
    rw [hk] at h
    cases key with
    | none => exact h
    | some k => exact h

theorem mptcp_set_mp_cap_keys_frame (s : mp_state) (tcp_opt : tcp_option) :
    (mptcp_set_mp_cap_keys s tcp_opt).state =
      { s with vars_queue := (mptcp_set_mp_cap_keys s tcp_opt).state.vars_queue } := by
  have h := find_next_key_frame s
  unfold mptcp_set_mp_cap_keys
  cases hk : find_next_key s with
  | mk key s1 =>
    rw [hk] at h
    cases key with
    | none => exact h
    | some k =>
      have h2 := find_next_key_frame s1
      simp only []
      cases hk2 : find_next_key s1 with
      | mk key2 s2 =>
        rw [hk2] at h2
        have h1' : s1 = { s with vars_queue := s1.vars_queue } := h
        have h2' : s2 = { s1 with vars_queue := s2.vars_queue } := h2
        have h3 : s2 = { s with vars_queue := s2.vars_queue } := by
          calc s2 = { s1 with vars_queue := s2.vars_queue } := h2'
            _ = { s with vars_queue := s2.vars_queue } := by rw [h1']
        cases key2 with
        | none => exact h3
        | some k2 => exact h3

theorem keys_kept_refl (s : mp_state) : keys_kept s s :=
  ⟨fun h => ⟨h, rfl⟩, fun h => ⟨h, rfl⟩⟩

theorem keys_kept_trans {s t u : mp_state} (h1 : keys_kept s t) (h2 : keys_kept t u) :
    keys_kept s u := by
  constructor
  · intro h
    obtain ⟨a, b⟩ := h1.1 h
    obtain ⟨a2, b2⟩ := h2.1 a
    exact ⟨a2, b2.trans b⟩
  · intro h
    obtain ⟨a, b⟩ := h1.2 h
    obtain ⟨a2, b2⟩ := h2.2 a
    exact ⟨a2, b2.trans b⟩

theorem keys_kept_of_queue {s t : mp_state} (h : t = { s with vars_queue := t.vars_queue }) :
    keys_kept s t := by
  rw [h]
  exact ⟨fun h => ⟨h, rfl⟩, fun h => ⟨h, rfl⟩⟩

theorem mptcp_gen_key_keys_kept (env : environment) (s : mp_state) :
    keys_kept s (mptcp_gen_key env s).2 := by
  unfold mptcp_gen_key queue_front
  cases s.vars_queue.head? with
  | none => exact keys_kept_refl s
  | some n =>
    cases hset : s.packetdrill_key_set with
    | true => simpa using keys_kept_refl s
    | false =>
      simp only [if_true]
      exact ⟨fun h => (by rw [hset] at h; cases h), fun h => ⟨h, rfl⟩⟩

theorem extract_and_set_kernel_key_keys_kept (s : mp_state) (live_packet : packet) :
    keys_kept s (extract_and_set_kernel_key s live_packet).2 := by
  unfold extract_and_set_kernel_key
  cases get_tcp_option live_packet TCPOPT_MPTCP with
  | none => exact keys_kept_refl s
  | some o =>
    cases hset : s.kernel_key_set with
    | true => simpa using keys_kept_refl s
    | false =>
      simp only [if_true, queue_front, set_kernel_key]
      cases s.vars_queue.head? with
      | none => exact ⟨fun h => ⟨h, rfl⟩, fun h => (by rw [hset] at h; cases h)⟩
      | some n => exact ⟨fun h => ⟨h, rfl⟩, fun h => (by rw [hset] at h; cases h)⟩

theorem mptcp_subtype_mp_capable_keys_kept (env : environment) (s : mp_state)
    (packet_to_modify live_packet : packet) (tcp_opt_to_modify : tcp_option) (direction : Nat) :
    keys_kept s (mptcp_subtype_mp_capable env s packet_to_modify live_packet tcp_opt_to_modify
      direction).state := by
  unfold mptcp_subtype_mp_capable
  split_ifs
  · exact keys_kept_trans (mptcp_gen_key_keys_kept env s)
      (keys_kept_of_queue (mptcp_set_mp_cap_syn_key_frame _ _))
  · exact keys_kept_trans (extract_and_set_kernel_key_keys_kept s live_packet)
      (keys_kept_of_queue (mptcp_set_mp_cap_syn_key_frame _ _))
  · exact keys_kept_of_queue (mptcp_set_mp_cap_keys_frame _ _)
  · exact keys_kept_trans (mptcp_gen_key_keys_kept env s)
      (keys_kept_of_queue (mptcp_set_mp_cap_syn_key_frame _ _))
  · exact keys_kept_refl s

theorem new_subflow_inbound_none (env : environment) (s s1 : mp_state) (p : packet)
    (h : new_subflow_inbound env s p = (none, s1)) : s1 = s := by
  unfold new_subflow_inbound at h
  cases hsa : subflow_addresses env.malloc_subflow p false with
  | none =>
    rw [hsa] at h
    simp only [Prod.mk.injEq, true_and] at h
    exact h.symm
  | some sf =>
    rw [hsa] at h
    simp at h

theorem new_subflow_inbound_some (env : environment) (s s1 : mp_state) (p : packet)
    (sf : mp_subflow) (h : new_subflow_inbound env s p = (some sf, s1)) :
    s1 = { s with last_packetdrill_addr_id := to_unsigned (s.last_packetdrill_addr_id + 1),
                  subflows := sf :: s.subflows } ∧
      sf.packetdrill_addr_id = to_u8 s.last_packetdrill_addr_id := by
  unfold new_subflow_inbound at h
  cases hsa : subflow_addresses env.malloc_subflow p false with
  | none =>
    rw [hsa] at h
    simp at h
  | some sf0 =>
    rw [hsa] at h
    simp only [Prod.mk.injEq, Option.some.injEq] at h
    obtain ⟨h1, h2⟩ := h
    subst h1
    exact ⟨h2.symm, rfl⟩

theorem new_subflow_outound_some (env : environment) (s s1 : mp_state) (p : packet)
    (sf : mp_subflow) (h : new_subflow_outound env s p = (some sf, s1)) :
    s1 = { s with subflows := sf :: s.subflows } := by
  unfold new_subflow_outound at h
  cases hopt : get_tcp_option p TCPOPT_MPTCP with
  | none =>
    rw [hopt] at h
    simp at h
  | some o =>
    rw [hopt] at h
    cases hsa : subflow_addresses env.malloc_subflow p true with
    | none =>
      rw [hsa] at h
      simp at h
    | some sf0 =>
      rw [hsa] at h
      simp only [Prod.mk.injEq, Option.some.injEq] at h
      obtain ⟨h1, h2⟩ := h
      subst h1
      exact h2.symm

theorem mptcp_subtype_mp_join_frame (c : crypto) (env : environment) (s : mp_state)
    (packet_to_modify live_packet : packet) (tcp_opt_to_modify : tcp_option) (direction : Nat)
    (r : handled)
    (h : mptcp_subtype_mp_join c env s packet_to_modify live_packet tcp_opt_to_modify direction =
      outcome.returned r) :
    r.state = { s with subflows := r.state.subflows,
                       last_packetdrill_addr_id := r.state.last_packetdrill_addr_id } := by
  unfold mptcp_subtype_mp_join at h
  split_ifs at h
  · cases hn : new_subflow_inbound env s packet_to_modify with
    | mk osf s1 =>
      rw [hn] at h
      cases osf with
      | none =>
        have := new_subflow_inbound_none env s s1 packet_to_modify hn
        simp only [outcome.returned.injEq] at h
        subst h
        subst this
        rfl
      | some sf =>
        have := (new_subflow_inbound_some env s s1 packet_to_modify sf hn).1
        simp only [outcome.returned.injEq] at h
        subst h
        subst this
        rfl
  · split at h <;>
    · simp only [outcome.returned.injEq] at h
      subst h
      rfl
  · split at h <;>
    · simp only [outcome.returned.injEq] at h
      subst h
      rfl
  · cases hn : new_subflow_outound env s live_packet with
    | mk osf s1 =>
      rw [hn] at h
      cases osf with
      | none => simp at h
      | some sf =>
        have := new_subflow_outound_some env s s1 live_packet sf hn
        simp only [outcome.returned.injEq] at h
        subst h
        subst this
        rfl
  · split at h <;>
    · simp only [outcome.returned.injEq] at h
      subst h
      rfl
  · split at h <;>
    · simp only [outcome.returned.injEq] at h
      subst h
      rfl
  · simp only [outcome.returned.injEq] at h
    subst h
    rfl

/-! ### The driver's loop -/

theorem options_loop_preserves (R : mp_state → mp_state → Prop) (hrefl : ∀ s, R s s)
    (htrans : ∀ s t u, R s t → R t u → R s u) (c : crypto) (envs : Nat → environment)
    (live_packet : Option packet) (direction : Nat) (packet_to_modify : packet)
    (hswitch : ∀ env s p live o r,
      mptcp_option_switch c env s p live o direction = outcome.returned r → R s r.state)
    (visited todo : List tcp_option) (s : mp_state) (res : processed)
    (h : options_loop c envs live_packet direction packet_to_modify visited todo s =
      outcome.returned res) : R s res.state := by
  induction todo generalizing visited s with
  | nil =>
    simp only [options_loop, outcome.returned.injEq] at h
    subst h
    exact hrefl s
  | cons o rest ih =>
    unfold options_loop at h
    by_cases hkind : o.kind = TCPOPT_MPTCP
    · simp only [hkind, if_true] at h
      split at h
      · cases h
      · rename_i r hsw
        by_cases herr : r.error ≠ 0
        · rw [if_pos herr] at h
          simp only [outcome.returned.injEq] at h
          subst h
          exact hswitch _ _ _ _ _ _ hsw
        · rw [if_neg herr] at h
          exact htrans _ _ _ (hswitch _ _ _ _ _ _ hsw) (ih _ _ h)
    · simp only [hkind, if_false] at h
      exact ih _ _ h

theorem mptcp_option_switch_keys_kept (c : crypto) (env : environment) (s : mp_state)
    (packet_to_modify live_packet : packet) (tcp_opt_to_modify : tcp_option) (direction : Nat)
    (r : handled)
    (h : mptcp_option_switch c env s packet_to_modify live_packet tcp_opt_to_modify direction =
      outcome.returned r) : keys_kept s r.state := by
  unfold mptcp_option_switch at h
  split_ifs at h
  · simp only [outcome.returned.injEq] at h
    subst h
    exact mptcp_subtype_mp_capable_keys_kept _ _ _ _ _ _
  · rw [mptcp_subtype_mp_join_frame _ _ _ _ _ _ _ _ h]
    exact ⟨fun h => ⟨h, rfl⟩, fun h => ⟨h, rfl⟩⟩
  · simp only [outcome.returned.injEq] at h
    subst h
    exact keys_kept_refl s

theorem step_keys_kept (c : crypto) (s t : mp_state) (e : event) (h : step c s e = some t) :
    keys_kept s t := by
  cases e with
  | parse queue =>
    simp only [step, Option.some.injEq] at h
    subst h
    exact ⟨fun h => ⟨h, rfl⟩, fun h => ⟨h, rfl⟩⟩
  | process envs packet_to_modify live_packet direction =>
    simp only [step, mptcp_insert_and_extract_opt_fields] at h
    split at h
    · rename_i res hloop
      simp only [Option.some.injEq] at h
      subst h
      exact options_loop_preserves keys_kept keys_kept_refl
        (fun _ _ _ h1 h2 => keys_kept_trans h1 h2) c envs live_packet direction packet_to_modify
        (fun env s p live o r hsw => mptcp_option_switch_keys_kept c env s p live o direction r hsw)
        _ _ _ _ hloop
    · cases h

theorem run_keys_kept (c : crypto) (s t : mp_state) (es : List event)
    (h : run c s es = some t) : keys_kept s t := by
  induction es generalizing s with
  | nil =>
    simp only [run, Option.some.injEq] at h
    subst h
    exact keys_kept_refl s
  | cons e es ih =>
    unfold run at h
    cases hstep : step c s e with
    | none => simp [hstep] at h
    | some s1 =>
      simp only [hstep] at h
      exact keys_kept_trans (step_keys_kept c s s1 e hstep) (ih s1 h)

/-- C7: along any sequence of events from the start-up state (the parser refilling the pending
queue, the driver `mptcp_insert_and_extract_opt_fields` processing packets), once the local key
is set it stays set and keeps its value, and likewise the remote key: each key is set at most
once. `s1` is any state reached on the way and `s2` any state reached later. -/
theorem keys_set_at_most_once (c : crypto) (before after : List event) (s1 s2 : mp_state)
    (h1 : run c initial_state before = some s1) (h2 : run c s1 after = some s2) :
    (s1.packetdrill_key_set = true →
      s2.packetdrill_key_set = true ∧ s2.packetdrill_key = s1.packetdrill_key) ∧
    (s1.kernel_key_set = true → s2.kernel_key_set = true ∧ s2.kernel_key = s1.kernel_key) := by
  have _ := h1
  exact run_keys_kept c s1 s2 after h2

/-- A handshake in which the inbound SYN is processed twice: the local key generated first is
still the local key at the end. -/
theorem keys_set_at_most_once_witness :
    handshake_rest_state.packetdrill_key_set = true ∧
      handshake_rest_state.packetdrill_key = 0x1111111111111111 :=
  (keys_set_at_most_once transparent_crypto handshake_start handshake_rest
    handshake_start_state handshake_rest_state (by decide) (by decide)).1 rfl

/-! ### The address-id counter -/

theorem mptcp_gen_key_registry (env : environment) (s : mp_state) :
    (mptcp_gen_key env s).2.subflows = s.subflows ∧
    (mptcp_gen_key env s).2.last_packetdrill_addr_id = s.last_packetdrill_addr_id := by
  unfold mptcp_gen_key queue_front
  cases s.vars_queue.head? with
  | none => exact ⟨rfl, rfl⟩
  | some n => cases hset : s.packetdrill_key_set <;> exact ⟨rfl, rfl⟩

theorem extract_and_set_kernel_key_registry (s : mp_state) (live_packet : packet) :
    (extract_and_set_kernel_key s live_packet).2.subflows = s.subflows ∧
    (extract_and_set_kernel_key s live_packet).2.last_packetdrill_addr_id =
      s.last_packetdrill_addr_id := by
  unfold extract_and_set_kernel_key
  cases get_tcp_option live_packet TCPOPT_MPTCP with
  | none => exact ⟨rfl, rfl⟩
  | some o =>
    cases hset : s.kernel_key_set with
    | true => exact ⟨rfl, rfl⟩
    | false =>
      simp only [if_true, queue_front, set_kernel_key]
      cases s.vars_queue.head? <;> exact ⟨rfl, rfl⟩

theorem mptcp_subtype_mp_capable_registry (env : environment) (s : mp_state)
    (packet_to_modify live_packet : packet) (tcp_opt_to_modify : tcp_option) (direction : Nat) :
    (mptcp_subtype_mp_capable env s packet_to_modify live_packet tcp_opt_to_modify
      direction).state.subflows = s.subflows ∧
    (mptcp_subtype_mp_capable env s packet_to_modify live_packet tcp_opt_to_modify
      direction).state.last_packetdrill_addr_id = s.last_packetdrill_addr_id := by
  have hsyn : ∀ (t : mp_state) (o : tcp_option),
      (mptcp_set_mp_cap_syn_key t o).state.subflows = t.subflows ∧
      (mptcp_set_mp_cap_syn_key t o).state.last_packetdrill_addr_id =
        t.last_packetdrill_addr_id := by
    intro t o
    rw [mptcp_set_mp_cap_syn_key_frame t o]
    exact ⟨rfl, rfl⟩
  have hkeys : ∀ (t : mp_state) (o : tcp_option),
      (mptcp_set_mp_cap_keys t o).state.subflows = t.subflows ∧
      (mptcp_set_mp_cap_keys t o).state.last_packetdrill_addr_id =
        t.last_packetdrill_addr_id := by
    intro t o
    rw [mptcp_set_mp_cap_keys_frame t o]
    exact ⟨rfl, rfl⟩
  unfold mptcp_subtype_mp_capable
  split_ifs
  · exact ⟨(hsyn _ _).1.trans (mptcp_gen_key_registry env s).1,
      (hsyn _ _).2.trans (mptcp_gen_key_registry env s).2⟩
  · exact ⟨(hsyn _ _).1.trans (extract_and_set_kernel_key_registry s live_packet).1,
      (hsyn _ _).2.trans (extract_and_set_kernel_key_registry s live_packet).2⟩
  · exact hkeys _ _
  · exact ⟨(hsyn _ _).1.trans (mptcp_gen_key_registry env s).1,
      (hsyn _ _).2.trans (mptcp_gen_key_registry env s).2⟩
  · exact ⟨rfl, rfl⟩

theorem mptcp_subtype_mp_join_counter (c : crypto) (env : environment) (s : mp_state)
    (packet_to_modify live_packet : packet) (tcp_opt_to_modify : tcp_option) (direction : Nat)
    (r : handled)
    (h : mptcp_subtype_mp_join c env s packet_to_modify live_packet tcp_opt_to_modify direction =
      outcome.returned r) :
    (handed_out_id packet_to_modify tcp_opt_to_modify direction r = none ∧
      r.state.last_packetdrill_addr_id = s.last_packetdrill_addr_id) ∨
    (handed_out_id packet_to_modify tcp_opt_to_modify direction r =
        some (to_u8 s.last_packetdrill_addr_id) ∧
      r.state.last_packetdrill_addr_id = to_unsigned (s.last_packetdrill_addr_id + 1)) := by
  unfold mptcp_subtype_mp_join at h
  split_ifs at h with h1 h2 h3 h4 h5 h6
  · obtain ⟨hd, hack, hsyn, hlen⟩ := h1
    cases hn : new_subflow_inbound env s packet_to_modify with
    | mk osf s1 =>
      rw [hn] at h
      cases osf with
      | none =>
        have hs := new_subflow_inbound_none env s s1 packet_to_modify hn
        simp only [outcome.returned.injEq] at h
        subst h
        subst hs
        left
        simp [handed_out_id, STATUS_ERR, STATUS_OK]
      | some sf =>
        obtain ⟨hs, hid⟩ := new_subflow_inbound_some env s s1 packet_to_modify sf hn
        simp only [outcome.returned.injEq] at h
        subst h
        subst hs
        right
        simp [handed_out_id, hd, hack, hsyn, hlen, hid]
  · obtain ⟨hd, hack, hsyn, hlen⟩ := h2
    left
    split at h <;>
    · simp only [outcome.returned.injEq] at h
      subst h
      simp [handed_out_id, hd, DIRECTION_INBOUND, DIRECTION_OUTBOUND]
  · obtain ⟨hd, hack, hsyn, hlen⟩ := h3
    left
    split at h <;>
    · simp only [outcome.returned.injEq] at h
      subst h
      simp [handed_out_id, hsyn]
  · obtain ⟨hd, hack, hsyn, hlen⟩ := h4
    left
    cases hn : new_subflow_outound env s live_packet with
    | mk osf s1 =>
      rw [hn] at h
      cases osf with
      | none => simp at h
      | some sf =>
        have hs := new_subflow_outound_some env s s1 live_packet sf hn
        simp only [outcome.returned.injEq] at h
        subst h
        subst hs
        simp [handed_out_id, hd, DIRECTION_INBOUND, DIRECTION_OUTBOUND]
  · obtain ⟨hd, hack, hsyn, hlen⟩ := h5
    split at h
    · left
      simp only [outcome.returned.injEq] at h
      subst h
      simp [handed_out_id, STATUS_ERR, STATUS_OK]
    · right
      simp only [outcome.returned.injEq] at h
      subst h
      simp [handed_out_id, hd, hack, hsyn, hlen, TCPOLEN_MP_JOIN_SYN, TCPOLEN_MP_JOIN_SYN_ACK]
  · obtain ⟨hd, hack, hsyn, hlen⟩ := h6
    left
    split at h <;>
    · simp only [outcome.returned.injEq] at h
      subst h
      simp [handed_out_id, hd, DIRECTION_INBOUND, DIRECTION_OUTBOUND]
  · left
    simp only [outcome.returned.injEq] at h
    subst h
    simp [handed_out_id, STATUS_ERR, STATUS_OK]

theorem ids_from_length (a k : Nat) : (ids_from a k).length = k := by
  simp [ids_from]

theorem ids_step {a b : Nat} {ids : List Nat} (ha : a < 2 ^ 32)
    (h : (ids = [] ∧ b = a) ∨ (ids = [to_u8 a] ∧ b = to_unsigned (a + 1))) :
    ids = ids_from a ids.length ∧ b = (a + ids.length) % 2 ^ 32 ∧ b < 2 ^ 32 := by
  rcases h with ⟨h1, h2⟩ | ⟨h1, h2⟩
  · subst h1
    subst h2
    exact ⟨rfl, (Nat.mod_eq_of_lt ha).symm, ha⟩
  · subst h1
    subst h2
    exact ⟨rfl, rfl, Nat.mod_lt _ (by norm_num)⟩

theorem ids_chain {a b : Nat} {l1 l2 : List Nat} (h1 : l1 = ids_from a l1.length)
    (hb : b = (a + l1.length) % 2 ^ 32) (h2 : l2 = ids_from b l2.length) :
    l1 ++ l2 = ids_from a (l1 ++ l2).length ∧
      (b + l2.length) % 2 ^ 32 = (a + (l1 ++ l2).length) % 2 ^ 32 := by
  constructor
  · have hmap : List.map (fun j => to_u8 (a + (l1.length + j))) (List.range l2.length) =
        ids_from b l2.length := by
      unfold ids_from
      apply List.map_congr_left
      intro j _
      simp only [to_u8]
      norm_num at hb ⊢
      omega
    rw [List.length_append]
    conv_rhs => rw [ids_from, List.range_add, List.map_append, List.map_map]
    conv_lhs => rw [h1, h2]
    rw [← hmap]
    rfl
  · rw [List.length_append, hb]
    norm_num
    omega

theorem mptcp_option_switch_counter (c : crypto) (env : environment) (s : mp_state)
    (packet_to_modify live_packet : packet) (tcp_opt_to_modify : tcp_option) (direction : Nat)
    (r : handled)
    (h : mptcp_option_switch c env s packet_to_modify live_packet tcp_opt_to_modify direction =
      outcome.returned r) :
    ((if tcp_opt_to_modify.data.mp_capable.subtype = MP_JOIN_SUBTYPE then
          (handed_out_id packet_to_modify tcp_opt_to_modify direction r).toList
        else []) = [] ∧
      r.state.last_packetdrill_addr_id = s.last_packetdrill_addr_id) ∨
    ((if tcp_opt_to_modify.data.mp_capable.subtype = MP_JOIN_SUBTYPE then
          (handed_out_id packet_to_modify tcp_opt_to_modify direction r).toList
        else []) = [to_u8 s.last_packetdrill_addr_id] ∧
      r.state.last_packetdrill_addr_id = to_unsigned (s.last_packetdrill_addr_id + 1)) := by
  unfold mptcp_option_switch at h
  split_ifs at h with hcap hjoin
  · simp only [outcome.returned.injEq] at h
    subst h
    left
    have hne : ¬ tcp_opt_to_modify.data.mp_capable.subtype = MP_JOIN_SUBTYPE := by
      rw [hcap]
      decide
    rw [if_neg hne]
    exact ⟨rfl, (mptcp_subtype_mp_capable_registry _ _ _ _ _ _).2⟩
  · rw [if_pos hjoin]
    rcases mptcp_subtype_mp_join_counter _ _ _ _ _ _ _ _ h with ⟨h1, h2⟩ | ⟨h1, h2⟩
    · left
      rw [h1]
      exact ⟨rfl, h2⟩
    · right
      rw [h1]
      exact ⟨rfl, h2⟩
  · simp only [outcome.returned.injEq] at h
    subst h
    left
    rw [if_neg hjoin]
    exact ⟨rfl, rfl⟩

theorem options_loop_ids_spec (c : crypto) (envs : Nat → environment)
    (live_packet : Option packet) (direction : Nat) (packet_to_modify : packet)
    (visited todo : List tcp_option) (s : mp_state)
    (hs : s.last_packetdrill_addr_id < 2 ^ 32) :
    options_loop_ids c envs live_packet direction packet_to_modify visited todo s =
        ids_from s.last_packetdrill_addr_id
          (options_loop_ids c envs live_packet direction packet_to_modify visited todo
            s).length ∧
    ∀ res, options_loop c envs live_packet direction packet_to_modify visited todo s =
        outcome.returned res →
      res.state.last_packetdrill_addr_id =
        (s.last_packetdrill_addr_id +
          (options_loop_ids c envs live_packet direction packet_to_modify visited todo
            s).length) % 2 ^ 32 := by
  induction todo generalizing visited s with
  | nil =>
    refine ⟨rfl, ?_⟩
    intro res h
    simp only [options_loop, outcome.returned.injEq] at h
    subst h
    simp only [options_loop_ids, List.length_nil, Nat.add_zero]
    exact (Nat.mod_eq_of_lt hs).symm
  | cons o rest ih =>
    rw [options_loop_ids, options_loop]
    by_cases hkind : o.kind = TCPOPT_MPTCP
    · simp only [hkind, if_true]
      generalize hsw : mptcp_option_switch c _ s _ _ o direction = sw
      cases sw with
      | null_dereference =>
        refine ⟨rfl, ?_⟩
        intro res h
        cases h
      | returned r =>
        obtain ⟨e1, e2, e3⟩ := ids_step hs (mptcp_option_switch_counter _ _ _ _ _ _ _ _ hsw)
        simp only []
        by_cases herr : r.error ≠ 0
        · rw [if_pos herr, if_pos herr, List.append_nil]
          refine ⟨e1, ?_⟩
          intro res h
          simp only [outcome.returned.injEq] at h
          subst h
          exact e2
        · rw [if_neg herr, if_neg herr]
          obtain ⟨i1, i2⟩ := ih (visited ++ [r.opt]) r.state e3
          obtain ⟨c1, c2⟩ := ids_chain e1 e2 i1
          refine ⟨c1, ?_⟩
          intro res h
          rw [i2 res h, c2]
    · simp only [hkind, if_false]
      exact ih _ _ hs

theorem step_ids_spec (c : crypto) (s : mp_state) (e : event)
    (hs : s.last_packetdrill_addr_id < 2 ^ 32) :
    step_ids c s e = ids_from s.last_packetdrill_addr_id (step_ids c s e).length ∧
    ∀ t, step c s e = some t →
      t.last_packetdrill_addr_id =
        (s.last_packetdrill_addr_id + (step_ids c s e).length) % 2 ^ 32 := by
  cases e with
  | parse queue =>
    refine ⟨rfl, ?_⟩
    intro t h
    simp only [step, Option.some.injEq] at h
    subst h
    simp only [step_ids, List.length_nil, Nat.add_zero]
    exact (Nat.mod_eq_of_lt hs).symm
  | process envs packet_to_modify live_packet direction =>
    obtain ⟨h1, h2⟩ := options_loop_ids_spec c envs live_packet direction packet_to_modify []
      packet_to_modify.tcp_options s hs
    refine ⟨h1, ?_⟩
    intro t h
    simp only [step, mptcp_insert_and_extract_opt_fields] at h
    split at h
    · rename_i res hloop
      simp only [Option.some.injEq] at h
      subst h
      exact h2 res hloop
    · cases h

theorem run_ids_spec (c : crypto) (es : List event) (s : mp_state)
    (hs : s.last_packetdrill_addr_id < 2 ^ 32) :
    run_ids c s es = ids_from s.last_packetdrill_addr_id (run_ids c s es).length ∧
    ∀ t, run c s es = some t →
      t.last_packetdrill_addr_id =
        (s.last_packetdrill_addr_id + (run_ids c s es).length) % 2 ^ 32 := by
  induction es generalizing s with
  | nil =>
    refine ⟨rfl, ?_⟩
    intro t h
    simp only [run, Option.some.injEq] at h
    subst h
    simp only [run_ids, List.length_nil, Nat.add_zero]
    exact (Nat.mod_eq_of_lt hs).symm
  | cons e es ih =>
    obtain ⟨e1, e2⟩ := step_ids_spec c s e hs
    rw [run_ids, run]
    cases hstep : step c s e with
    | none =>
      simp only [List.append_nil]
      refine ⟨e1, ?_⟩
      intro t h
      cases h
    | some s1 =>
      have hs1 : s1.last_packetdrill_addr_id < 2 ^ 32 := by
        rw [e2 s1 hstep]
        exact Nat.mod_lt _ (by norm_num)
      obtain ⟨i1, i2⟩ := ih s1 hs1
      obtain ⟨c1, c2⟩ := ids_chain e1 (e2 s1 hstep) i1
      simp only []
      refine ⟨c1, ?_⟩
      intro t h
      rw [i2 t h, c2]

theorem run_append (c : crypto) (es es2 : List event) (s t : mp_state)
    (h : run c s es = some t) : run c s (es ++ es2) = run c t es2 := by
  induction es generalizing s with
  | nil =>
    simp only [run, Option.some.injEq] at h
    subst h
    rfl
  | cons e es ih =>
    rw [List.cons_append, run]
    rw [run] at h
    cases hstep : step c s e with
    | none => simp [hstep] at h
    | some s1 =>
      simp only [hstep] at h ⊢
      exact ih s1 h

theorem run_ids_append (c : crypto) (es es2 : List event) (s t : mp_state)
    (h : run c s es = some t) :
    run_ids c s (es ++ es2) = run_ids c s es ++ run_ids c t es2 := by
  induction es generalizing s with
  | nil =>
    simp only [run, Option.some.injEq] at h
    subst h
    rfl
  | cons e es ih =>
    rw [List.cons_append, run_ids, run_ids]
    rw [run] at h
    cases hstep : step c s e with
    | none => simp [hstep] at h
    | some s1 =>
      simp only [hstep] at h ⊢
      rw [ih s1 h, List.append_assoc]

/-- C8 (as the code behaves): along any sequence of events from the start-up state, the local
address ids handed out (to a subflow created by `new_subflow_inbound`, or to an MP_JOIN case 5
SYN-ACK) are, in order, `0 % 256`, `1 % 256`, `2 % 256`, ...: each is the counter's value
truncated to 8 bits, and the counter holds the number of ids handed out so far modulo `2 ^ 32`.
So while at most 256 ids have been handed out they are `0, 1, 2, ...`: they start at the base
value `0`, increase strictly and none is handed out twice; and an event does not decrease the
counter as long as fewer than `2 ^ 32` ids have been handed out after it. -/
theorem local_address_ids_count_modulo_256 (c : crypto) (es : List event) :
    run_ids c initial_state es =
      (List.range (run_ids c initial_state es).length).map (fun k => k % 256) ∧
    (∀ s, run c initial_state es = some s →
      s.last_packetdrill_addr_id = (run_ids c initial_state es).length % 2 ^ 32) ∧
    ((run_ids c initial_state es).length ≤ 256 →
      run_ids c initial_state es = List.range (run_ids c initial_state es).length ∧
      (run_ids c initial_state es).Pairwise (fun a b => a < b)) ∧
    (∀ s e t, run c initial_state es = some s → step c s e = some t →
      (run_ids c initial_state (es ++ [e])).length < 2 ^ 32 →
      s.last_packetdrill_addr_id ≤ t.last_packetdrill_addr_id) := by
  have h0 : initial_state.last_packetdrill_addr_id < 2 ^ 32 := by decide
  obtain ⟨hids, hctr⟩ := run_ids_spec c es initial_state h0
  have hmap : run_ids c initial_state es =
      (List.range (run_ids c initial_state es).length).map (fun k => k % 256) := by
    conv_lhs => rw [hids]
    unfold ids_from
    apply List.map_congr_left
    intro j _
    show (0 + j) % 2 ^ 8 = j % 256
    rw [Nat.zero_add]
    norm_num
  have hcount : ∀ s, run c initial_state es = some s →
      s.last_packetdrill_addr_id = (run_ids c initial_state es).length % 2 ^ 32 := by
    intro s hs
    rw [hctr s hs]
    show (0 + _) % 2 ^ 32 = _
    rw [Nat.zero_add]
  refine ⟨hmap, hcount, ?_, ?_⟩
  · intro hle
    have hrange : run_ids c initial_state es =
        List.range (run_ids c initial_state es).length := by
      conv_lhs => rw [hmap]
      conv_rhs => rw [← List.map_id (List.range (run_ids c initial_state es).length)]
      apply List.map_congr_left
      intro j hj
      have := List.mem_range.mp hj
      show j % 256 = j
      omega
    refine ⟨hrange, ?_⟩
    rw [hrange]
    exact List.pairwise_lt_range _
  · intro s e t hs hstep hlt
    have hrun : run c initial_state (es ++ [e]) = some t := by
      rw [run_append c es [e] initial_state s hs]
      simp [run, hstep]
    have hlen : (run_ids c initial_state es).length ≤
        (run_ids c initial_state (es ++ [e])).length := by
      rw [run_ids_append c es [e] initial_state s hs, List.length_append]
      omega
    obtain ⟨_, hctr2⟩ := run_ids_spec c (es ++ [e]) initial_state h0
    have ht := hctr2 t hrun
    have hs2 := hcount s hs
    have h00 : initial_state.last_packetdrill_addr_id = 0 := rfl
    rw [h00, Nat.zero_add] at ht
    rw [hs2, ht]
    norm_num at hlt ⊢
    omega

set_option maxRecDepth 100000 in
/-- C8 as stated fails: opening 257 subflows from the test tool's side hands the id `0` out
twice. In the final registry (newest record first) the first subflow created has id 0, the 256th
has id 255 and the 257th has id 0 again. -/
theorem local_address_id_reused_counterexample :
    (run transparent_crypto initial_state (List.replicate 257 join_syn_event)).isSome = true ∧
    (registry_after transparent_crypto (List.replicate 257 join_syn_event)).length = 257 ∧
    (registry_after transparent_crypto (List.replicate 257 join_syn_event)).getLast?.map
      (fun subflow => subflow.packetdrill_addr_id) = some 0 ∧
    (registry_after transparent_crypto (List.replicate 257 join_syn_event))[1]?.map
      (fun subflow => subflow.packetdrill_addr_id) = some 255 ∧
    (registry_after transparent_crypto (List.replicate 257 join_syn_event)).head?.map
      (fun subflow => subflow.packetdrill_addr_id) = some 0 ∧
    (run_ids transparent_crypto initial_state (List.replicate 257 join_syn_event))[0]? =
      some 0 ∧
    (run_ids transparent_crypto initial_state (List.replicate 257 join_syn_event))[256]? =
      some 0 := by
  decide

/-! ### Failing calls -/

theorem find_inbound_none_of_no_match (s : mp_state) (p : packet)
    (h : ∀ sf ∈ s.subflows, ¬ (sf.src_port = p.tcp.src_port ∧ sf.dst_port = p.tcp.dst_port)) :
    find_subflow_matching_inbound_packet s p = none := by
  apply find_matching_subflow_none.mpr
  intro sf hmem
  rw [Bool.eq_false_iff]
  intro hm
  exact h sf hmem ((does_subflow_match_inbound_packet_iff sf p).mp hm)

theorem find_outbound_none_of_no_match (s : mp_state) (p : packet)
    (h : ∀ sf ∈ s.subflows, ¬ (sf.dst_port = p.tcp.src_port ∧ sf.src_port = p.tcp.dst_port)) :
    find_subflow_matching_outbound_packet s p = none := by
  apply find_matching_subflow_none.mpr
  intro sf hmem
  rw [Bool.eq_false_iff]
  intro hm
  exact h sf hmem ((does_subflow_match_outbound_packet_iff sf p).mp hm)

/-- C12: outside its four cases, which is the situation whenever the option is neither of
length 12 on a packet with SYN set nor of length 20 on a packet with SYN clear and ACK set, and
also for a length 12 option with SYN set when the direction is neither inbound nor outbound,
`mptcp_subtype_mp_capable` returns `STATUS_ERR` and leaves the whole state and the option as
they were. Outside its six cases (direction inbound or outbound, with SYN only and the SYN
length, SYN and ACK and the SYN-ACK length, or ACK only and the ACK length)
`mptcp_subtype_mp_join` returns `STATUS_ERR` and leaves the whole state and the option as they
were. -/
theorem option_shape_outside_cases_fails (c : crypto) (env : environment) (s : mp_state)
    (packet_to_modify live_packet : packet) (tcp_opt_to_modify : tcp_option) (direction : Nat) :
    ((¬ (tcp_opt_to_modify.length = 12 ∧ packet_to_modify.tcp.syn = true) ∧
        ¬ (tcp_opt_to_modify.length = 20 ∧ packet_to_modify.tcp.syn = false ∧
          packet_to_modify.tcp.ack = true)) →
      mptcp_subtype_mp_capable env s packet_to_modify live_packet tcp_opt_to_modify direction =
        { error := STATUS_ERR, state := s, opt := tcp_opt_to_modify }) ∧
    ((direction ≠ DIRECTION_INBOUND ∧ direction ≠ DIRECTION_OUTBOUND ∧
        ¬ (tcp_opt_to_modify.length = 20 ∧ packet_to_modify.tcp.syn = false ∧
          packet_to_modify.tcp.ack = true)) →
      mptcp_subtype_mp_capable env s packet_to_modify live_packet tcp_opt_to_modify direction =
        { error := STATUS_ERR, state := s, opt := tcp_opt_to_modify }) ∧
    (¬ ((direction = DIRECTION_INBOUND ∨ direction = DIRECTION_OUTBOUND) ∧
        ((packet_to_modify.tcp.syn = true ∧ packet_to_modify.tcp.ack = false ∧
            tcp_opt_to_modify.length = TCPOLEN_MP_JOIN_SYN) ∨
          (packet_to_modify.tcp.syn = true ∧ packet_to_modify.tcp.ack = true ∧
            tcp_opt_to_modify.length = TCPOLEN_MP_JOIN_SYN_ACK) ∨
          (packet_to_modify.tcp.syn = false ∧ packet_to_modify.tcp.ack = true ∧
            tcp_opt_to_modify.length = TCPOLEN_MP_JOIN_ACK))) →
      mptcp_subtype_mp_join c env s packet_to_modify live_packet tcp_opt_to_modify direction =
        outcome.returned { error := STATUS_ERR, state := s, opt := tcp_opt_to_modify }) := by
  refine ⟨?_, ?_, ?_⟩
  · rintro ⟨h1, h2⟩
    unfold mptcp_subtype_mp_capable
    rw [if_neg (fun h => h1 ⟨h.1, h.2.1⟩), if_neg (fun h => h1 ⟨h.1, h.2.1⟩),
      if_neg (fun h => h2 ⟨h.1, h.2.1, h.2.2⟩), if_neg (fun h => h1 ⟨h.1, h.2.1⟩)]
  · rintro ⟨h1, h2, h3⟩
    unfold mptcp_subtype_mp_capable
    rw [if_neg (fun h => h1 h.2.2.1), if_neg (fun h => h2 h.2.2),
      if_neg (fun h => h3 ⟨h.1, h.2.1, h.2.2⟩),
      if_neg (fun h => h1 h.2.2.1)]
  · intro h
    unfold mptcp_subtype_mp_join
    rw [if_neg (fun g => h ⟨Or.inl g.1, Or.inl ⟨g.2.2.1, g.2.1, g.2.2.2⟩⟩),
      if_neg (fun g => h ⟨Or.inr g.1, Or.inr (Or.inl ⟨g.2.2.1, g.2.1, g.2.2.2⟩)⟩),
      if_neg (fun g => h ⟨Or.inl g.1, Or.inr (Or.inr ⟨g.2.2.1, g.2.1, g.2.2.2⟩)⟩),
      if_neg (fun g => h ⟨Or.inr g.1, Or.inl ⟨g.2.2.1, g.2.1, g.2.2.2⟩⟩),
      if_neg (fun g => h ⟨Or.inl g.1, Or.inr (Or.inl ⟨g.2.2.1, g.2.1, g.2.2.2⟩)⟩),
      if_neg (fun g => h ⟨Or.inr g.1, Or.inr (Or.inr ⟨g.2.2.1, g.2.1, g.2.2.2⟩)⟩)]

/-- An MP_CAPABLE option of length 12 on a packet without SYN, and an MP_JOIN option of the
SYN-ACK length on a packet with SYN only: both are refused and nothing changes. -/
theorem option_shape_outside_cases_fails_witness :
    mptcp_subtype_mp_capable (draws 5 6) both_keys_bound_state
        (ipv4_packet 1000 2000 false true [blank_option 30 12 0])
        (ipv4_packet 1000 2000 false true [blank_option 30 12 0])
        (blank_option 30 12 0) DIRECTION_INBOUND =
      { error := STATUS_ERR, state := both_keys_bound_state, opt := blank_option 30 12 0 } ∧
    mptcp_subtype_mp_join transparent_crypto (draws 5 6) scenario_b_state
        (ipv4_packet 1000 2000 true false [blank_option 30 16 1])
        (ipv4_packet 1000 2000 true false [blank_option 30 16 1])
        (blank_option 30 16 1) DIRECTION_INBOUND =
      outcome.returned
        { error := STATUS_ERR, state := scenario_b_state, opt := blank_option 30 16 1 } :=
  ⟨(option_shape_outside_cases_fails transparent_crypto (draws 5 6) both_keys_bound_state
      (ipv4_packet 1000 2000 false true [blank_option 30 12 0])
      (ipv4_packet 1000 2000 false true [blank_option 30 12 0])
      (blank_option 30 12 0) DIRECTION_INBOUND).1 (by decide),
    (option_shape_outside_cases_fails transparent_crypto (draws 5 6) scenario_b_state
      (ipv4_packet 1000 2000 true false [blank_option 30 16 1])
      (ipv4_packet 1000 2000 true false [blank_option 30 16 1])
      (blank_option 30 16 1) DIRECTION_INBOUND).2.2 (by decide)⟩

/-- C13: in MP_JOIN cases 2, 3, 5 and 6, when no registered subflow matches the packet under the
lookup rule of the case (case 2 looks the live packet up by the outbound rule, cases 3 and 5 the
script packet by the inbound rule, case 6 the script packet by the outbound rule), the call
returns `STATUS_ERR` and leaves the whole state (registry, counter, keys) and the option as they
were, whatever the random source would draw. Case 2 does the same when the live packet has no
MPTCP option. -/
theorem mp_join_without_matching_subflow_fails (c : crypto) (env : environment) (s : mp_state)
    (packet_to_modify live_packet : packet) (tcp_opt_to_modify : tcp_option) :
    (packet_to_modify.tcp.syn = true → packet_to_modify.tcp.ack = true →
      tcp_opt_to_modify.length = TCPOLEN_MP_JOIN_SYN_ACK →
      ((∀ sf ∈ s.subflows, ¬ (sf.dst_port = live_packet.tcp.src_port ∧
          sf.src_port = live_packet.tcp.dst_port)) ∨
        get_tcp_option live_packet TCPOPT_MPTCP = none) →
      mptcp_subtype_mp_join c env s packet_to_modify live_packet tcp_opt_to_modify
          DIRECTION_OUTBOUND =
        outcome.returned { error := STATUS_ERR, state := s, opt := tcp_opt_to_modify }) ∧
    (packet_to_modify.tcp.syn = false → packet_to_modify.tcp.ack = true →
      tcp_opt_to_modify.length = TCPOLEN_MP_JOIN_ACK →
      (∀ sf ∈ s.subflows, ¬ (sf.src_port = packet_to_modify.tcp.src_port ∧
          sf.dst_port = packet_to_modify.tcp.dst_port)) →
      mptcp_subtype_mp_join c env s packet_to_modify live_packet tcp_opt_to_modify
          DIRECTION_INBOUND =
        outcome.returned { error := STATUS_ERR, state := s, opt := tcp_opt_to_modify }) ∧
    (packet_to_modify.tcp.syn = true → packet_to_modify.tcp.ack = true →
      tcp_opt_to_modify.length = TCPOLEN_MP_JOIN_SYN_ACK →
      (∀ sf ∈ s.subflows, ¬ (sf.src_port = packet_to_modify.tcp.src_port ∧
          sf.dst_port = packet_to_modify.tcp.dst_port)) →
      mptcp_subtype_mp_join c env s packet_to_modify live_packet tcp_opt_to_modify
          DIRECTION_INBOUND =
        outcome.returned { error := STATUS_ERR, state := s, opt := tcp_opt_to_modify }) ∧
    (packet_to_modify.tcp.syn = false → packet_to_modify.tcp.ack = true →
      tcp_opt_to_modify.length = TCPOLEN_MP_JOIN_ACK →
      (∀ sf ∈ s.subflows, ¬ (sf.dst_port = packet_to_modify.tcp.src_port ∧
          sf.src_port = packet_to_modify.tcp.dst_port)) →
      mptcp_subtype_mp_join c env s packet_to_modify live_packet tcp_opt_to_modify
          DIRECTION_OUTBOUND =
        outcome.returned { error := STATUS_ERR, state := s, opt := tcp_opt_to_modify }) := by
  refine ⟨?_, ?_, ?_, ?_⟩
  · intro hsyn hack hlen h
    rcases h with h | h
    · have hfind := find_outbound_none_of_no_match s live_packet h
      simp [mptcp_subtype_mp_join, hsyn, hack, hlen, hfind, DIRECTION_INBOUND,
        DIRECTION_OUTBOUND]
    · simp only [mptcp_subtype_mp_join, hsyn, hack, hlen, h]
      simp [DIRECTION_INBOUND, DIRECTION_OUTBOUND]
  · intro hsyn hack hlen h
    have hfind := find_inbound_none_of_no_match s packet_to_modify h
    simp [mptcp_subtype_mp_join, hsyn, hack, hlen, hfind, DIRECTION_INBOUND,
      DIRECTION_OUTBOUND, TCPOLEN_MP_JOIN_ACK, TCPOLEN_MP_JOIN_SYN, TCPOLEN_MP_JOIN_SYN_ACK]
  · intro hsyn hack hlen h
    have hfind := find_inbound_none_of_no_match s packet_to_modify h
    simp [mptcp_subtype_mp_join, hsyn, hack, hlen, hfind, DIRECTION_INBOUND,
      DIRECTION_OUTBOUND, TCPOLEN_MP_JOIN_ACK, TCPOLEN_MP_JOIN_SYN, TCPOLEN_MP_JOIN_SYN_ACK]
  · intro hsyn hack hlen h
    have hfind := find_outbound_none_of_no_match s packet_to_modify h
    simp [mptcp_subtype_mp_join, hsyn, hack, hlen, hfind, DIRECTION_INBOUND,
      DIRECTION_OUTBOUND, TCPOLEN_MP_JOIN_ACK, TCPOLEN_MP_JOIN_SYN, TCPOLEN_MP_JOIN_SYN_ACK]

/-- An inbound MP_JOIN SYN-ACK (case 5) when the only registered subflow is between other
ports: the call fails and nothing changes, the counter included. -/
theorem mp_join_without_matching_subflow_fails_witness :
    mptcp_subtype_mp_join transparent_crypto (draws 5 6) scenario_b_state
        (ipv4_packet 3000 4000 true true [blank_option 30 16 1])
        (ipv4_packet 3000 4000 true true [blank_option 30 16 1])
        (blank_option 30 16 1) DIRECTION_INBOUND =
      outcome.returned
        { error := STATUS_ERR, state := scenario_b_state, opt := blank_option 30 16 1 } :=
  (mp_join_without_matching_subflow_fails transparent_crypto (draws 5 6) scenario_b_state
    (ipv4_packet 3000 4000 true true [blank_option 30 16 1])
    (ipv4_packet 3000 4000 true true [blank_option 30 16 1])
    (blank_option 30 16 1)).2.2.1 rfl rfl rfl (by decide)

/-! ### Subflows opened by an MP_JOIN SYN -/

theorem new_subflow_inbound_fields (env : environment) (s s1 : mp_state) (p : packet)
    (sf : mp_subflow) (h : new_subflow_inbound env s p = (some sf, s1)) :
    sf.src_port = p.tcp.src_port ∧ sf.dst_port = p.tcp.dst_port ∧
    sf.packetdrill_rand_nbr = env.generate_32 ∧
    (∀ hdr, p.ipv4 = some hdr →
      sf.src_ip = ip_from_ipv4 hdr.src_ip ∧ sf.dst_ip = ip_from_ipv4 hdr.dst_ip) ∧
    (∀ hdr, p.ipv4 = none → p.ipv6 = some hdr →
      sf.src_ip = ip_from_ipv6 hdr.src_ip ∧ sf.dst_ip = ip_from_ipv6 hdr.dst_ip) := by
  unfold new_subflow_inbound subflow_addresses at h
  cases h4 : p.ipv4 with
  | some hdr4 =>
    simp only [h4, Bool.false_eq_true, if_false, Prod.mk.injEq, Option.some.injEq] at h
    obtain ⟨rfl, _⟩ := h
    refine ⟨rfl, rfl, rfl, ?_, ?_⟩
    · intro hdr hh
      cases hh
      exact ⟨rfl, rfl⟩
    · intro hdr hh
      cases hh
  | none =>
    cases h6 : p.ipv6 with
    | some hdr6 =>
      simp only [h4, h6, Bool.false_eq_true, if_false, Prod.mk.injEq, Option.some.injEq] at h
      obtain ⟨rfl, _⟩ := h
      refine ⟨rfl, rfl, rfl, ?_, ?_⟩
      · intro hdr hh
        cases hh
      · intro hdr _ hh
        cases hh
        exact ⟨rfl, rfl⟩
    | none =>
      simp [h4, h6] at h

theorem new_subflow_inbound_isSome (env : environment) (s : mp_state) (p : packet)
    (h : p.ipv4 ≠ none ∨ p.ipv6 ≠ none) :
    ∃ sf s1, new_subflow_inbound env s p = (some sf, s1) := by
  unfold new_subflow_inbound subflow_addresses
  cases h4 : p.ipv4 with
  | some hdr4 => exact ⟨_, _, rfl⟩
  | none =>
    cases h6 : p.ipv6 with
    | some hdr6 => exact ⟨_, _, rfl⟩
    | none => simp [h4, h6] at h

theorem new_subflow_inbound_without_header (env : environment) (s : mp_state) (p : packet)
    (h4 : p.ipv4 = none) (h6 : p.ipv6 = none) : new_subflow_inbound env s p = (none, s) := by
  simp [new_subflow_inbound, subflow_addresses, h4, h6]

theorem mptcp_subtype_mp_join_inbound_syn (c : crypto) (env : environment) (s : mp_state)
    (packet_to_modify live_packet : packet) (tcp_opt_to_modify : tcp_option)
    (hsyn : packet_to_modify.tcp.syn = true) (hack : packet_to_modify.tcp.ack = false)
    (hlen : tcp_opt_to_modify.length = TCPOLEN_MP_JOIN_SYN) :
    mptcp_subtype_mp_join c env s packet_to_modify live_packet tcp_opt_to_modify
        DIRECTION_INBOUND =
      match new_subflow_inbound env s packet_to_modify with
      | (none, s1) =>
        outcome.returned { error := STATUS_ERR, state := s1, opt := tcp_opt_to_modify }
      | (some subflow, s1) =>
        outcome.returned {
          error := STATUS_OK, state := s1,
          opt := { tcp_opt_to_modify with data := { tcp_opt_to_modify.data with
            mp_join_syn := {
              receiver_token := c.get_token_32 s1.kernel_key,
              sender_random_number := subflow.packetdrill_rand_nbr,
              address_id := subflow.packetdrill_addr_id } } } } := by
  simp [mptcp_subtype_mp_join, hsyn, hack, hlen]

/-- C15 (as the code behaves): MP_JOIN case 1 (inbound, SYN set, ACK clear, SYN length). On a
packet with an IPv4 or IPv6 header the call succeeds and the registry gains exactly one subflow,
put at its head, whose addresses and ports are the packet's own source and destination
(unswapped), whose local random is the drawn 32-bit value and whose local address id is the
counter's value before the call truncated to 8 bits; the counter is incremented by one modulo
`2 ^ 32`; the option receives the token of the remote key, that local random and that local
address id. While the counter is below 256 the id is the counter's value itself and the counter
grows by exactly one. On a packet with neither header the call fails and nothing changes. -/
theorem mp_join_inbound_syn_opens_subflow (c : crypto) (env : environment) (s : mp_state)
    (packet_to_modify live_packet : packet) (tcp_opt_to_modify : tcp_option)
    (hsyn : packet_to_modify.tcp.syn = true) (hack : packet_to_modify.tcp.ack = false)
    (hlen : tcp_opt_to_modify.length = TCPOLEN_MP_JOIN_SYN) :
    ((packet_to_modify.ipv4 ≠ none ∨ packet_to_modify.ipv6 ≠ none) →
      ∃ (subflow : mp_subflow),
        mptcp_subtype_mp_join c env s packet_to_modify live_packet tcp_opt_to_modify
            DIRECTION_INBOUND =
          outcome.returned {
            error := STATUS_OK,
            state := { s with
              last_packetdrill_addr_id := to_unsigned (s.last_packetdrill_addr_id + 1),
              subflows := subflow :: s.subflows },
            opt := { tcp_opt_to_modify with data := { tcp_opt_to_modify.data with
              mp_join_syn := {
                receiver_token := c.get_token_32 s.kernel_key,
                sender_random_number := env.generate_32,
                address_id := to_u8 s.last_packetdrill_addr_id } } } } ∧
        subflow.src_port = packet_to_modify.tcp.src_port ∧
        subflow.dst_port = packet_to_modify.tcp.dst_port ∧
        subflow.packetdrill_rand_nbr = env.generate_32 ∧
        subflow.packetdrill_addr_id = to_u8 s.last_packetdrill_addr_id ∧
        (∀ hdr, packet_to_modify.ipv4 = some hdr →
          subflow.src_ip = ip_from_ipv4 hdr.src_ip ∧ subflow.dst_ip = ip_from_ipv4 hdr.dst_ip) ∧
        (∀ hdr, packet_to_modify.ipv4 = none → packet_to_modify.ipv6 = some hdr →
          subflow.src_ip = ip_from_ipv6 hdr.src_ip ∧ subflow.dst_ip = ip_from_ipv6 hdr.dst_ip) ∧
        (s.last_packetdrill_addr_id < 256 →
          subflow.packetdrill_addr_id = s.last_packetdrill_addr_id ∧
          to_unsigned (s.last_packetdrill_addr_id + 1) = s.last_packetdrill_addr_id + 1)) ∧
    (packet_to_modify.ipv4 = none → packet_to_modify.ipv6 = none →
      mptcp_subtype_mp_join c env s packet_to_modify live_packet tcp_opt_to_modify
          DIRECTION_INBOUND =
        outcome.returned { error := STATUS_ERR, state := s, opt := tcp_opt_to_modify }) := by
  rw [mptcp_subtype_mp_join_inbound_syn c env s packet_to_modify live_packet tcp_opt_to_modify
    hsyn hack hlen]
  constructor
  · intro hhdr
    obtain ⟨sf, s1, hn⟩ := new_subflow_inbound_isSome env s packet_to_modify hhdr
    obtain ⟨hs1, hid⟩ := new_subflow_inbound_some env s s1 packet_to_modify sf hn
    obtain ⟨hsp, hdp, hrand, h4, h6⟩ := new_subflow_inbound_fields env s s1 packet_to_modify sf hn
    refine ⟨sf, ?_, hsp, hdp, hrand, hid, h4, h6, ?_⟩
    · rw [hn]
      simp only [hs1, hrand, hid]
    · intro hlt
      rw [hid]
      simp only [to_u8, to_unsigned]
      constructor
      · exact Nat.mod_eq_of_lt (by omega)
      · exact Nat.mod_eq_of_lt (by omega)
  · intro h4 h6
    rw [new_subflow_inbound_without_header env s packet_to_modify h4 h6]

/-- The first subflow opened from the test tool's side at start-up: it gets id 0, the counter
becomes 1. -/
theorem mp_join_inbound_syn_opens_subflow_witness :
    ∃ (subflow : mp_subflow),
      mptcp_subtype_mp_join transparent_crypto (draws 0 7) initial_state inbound_join_syn
          inbound_join_syn (blank_option 30 12 1) DIRECTION_INBOUND =
        outcome.returned {
          error := STATUS_OK,
          state := { initial_state with
            last_packetdrill_addr_id := 1,
            subflows := [subflow] },
          opt := { blank_option 30 12 1 with data := { (blank_option 30 12 1).data with
            mp_join_syn := {
              receiver_token := 0,
              sender_random_number := 7,
              address_id := 0 } } } } :=
  ((mp_join_inbound_syn_opens_subflow transparent_crypto (draws 0 7) initial_state
    inbound_join_syn inbound_join_syn (blank_option 30 12 1) rfl rfl rfl).1
    (Or.inl (by decide))).imp (fun _ h => h.1)

set_option maxRecDepth 100000 in
/-- C15 as stated fails: once 256 subflows have been opened from the test tool's side the counter
is 256, and the next MP_JOIN case 1 call gives the new subflow, and writes into the option, the
address id 0 and not the counter's value. -/
theorem mp_join_inbound_syn_id_counterexample :
    (state_after transparent_crypto
      (List.replicate 256 join_syn_event)).last_packetdrill_addr_id = 256 ∧
    (mptcp_subtype_mp_join transparent_crypto (draws 0 7)
        (state_after transparent_crypto (List.replicate 256 join_syn_event))
        inbound_join_syn inbound_join_syn (blank_option 30 12 1) DIRECTION_INBOUND).result?.map
      (fun r => (r.error, r.opt.data.mp_join_syn.address_id,
        r.state.subflows.head?.map (fun subflow => subflow.packetdrill_addr_id))) =
      some (STATUS_OK, 0, some 0) := by
  decide

theorem new_subflow_outound_fields (env : environment) (s s1 : mp_state) (p : packet)
    (sf : mp_subflow) (mp_join_syn : tcp_option)
    (hopt : get_tcp_option p TCPOPT_MPTCP = some mp_join_syn)
    (h : new_subflow_outound env s p = (some sf, s1)) :
    sf.src_port = p.tcp.dst_port ∧ sf.dst_port = p.tcp.src_port ∧
    sf.kernel_rand_nbr = mp_join_syn.data.mp_join_syn.sender_random_number ∧
    sf.kernel_addr_id = mp_join_syn.data.mp_join_syn.address_id ∧
    (∀ hdr, p.ipv4 = some hdr →
      sf.src_ip = ip_from_ipv4 hdr.dst_ip ∧ sf.dst_ip = ip_from_ipv4 hdr.src_ip) ∧
    (∀ hdr, p.ipv4 = none → p.ipv6 = some hdr →
      sf.src_ip = ip_from_ipv6 hdr.dst_ip ∧ sf.dst_ip = ip_from_ipv6 hdr.src_ip) := by
  unfold new_subflow_outound subflow_addresses at h
  rw [hopt] at h
  cases h4 : p.ipv4 with
  | some hdr4 =>
    simp only [h4, if_true, Prod.mk.injEq, Option.some.injEq] at h
    obtain ⟨rfl, _⟩ := h
    refine ⟨rfl, rfl, rfl, rfl, ?_, ?_⟩
    · intro hdr hh
      cases hh
      exact ⟨rfl, rfl⟩
    · intro hdr hh
      cases hh
  | none =>
    cases h6 : p.ipv6 with
    | some hdr6 =>
      simp only [h4, h6, if_true, Prod.mk.injEq, Option.some.injEq] at h
      obtain ⟨rfl, _⟩ := h
      refine ⟨rfl, rfl, rfl, rfl, ?_, ?_⟩
      · intro hdr hh
        cases hh
      · intro hdr _ hh
        cases hh
        exact ⟨rfl, rfl⟩
    | none =>
      simp [h4, h6] at h

theorem new_subflow_outound_isSome (env : environment) (s : mp_state) (p : packet)
    (mp_join_syn : tcp_option) (hopt : get_tcp_option p TCPOPT_MPTCP = some mp_join_syn)
    (h : p.ipv4 ≠ none ∨ p.ipv6 ≠ none) :
    ∃ sf s1, new_subflow_outound env s p = (some sf, s1) := by
  unfold new_subflow_outound subflow_addresses
  rw [hopt]
  cases h4 : p.ipv4 with
  | some hdr4 => exact ⟨_, _, rfl⟩
  | none =>
    cases h6 : p.ipv6 with
    | some hdr6 => exact ⟨_, _, rfl⟩
    | none => simp [h4, h6] at h

theorem new_subflow_outound_fails (env : environment) (s : mp_state) (p : packet)
    (h : get_tcp_option p TCPOPT_MPTCP = none ∨ (p.ipv4 = none ∧ p.ipv6 = none)) :
    new_subflow_outound env s p = (none, s) := by
  unfold new_subflow_outound subflow_addresses
  rcases h with h | ⟨h4, h6⟩
  · rw [h]
  · cases get_tcp_option p TCPOPT_MPTCP with
    | none => rfl
    | some o => simp [h4, h6]

theorem mptcp_subtype_mp_join_outbound_syn (c : crypto) (env : environment) (s : mp_state)
    (packet_to_modify live_packet : packet) (tcp_opt_to_modify : tcp_option)
    (hsyn : packet_to_modify.tcp.syn = true) (hack : packet_to_modify.tcp.ack = false)
    (hlen : tcp_opt_to_modify.length = TCPOLEN_MP_JOIN_SYN) :
    mptcp_subtype_mp_join c env s packet_to_modify live_packet tcp_opt_to_modify
        DIRECTION_OUTBOUND =
      match new_subflow_outound env s live_packet with
      | (none, _) => outcome.null_dereference
      | (some subflow, s1) =>
        outcome.returned {
          error := STATUS_OK, state := s1,
          opt := { tcp_opt_to_modify with data := { tcp_opt_to_modify.data with
            mp_join_syn := {
              address_id := subflow.kernel_addr_id,
              sender_random_number := subflow.kernel_rand_nbr,
              receiver_token := c.get_token_32 s1.kernel_key } } } } := by
  simp [mptcp_subtype_mp_join, hsyn, hack, hlen, DIRECTION_INBOUND, DIRECTION_OUTBOUND]

/-- C16: MP_JOIN case 4 (outbound, SYN set, ACK clear, SYN length) on a live packet that has an
IPv4 or IPv6 header and an MPTCP option. The call succeeds and the registry gains exactly one
subflow, put at its head, whose source address and port are the live packet's destination and
whose destination address and port are the live packet's source, with remote random and remote
address id read from the live packet's first MPTCP option; the script option receives that
address id, that random and the token of the remote key; nothing else changes, the address-id
counter included. -/
theorem mp_join_outbound_syn_registers_peer_subflow (c : crypto) (env : environment)
    (s : mp_state) (packet_to_modify live_packet : packet) (tcp_opt_to_modify : tcp_option)
    (mp_join_syn : tcp_option)
    (hsyn : packet_to_modify.tcp.syn = true) (hack : packet_to_modify.tcp.ack = false)
    (hlen : tcp_opt_to_modify.length = TCPOLEN_MP_JOIN_SYN)
    (hhdr : live_packet.ipv4 ≠ none ∨ live_packet.ipv6 ≠ none)
    (hopt : get_tcp_option live_packet TCPOPT_MPTCP = some mp_join_syn) :
    ∃ (subflow : mp_subflow),
      mptcp_subtype_mp_join c env s packet_to_modify live_packet tcp_opt_to_modify
          DIRECTION_OUTBOUND =
        outcome.returned {
          error := STATUS_OK,
          state := { s with subflows := subflow :: s.subflows },
          opt := { tcp_opt_to_modify with data := { tcp_opt_to_modify.data with
            mp_join_syn := {
              address_id := mp_join_syn.data.mp_join_syn.address_id,
              sender_random_number := mp_join_syn.data.mp_join_syn.sender_random_number,
              receiver_token := c.get_token_32 s.kernel_key } } } } ∧
      subflow.src_port = live_packet.tcp.dst_port ∧
      subflow.dst_port = live_packet.tcp.src_port ∧
      subflow.kernel_rand_nbr = mp_join_syn.data.mp_join_syn.sender_random_number ∧
      subflow.kernel_addr_id = mp_join_syn.data.mp_join_syn.address_id ∧
      (∀ hdr, live_packet.ipv4 = some hdr →
        subflow.src_ip = ip_from_ipv4 hdr.dst_ip ∧ subflow.dst_ip = ip_from_ipv4 hdr.src_ip) ∧
      (∀ hdr, live_packet.ipv4 = none → live_packet.ipv6 = some hdr →
        subflow.src_ip = ip_from_ipv6 hdr.dst_ip ∧ subflow.dst_ip = ip_from_ipv6 hdr.src_ip) := by
  rw [mptcp_subtype_mp_join_outbound_syn c env s packet_to_modify live_packet tcp_opt_to_modify
    hsyn hack hlen]
  obtain ⟨sf, s1, hn⟩ := new_subflow_outound_isSome env s live_packet mp_join_syn hopt hhdr
  have hs1 := new_subflow_outound_some env s s1 live_packet sf hn
  obtain ⟨hsp, hdp, hrand, hid, h4, h6⟩ :=
    new_subflow_outound_fields env s s1 live_packet sf mp_join_syn hopt hn
  refine ⟨sf, ?_, hsp, hdp, hrand, hid, h4, h6⟩
  rw [hn]
  simp only [hs1, hrand, hid]

/-- The peer opens a subflow from port 5000 to port 6000 with address id 9 and random
`0xCCCC0003`: the script option receives both and the subflow is registered from the test
tool's perspective. -/
theorem mp_join_outbound_syn_registers_peer_subflow_witness :
    ∃ (subflow : mp_subflow),
      mptcp_subtype_mp_join transparent_crypto (draws 0 0) scenario_b_state outbound_join_syn
          live_join_syn (blank_option 30 12 1) DIRECTION_OUTBOUND =
        outcome.returned {
          error := STATUS_OK,
          state := { scenario_b_state with subflows := subflow :: scenario_b_state.subflows },
          opt := { blank_option 30 12 1 with data := { (blank_option 30 12 1).data with
            mp_join_syn := {
              address_id := 9,
              sender_random_number := 0xCCCC0003,
              receiver_token := transparent_crypto.get_token_32 0x2222222222222222 } } } } ∧
      subflow.src_port = 6000 ∧ subflow.dst_port = 5000 :=
  (mp_join_outbound_syn_registers_peer_subflow transparent_crypto (draws 0 0) scenario_b_state
    outbound_join_syn live_join_syn (blank_option 30 12 1) live_join_syn_option rfl rfl rfl
    (Or.inl (by decide)) rfl).imp (fun _ h => ⟨h.1, h.2.1, h.2.2.1⟩)

/-- C17 (evaluation of the code): MP_JOIN case 4 when the live packet carries no MPTCP option.
`new_subflow_outound` returns `NULL` and registers nothing, but the handler does not test the
result: it dereferences the `NULL` pointer instead of returning `STATUS_ERR`, and so does the
driver that called it. -/
theorem mp_join_outbound_syn_without_live_option_dereferences_null :
    get_tcp_option live_join_syn_without_options TCPOPT_MPTCP = none ∧
    new_subflow_outound (draws 0 0) scenario_b_state live_join_syn_without_options =
      (none, scenario_b_state) ∧
    mptcp_subtype_mp_join transparent_crypto (draws 0 0) scenario_b_state outbound_join_syn
      live_join_syn_without_options (blank_option 30 12 1) DIRECTION_OUTBOUND =
        outcome.null_dereference ∧
    mptcp_insert_and_extract_opt_fields transparent_crypto (fun _ => draws 0 0)
      scenario_b_state outbound_join_syn (some live_join_syn_without_options)
      DIRECTION_OUTBOUND = outcome.null_dereference ∧
    (∀ (c : crypto) (env : environment) (s : mp_state) (packet_to_modify live_packet : packet)
      (tcp_opt_to_modify : tcp_option),
      packet_to_modify.tcp.syn = true → packet_to_modify.tcp.ack = false →
      tcp_opt_to_modify.length = TCPOLEN_MP_JOIN_SYN →
      (get_tcp_option live_packet TCPOPT_MPTCP = none ∨
        (live_packet.ipv4 = none ∧ live_packet.ipv6 = none)) →
      mptcp_subtype_mp_join c env s packet_to_modify live_packet tcp_opt_to_modify
        DIRECTION_OUTBOUND = outcome.null_dereference) := by
  refine ⟨by decide, by decide, by decide, by decide, ?_⟩
  intro c env s packet_to_modify live_packet tcp_opt_to_modify hsyn hack hlen h
  rw [mptcp_subtype_mp_join_outbound_syn c env s packet_to_modify live_packet tcp_opt_to_modify
    hsyn hack hlen, new_subflow_outound_fails env s live_packet h]

/-! ### MP_JOIN SYN-ACK and ACK -/

/-- C20: for every state and every pair of inbound packets with SYN set, one with ACK clear
(case 1) and one with ACK set (case 4), `mptcp_subtype_mp_capable` on an option of length 12
returns the same status and leaves the same state and the same option. -/
theorem mp_capable_inbound_syn_ack_equals_syn (env : environment) (s : mp_state)
    (syn_packet syn_ack_packet live1 live2 : packet) (tcp_opt_to_modify : tcp_option)
    (hlen : tcp_opt_to_modify.length = 12)
    (hsyn1 : syn_packet.tcp.syn = true) (hack1 : syn_packet.tcp.ack = false)
    (hsyn2 : syn_ack_packet.tcp.syn = true) (hack2 : syn_ack_packet.tcp.ack = true) :
    mptcp_subtype_mp_capable env s syn_ack_packet live2 tcp_opt_to_modify DIRECTION_INBOUND =
      mptcp_subtype_mp_capable env s syn_packet live1 tcp_opt_to_modify DIRECTION_INBOUND := by
  have _ := hack1
  have _ := hack2
  rw [mptcp_subtype_mp_capable_inbound_syn env s syn_ack_packet live2 tcp_opt_to_modify hlen
      hsyn2,
    mptcp_subtype_mp_capable_inbound_syn env s syn_packet live1 tcp_opt_to_modify hlen hsyn1]

/-- At start-up with `key1` pending, the inbound SYN-ACK generates and binds the key exactly as
the inbound SYN does. -/
theorem mp_capable_inbound_syn_ack_equals_syn_witness :
    mptcp_subtype_mp_capable (draws 0x1111111111111111 0)
        { initial_state with vars_queue := ["key1"] }
        (ipv4_packet 1000 2000 true true [blank_option 30 12 0])
        (ipv4_packet 1000 2000 true true [blank_option 30 12 0])
        (blank_option 30 12 0) DIRECTION_INBOUND =
      mptcp_subtype_mp_capable (draws 0x1111111111111111 0)
        { initial_state with vars_queue := ["key1"] }
        inbound_capable_syn inbound_capable_syn (blank_option 30 12 0) DIRECTION_INBOUND :=
  mp_capable_inbound_syn_ack_equals_syn (draws 0x1111111111111111 0)
    { initial_state with vars_queue := ["key1"] } inbound_capable_syn
    (ipv4_packet 1000 2000 true true [blank_option 30 12 0]) inbound_capable_syn
    (ipv4_packet 1000 2000 true true [blank_option 30 12 0]) (blank_option 30 12 0)
    rfl rfl rfl rfl rfl

/-! ### The driver, option by option -/

theorem options_loop_induction (c : crypto) (envs : Nat → environment)
    (live_packet : Option packet) (direction : Nat) (packet_to_modify : packet)
    (P : List tcp_option → List tcp_option → mp_state → Prop)
    (hnil : ∀ visited s, P visited [] s)
    (hskip : ∀ visited o rest s, o.kind ≠ TCPOPT_MPTCP →
      options_loop c envs live_packet direction packet_to_modify visited (o :: rest) s =
        options_loop c envs live_packet direction packet_to_modify (visited ++ [o]) rest s →
      handler_calls c envs live_packet direction packet_to_modify visited (o :: rest) s =
        handler_calls c envs live_packet direction packet_to_modify (visited ++ [o]) rest s →
      P (visited ++ [o]) rest s → P visited (o :: rest) s)
    (hnull : ∀ visited o rest s, o.kind = TCPOPT_MPTCP →
      options_loop c envs live_packet direction packet_to_modify visited (o :: rest) s =
        outcome.null_dereference →
      handler_calls c envs live_packet direction packet_to_modify visited (o :: rest) s =
        [(visited.length, outcome.null_dereference)] →
      P visited (o :: rest) s)
    (herr : ∀ visited o rest s r, o.kind = TCPOPT_MPTCP → r.error ≠ 0 →
      options_loop c envs live_packet direction packet_to_modify visited (o :: rest) s =
        outcome.returned {
          error := STATUS_ERR, state := r.state,
          packet := { packet_to_modify with tcp_options := visited ++ r.opt :: rest } } →
      handler_calls c envs live_packet direction packet_to_modify visited (o :: rest) s =
        [(visited.length, outcome.returned r)] →
      P visited (o :: rest) s)
    (hok : ∀ visited o rest s r, o.kind = TCPOPT_MPTCP → r.error = 0 →
      options_loop c envs live_packet direction packet_to_modify visited (o :: rest) s =
        options_loop c envs live_packet direction packet_to_modify (visited ++ [r.opt]) rest
          r.state →
      handler_calls c envs live_packet direction packet_to_modify visited (o :: rest) s =
        (visited.length, outcome.returned r) ::
          handler_calls c envs live_packet direction packet_to_modify (visited ++ [r.opt]) rest
            r.state →
      P (visited ++ [r.opt]) rest r.state → P visited (o :: rest) s)
    (todo visited : List tcp_option) (s : mp_state) : P visited todo s := by
  induction todo generalizing visited s with
  | nil => exact hnil visited s
  | cons o rest ih =>
    by_cases hkind : o.kind = TCPOPT_MPTCP
    · have hloop := options_loop.eq_2 c envs live_packet direction packet_to_modify visited s
        o rest
      have hcalls := handler_calls.eq_2 c envs live_packet direction packet_to_modify visited s
        o rest
      simp only [hkind, if_true] at hloop hcalls
      generalize hsw : mptcp_option_switch c _ s _ _ o direction = sw at hloop hcalls
      cases sw with
      | null_dereference => exact hnull visited o rest s hkind hloop hcalls
      | returned r =>
        dsimp only at hloop hcalls
        by_cases herr0 : r.error ≠ 0
        · rw [if_pos herr0] at hloop hcalls
          exact herr visited o rest s r hkind herr0 hloop hcalls
        · rw [if_neg herr0] at hloop hcalls
          exact hok visited o rest s r hkind (not_not.mp herr0) hloop hcalls (ih _ _)
    · have hloop := options_loop.eq_2 c envs live_packet direction packet_to_modify visited s
        o rest
      have hcalls := handler_calls.eq_2 c envs live_packet direction packet_to_modify visited s
        o rest
      simp only [hkind, if_false] at hloop hcalls
      exact hskip visited o rest s hkind hloop hcalls (ih _ _)

theorem getElem?_append_some {α : Type} (l l2 : List α) (i : Nat) (x : α)
    (h : l[i]? = some x) : (l ++ l2)[i]? = some x := by
  have hlt : i < l.length := (List.getElem?_eq_some_iff.mp h).1
  rw [List.getElem?_append_left hlt]
  exact h

theorem getElem?_length_add_append {α : Type} (l l2 : List α) (j : Nat) :
    (l ++ l2)[l.length + j]? = l2[j]? := by
  rw [List.getElem?_append_right (Nat.le_add_right _ _)]
  simp

theorem options_loop_shape (c : crypto) (envs : Nat → environment)
    (live_packet : Option packet) (direction : Nat) (packet_to_modify : packet)
    (todo visited : List tcp_option) (s : mp_state) :
    ∀ res, options_loop c envs live_packet direction packet_to_modify visited todo s =
        outcome.returned res →
      (res.error = STATUS_OK ∨ res.error = STATUS_ERR) ∧
      res.packet.tcp_options.length = visited.length + todo.length ∧
      (∀ (i : Nat) (x : tcp_option), visited[i]? = some x →
        res.packet.tcp_options[i]? = some x) ∧
      (∀ (j : Nat) (o : tcp_option), todo[j]? = some o → o.kind ≠ TCPOPT_MPTCP →
        res.packet.tcp_options[visited.length + j]? = some o) := by
  apply options_loop_induction c envs live_packet direction packet_to_modify
    (fun visited todo s => ∀ res,
      options_loop c envs live_packet direction packet_to_modify visited todo s =
        outcome.returned res →
      (res.error = STATUS_OK ∨ res.error = STATUS_ERR) ∧
      res.packet.tcp_options.length = visited.length + todo.length ∧
      (∀ (i : Nat) (x : tcp_option), visited[i]? = some x →
        res.packet.tcp_options[i]? = some x) ∧
      (∀ (j : Nat) (o : tcp_option), todo[j]? = some o → o.kind ≠ TCPOPT_MPTCP →
        res.packet.tcp_options[visited.length + j]? = some o))
  · intro visited s res h
    simp only [options_loop, outcome.returned.injEq] at h
    subst h
    refine ⟨Or.inl rfl, by simp, fun i x hx => hx, ?_⟩
    intro j o hj
    simp at hj
  · intro visited o rest s _ hl _ ih res h
    rw [hl] at h
    obtain ⟨e, len, pre, non⟩ := ih res h
    refine ⟨e, ?_, ?_, ?_⟩
    · rw [len]
      simp only [List.length_append, List.length_cons, List.length_nil]
      omega
    · intro i x hx
      exact pre i x (getElem?_append_some visited [o] i x hx)
    · intro j o2 hj hk2
      cases j with
      | zero =>
        simp only [List.getElem?_cons_zero, Option.some.injEq] at hj
        subst hj
        exact pre visited.length o (by simp)
      | succ j =>
        simp only [List.getElem?_cons_succ] at hj
        have := non j o2 hj hk2
        have hidx : (visited ++ [o]).length + j = visited.length + (j + 1) := by
          simp only [List.length_append, List.length_cons, List.length_nil]
          omega
        rw [hidx] at this
        exact this
  · intro visited o rest s _ hl _ res h
    rw [hl] at h
    cases h
  · intro visited o rest s r hk _ hl _ res h
    rw [hl] at h
    simp only [outcome.returned.injEq] at h
    subst h
    refine ⟨Or.inr rfl, by simp, ?_, ?_⟩
    · intro i x hx
      exact getElem?_append_some visited (r.opt :: rest) i x hx
    · intro j o2 hj hk2
      cases j with
      | zero =>
        simp only [List.getElem?_cons_zero, Option.some.injEq] at hj
        subst hj
        exact absurd hk hk2
      | succ j =>
        simp only [List.getElem?_cons_succ] at hj
        show (visited ++ r.opt :: rest)[visited.length + (j + 1)]? = some o2
        rw [getElem?_length_add_append]
        simpa using hj
  · intro visited o rest s r hk _ hl _ ih res h
    rw [hl] at h
    obtain ⟨e, len, pre, non⟩ := ih res h
    refine ⟨e, ?_, ?_, ?_⟩
    · rw [len]
      simp only [List.length_append, List.length_cons, List.length_nil]
      omega
    · intro i x hx
      exact pre i x (getElem?_append_some visited [r.opt] i x hx)
    · intro j o2 hj hk2
      cases j with
      | zero =>
        simp only [List.getElem?_cons_zero, Option.some.injEq] at hj
        subst hj
        exact absurd hk hk2
      | succ j =>
        simp only [List.getElem?_cons_succ] at hj
        have := non j o2 hj hk2
        have hidx : (visited ++ [r.opt]).length + j = visited.length + (j + 1) := by
          simp only [List.length_append, List.length_cons, List.length_nil]
          omega
        rw [hidx] at this
        exact this

theorem handler_calls_positions (c : crypto) (envs : Nat → environment)
    (live_packet : Option packet) (direction : Nat) (packet_to_modify : packet)
    (todo visited : List tcp_option) (s : mp_state) :
    (∀ x ∈ handler_calls c envs live_packet direction packet_to_modify visited todo s,
      ∃ (j : Nat) (o : tcp_option), x.1 = visited.length + j ∧ todo[j]? = some o ∧
        o.kind = TCPOPT_MPTCP) ∧
    ((handler_calls c envs live_packet direction packet_to_modify visited todo s).map
      Prod.fst).Pairwise (fun a b => a < b) := by
  apply options_loop_induction c envs live_packet direction packet_to_modify
    (fun visited todo s =>
      (∀ x ∈ handler_calls c envs live_packet direction packet_to_modify visited todo s,
        ∃ (j : Nat) (o : tcp_option), x.1 = visited.length + j ∧ todo[j]? = some o ∧
          o.kind = TCPOPT_MPTCP) ∧
      ((handler_calls c envs live_packet direction packet_to_modify visited todo s).map
        Prod.fst).Pairwise (fun a b => a < b))
  · intro visited s
    simp [handler_calls]
  · intro visited o rest s _ _ hc ih
    rw [hc]
    refine ⟨?_, ih.2⟩
    intro x hx
    obtain ⟨j, o2, h1, h2, h3⟩ := ih.1 x hx
    refine ⟨j + 1, o2, ?_, by simpa using h2, h3⟩
    rw [h1]
    simp only [List.length_append, List.length_cons, List.length_nil]
    omega
  · intro visited o rest s hk _ hc
    rw [hc]
    refine ⟨?_, by simp⟩
    intro x hx
    simp only [List.mem_singleton] at hx
    subst hx
    exact ⟨0, o, rfl, List.getElem?_cons_zero, hk⟩
  · intro visited o rest s r hk _ _ hc
    rw [hc]
    refine ⟨?_, by simp⟩
    intro x hx
    simp only [List.mem_singleton] at hx
    subst hx
    exact ⟨0, o, rfl, List.getElem?_cons_zero, hk⟩
  · intro visited o rest s r hk _ _ hc ih
    rw [hc]
    constructor
    · intro x hx
      rcases List.mem_cons.mp hx with hx | hx
      · subst hx
        exact ⟨0, o, rfl, List.getElem?_cons_zero, hk⟩
      · obtain ⟨j, o2, h1, h2, h3⟩ := ih.1 x hx
        refine ⟨j + 1, o2, ?_, by simpa using h2, h3⟩
        rw [h1]
        simp only [List.length_append, List.length_cons, List.length_nil]
        omega
    · rw [List.map_cons, List.pairwise_cons]
      refine ⟨?_, ih.2⟩
      intro y hy
      obtain ⟨x, hx, rfl⟩ := List.mem_map.mp hy
      obtain ⟨j, o2, h1, _, _⟩ := ih.1 x hx
      show visited.length < x.1
      rw [h1]
      simp only [List.length_append, List.length_cons, List.length_nil]
      omega

theorem status_ok_ne_err : STATUS_OK ≠ STATUS_ERR := by decide

theorem handler_calls_status (c : crypto) (envs : Nat → environment)
    (live_packet : Option packet) (direction : Nat) (packet_to_modify : packet)
    (todo visited : List tcp_option) (s : mp_state) :
    (∀ x ∈ (handler_calls c envs live_packet direction packet_to_modify visited todo
        s).dropLast, ∃ r, x.2 = outcome.returned r ∧ r.error = 0) ∧
    (options_loop c envs live_packet direction packet_to_modify visited todo s =
        outcome.null_dereference ↔
      ∃ k, (handler_calls c envs live_packet direction packet_to_modify visited todo
        s).getLast? = some (k, outcome.null_dereference)) ∧
    (∀ res, options_loop c envs live_packet direction packet_to_modify visited todo s =
        outcome.returned res →
      (res.error = STATUS_OK ↔
        ∀ x ∈ handler_calls c envs live_packet direction packet_to_modify visited todo s,
          ∃ r, x.2 = outcome.returned r ∧ r.error = 0)) := by
  apply options_loop_induction c envs live_packet direction packet_to_modify
    (fun visited todo s =>
      (∀ x ∈ (handler_calls c envs live_packet direction packet_to_modify visited todo
          s).dropLast, ∃ r, x.2 = outcome.returned r ∧ r.error = 0) ∧
      (options_loop c envs live_packet direction packet_to_modify visited todo s =
          outcome.null_dereference ↔
        ∃ k, (handler_calls c envs live_packet direction packet_to_modify visited todo
          s).getLast? = some (k, outcome.null_dereference)) ∧
      (∀ res, options_loop c envs live_packet direction packet_to_modify visited todo s =
          outcome.returned res →
        (res.error = STATUS_OK ↔
          ∀ x ∈ handler_calls c envs live_packet direction packet_to_modify visited todo s,
            ∃ r, x.2 = outcome.returned r ∧ r.error = 0)))
  · intro visited s
    refine ⟨by simp [handler_calls], by simp [handler_calls, options_loop], ?_⟩
    intro res h
    simp only [options_loop, outcome.returned.injEq] at h
    subst h
    simp [handler_calls]
  · intro visited o rest s _ hl hc ih
    rw [hl, hc]
    exact ih
  · intro visited o rest s _ hl hc
    rw [hl, hc]
    refine ⟨by simp, by simp, ?_⟩
    intro res h
    cases h
  · intro visited o rest s r _ herr hl hc
    rw [hl, hc]
    refine ⟨by simp, by simp, ?_⟩
    intro res h
    simp only [outcome.returned.injEq] at h
    subst h
    constructor
    · intro h
      exact absurd h.symm status_ok_ne_err
    · intro h
      obtain ⟨r2, h1, h2⟩ := h (visited.length, outcome.returned r) (by simp)
      simp only [outcome.returned.injEq] at h1
      subst h1
      exact absurd h2 herr
  · intro visited o rest s r _ hr hl hc ih
    rw [hl, hc]
    obtain ⟨ih1, ih2, ih3⟩ := ih
    cases hC : handler_calls c envs live_packet direction packet_to_modify (visited ++ [r.opt])
        rest r.state with
    | nil =>
      rw [hC] at ih1 ih2 ih3
      refine ⟨by simp, ?_, ?_⟩
      · rw [ih2]
        simp
      · intro res h
        rw [ih3 res h]
        simp [hr]
    | cons y ys =>
      rw [hC] at ih1 ih2 ih3
      refine ⟨?_, ?_, ?_⟩
      · intro x hx
        rw [List.dropLast_cons_of_ne_nil (by simp)] at hx
        rcases List.mem_cons.mp hx with hx | hx
        · subst hx
          exact ⟨r, rfl, hr⟩
        · exact ih1 x hx
      · rw [ih2, List.getLast?_cons_cons]
      · intro res h
        rw [ih3 res h]
        constructor
        · intro hall x hx
          rcases List.mem_cons.mp hx with hx | hx
          · subst hx
            exact ⟨r, rfl, hr⟩
          · exact hall x hx
        · intro hall x hx
          exact hall x (List.mem_cons_of_mem _ hx)

theorem options_loop_failure (c : crypto) (envs : Nat → environment)
    (live_packet : Option packet) (direction : Nat) (packet_to_modify : packet)
    (todo visited : List tcp_option) (s : mp_state) :
    ∀ res, options_loop c envs live_packet direction packet_to_modify visited todo s =
        outcome.returned res → res.error = STATUS_ERR →
      ∃ (j : Nat) (r : handled),
        (handler_calls c envs live_packet direction packet_to_modify visited todo
          s).getLast? = some (visited.length + j, outcome.returned r) ∧
        r.error ≠ 0 ∧ res.state = r.state ∧
        res.packet.tcp_options[visited.length + j]? = some r.opt ∧
        ∀ i, j < i → res.packet.tcp_options[visited.length + i]? = todo[i]? := by
  apply options_loop_induction c envs live_packet direction packet_to_modify
    (fun visited todo s => ∀ res,
      options_loop c envs live_packet direction packet_to_modify visited todo s =
        outcome.returned res → res.error = STATUS_ERR →
      ∃ (j : Nat) (r : handled),
        (handler_calls c envs live_packet direction packet_to_modify visited todo
          s).getLast? = some (visited.length + j, outcome.returned r) ∧
        r.error ≠ 0 ∧ res.state = r.state ∧
        res.packet.tcp_options[visited.length + j]? = some r.opt ∧
        ∀ i, j < i → res.packet.tcp_options[visited.length + i]? = todo[i]?)
  · intro visited s res h herr
    simp only [options_loop, outcome.returned.injEq] at h
    subst h
    exact absurd herr status_ok_ne_err
  · intro visited o rest s _ hl hc ih res h herr
    rw [hl] at h
    rw [hc]
    obtain ⟨j, r, h1, h2, h3, h4, h5⟩ := ih res h herr
    have hidx : ∀ k, (visited ++ [o]).length + k = visited.length + (k + 1) := by
      intro k
      simp only [List.length_append, List.length_cons, List.length_nil]
      omega
    rw [hidx] at h1 h4
    refine ⟨j + 1, r, h1, h2, h3, h4, ?_⟩
    intro i hi
    cases i with
    | zero => omega
    | succ i =>
      have := h5 i (by omega)
      rw [hidx] at this
      rw [this]
      simp
  · intro visited o rest s _ hl _ res h
    rw [hl] at h
    cases h
  · intro visited o rest s r _ herr0 hl hc res h _
    rw [hl] at h
    rw [hc]
    simp only [outcome.returned.injEq] at h
    subst h
    refine ⟨0, r, rfl, herr0, rfl, ?_, ?_⟩
    · show (visited ++ r.opt :: rest)[visited.length + 0]? = some r.opt
      rw [getElem?_length_add_append]
      exact List.getElem?_cons_zero
    · intro i hi
      show (visited ++ r.opt :: rest)[visited.length + i]? = (o :: rest)[i]?
      rw [getElem?_length_add_append]
      cases i with
      | zero => omega
      | succ i => simp
  · intro visited o rest s r _ _ hl hc ih res h herr
    rw [hl] at h
    rw [hc]
    obtain ⟨j, r2, h1, h2, h3, h4, h5⟩ := ih res h herr
    have hidx : ∀ k, (visited ++ [r.opt]).length + k = visited.length + (k + 1) := by
      intro k
      simp only [List.length_append, List.length_cons, List.length_nil]
      omega
    rw [hidx] at h1 h4
    refine ⟨j + 1, r2, ?_, h2, h3, h4, ?_⟩
    · cases hC : handler_calls c envs live_packet direction packet_to_modify
          (visited ++ [r.opt]) rest r.state with
      | nil =>
        rw [hC] at h1
        simp at h1
      | cons y ys =>
        rw [hC] at h1
        rw [List.getLast?_cons_cons]
        exact h1
    · intro i hi
      cases i with
      | zero => omega
      | succ i =>
        have := h5 i (by omega)
        rw [hidx] at this
        rw [this]
        simp

theorem options_loop_success (c : crypto) (envs : Nat → environment)
    (live_packet : Option packet) (direction : Nat) (packet_to_modify : packet)
    (todo visited : List tcp_option) (s : mp_state) :
    ∀ res, options_loop c envs live_packet direction packet_to_modify visited todo s =
        outcome.returned res → res.error = STATUS_OK →
      ∀ (j : Nat) (o : tcp_option), todo[j]? = some o → o.kind = TCPOPT_MPTCP →
        ∃ (r : handled),
          (visited.length + j, outcome.returned r) ∈
            handler_calls c envs live_packet direction packet_to_modify visited todo s ∧
          r.error = 0 ∧ res.packet.tcp_options[visited.length + j]? = some r.opt := by
  apply options_loop_induction c envs live_packet direction packet_to_modify
    (fun visited todo s => ∀ res,
      options_loop c envs live_packet direction packet_to_modify visited todo s =
        outcome.returned res → res.error = STATUS_OK →
      ∀ (j : Nat) (o : tcp_option), todo[j]? = some o → o.kind = TCPOPT_MPTCP →
        ∃ (r : handled),
          (visited.length + j, outcome.returned r) ∈
            handler_calls c envs live_packet direction packet_to_modify visited todo s ∧
          r.error = 0 ∧ res.packet.tcp_options[visited.length + j]? = some r.opt)
  · intro visited s res _ _ j o hj
    simp at hj
  · intro visited o rest s hk hl hc ih res h hok j o2 hj hk2
    rw [hl] at h
    rw [hc]
    cases j with
    | zero =>
      simp only [List.getElem?_cons_zero, Option.some.injEq] at hj
      subst hj
      exact absurd hk2 hk
    | succ j =>
      simp only [List.getElem?_cons_succ] at hj
      obtain ⟨r, h1, h2, h3⟩ := ih res h hok j o2 hj hk2
      have hidx : (visited ++ [o]).length + j = visited.length + (j + 1) := by
        simp only [List.length_append, List.length_cons, List.length_nil]
        omega
      rw [hidx] at h1 h3
      exact ⟨r, h1, h2, h3⟩
  · intro visited o rest s _ hl _ res h
    rw [hl] at h
    cases h
  · intro visited o rest s r _ _ hl _ res h hok
    rw [hl] at h
    simp only [outcome.returned.injEq] at h
    subst h
    exact absurd hok.symm status_ok_ne_err
  · intro visited o rest s r _ hr hl hc ih res h hok j o2 hj hk2
    rw [hl] at h
    rw [hc]
    cases j with
    | zero =>
      refine ⟨r, List.mem_cons_self _ _, hr, ?_⟩
      obtain ⟨_, _, pre, _⟩ := options_loop_shape c envs live_packet direction packet_to_modify
        rest (visited ++ [r.opt]) r.state res h
      exact pre visited.length r.opt (by simp)
    | succ j =>
      simp only [List.getElem?_cons_succ] at hj
      obtain ⟨r2, h1, h2, h3⟩ := ih res h hok j o2 hj hk2
      have hidx : (visited ++ [r.opt]).length + j = visited.length + (j + 1) := by
        simp only [List.length_append, List.length_cons, List.length_nil]
        omega
      rw [hidx] at h1 h3
      exact ⟨r2, List.mem_cons_of_mem _ h1, h2, h3⟩

/-- C14: `mptcp_insert_and_extract_opt_fields` hands the options of the packet to the handlers in
the order of the packet, and only the MPTCP options. Every handler call but the last returned
zero, so a non-zero status (a failing handler, or a subtype other than MP_CAPABLE and MP_JOIN,
for which the switch yields `STATUS_ERR` and changes nothing) ends the calls. The driver
dereferences `NULL` exactly when its last handler call did; otherwise it returns `STATUS_OK` or
`STATUS_ERR`, and `STATUS_OK` exactly when every handler call returned zero. When it returns, the
packet has as many options as before and the non-MPTCP options are untouched; on `STATUS_OK`
every MPTCP option holds what its handler left; on `STATUS_ERR` the state and the failing option
are as the failing handler left them and every option after it is as it was. -/
theorem driver_stops_at_first_failure (c : crypto) (envs : Nat → environment) (s : mp_state)
    (packet_to_modify : packet) (live_packet : Option packet) (direction : Nat) :
    ((driver_calls c envs s packet_to_modify live_packet direction).map
      Prod.fst).Pairwise (fun a b => a < b) ∧
    (∀ x ∈ driver_calls c envs s packet_to_modify live_packet direction,
      ∃ (o : tcp_option), packet_to_modify.tcp_options[x.1]? = some o ∧
        o.kind = TCPOPT_MPTCP) ∧
    (∀ x ∈ (driver_calls c envs s packet_to_modify live_packet direction).dropLast,
      ∃ r, x.2 = outcome.returned r ∧ r.error = 0) ∧
    (mptcp_insert_and_extract_opt_fields c envs s packet_to_modify live_packet direction =
        outcome.null_dereference ↔
      ∃ k, (driver_calls c envs s packet_to_modify live_packet direction).getLast? =
        some (k, outcome.null_dereference)) ∧
    (∀ res, mptcp_insert_and_extract_opt_fields c envs s packet_to_modify live_packet
        direction = outcome.returned res →
      (res.error = STATUS_OK ∨ res.error = STATUS_ERR) ∧
      (res.error = STATUS_OK ↔
        ∀ x ∈ driver_calls c envs s packet_to_modify live_packet direction,
          ∃ r, x.2 = outcome.returned r ∧ r.error = 0) ∧
      res.packet.tcp_options.length = packet_to_modify.tcp_options.length ∧
      (∀ (i : Nat) (o : tcp_option), packet_to_modify.tcp_options[i]? = some o →
        o.kind ≠ TCPOPT_MPTCP → res.packet.tcp_options[i]? = some o) ∧
      (res.error = STATUS_OK →
        ∀ (i : Nat) (o : tcp_option), packet_to_modify.tcp_options[i]? = some o →
          o.kind = TCPOPT_MPTCP →
          ∃ (r : handled),
            (i, outcome.returned r) ∈
              driver_calls c envs s packet_to_modify live_packet direction ∧
            r.error = 0 ∧ res.packet.tcp_options[i]? = some r.opt) ∧
      (res.error = STATUS_ERR →
        ∃ (k : Nat) (r : handled),
          (driver_calls c envs s packet_to_modify live_packet direction).getLast? =
            some (k, outcome.returned r) ∧
          r.error ≠ 0 ∧ res.state = r.state ∧
          res.packet.tcp_options[k]? = some r.opt ∧
          ∀ i, k < i → res.packet.tcp_options[i]? = packet_to_modify.tcp_options[i]?)) ∧
    (∀ (env : environment) (t : mp_state) (p live : packet) (o : tcp_option),
      o.data.mp_capable.subtype ≠ MP_CAPABLE_SUBTYPE →
      o.data.mp_capable.subtype ≠ MP_JOIN_SUBTYPE →
      mptcp_option_switch c env t p live o direction =
        outcome.returned { error := STATUS_ERR, state := t, opt := o }) := by
  unfold driver_calls mptcp_insert_and_extract_opt_fields
  obtain ⟨pos1, pos2⟩ := handler_calls_positions c envs live_packet direction packet_to_modify
    packet_to_modify.tcp_options [] s
  obtain ⟨st1, st2, st3⟩ := handler_calls_status c envs live_packet direction packet_to_modify
    packet_to_modify.tcp_options [] s
  refine ⟨pos2, ?_, st1, st2, ?_, ?_⟩
  · intro x hx
    obtain ⟨j, o, h1, h2, h3⟩ := pos1 x hx
    simp only [List.length_nil, Nat.zero_add] at h1
    rw [h1]
    exact ⟨o, h2, h3⟩
  · intro res h
    obtain ⟨e, len, _, non⟩ := options_loop_shape c envs live_packet direction packet_to_modify
      packet_to_modify.tcp_options [] s res h
    refine ⟨e, st3 res h, by simpa using len, ?_, ?_, ?_⟩
    · intro i o hi hk
      simpa using non i o hi hk
    · intro hok i o hi hk
      obtain ⟨r, h1, h2, h3⟩ := options_loop_success c envs live_packet direction
        packet_to_modify packet_to_modify.tcp_options [] s res h hok i o hi hk
      simp only [List.length_nil, Nat.zero_add] at h1 h3
      exact ⟨r, h1, h2, h3⟩
    · intro herr
      obtain ⟨j, r, h1, h2, h3, h4, h5⟩ := options_loop_failure c envs live_packet direction
        packet_to_modify packet_to_modify.tcp_options [] s res h herr
      simp only [List.length_nil, Nat.zero_add] at h1 h4 h5
      exact ⟨j, r, h1, h2, h3, h4, h5⟩
  · intro env t p live o h1 h2
    simp [mptcp_option_switch, h1, h2]

/-- At start-up, with nothing pending, the MP_CAPABLE option of `inbound_syn_three_options`
fails: the driver returns `STATUS_ERR`, the failing call is the last one and is the call for the
option at position 1, and the MP_JOIN option after it is as it was (no subflow is opened). -/
theorem driver_stops_at_first_failure_witness :
    ∃ (k : Nat) (r : handled),
      (driver_calls transparent_crypto (fun _ => draws 5 6) initial_state
        inbound_syn_three_options none DIRECTION_INBOUND).getLast? =
        some (k, outcome.returned r) ∧
      r.error ≠ 0 ∧ initial_state = r.state ∧
      inbound_syn_three_options.tcp_options[k]? = some r.opt ∧
      ∀ i, k < i →
        inbound_syn_three_options.tcp_options[i]? = inbound_syn_three_options.tcp_options[i]? :=
  (driver_stops_at_first_failure transparent_crypto (fun _ => draws 5 6) initial_state
    inbound_syn_three_options none DIRECTION_INBOUND).2.2.2.2.1
    { error := STATUS_ERR, state := initial_state, packet := inbound_syn_three_options }
    (by decide) |>.2.2.2.2.2 rfl

theorem driver_calls_three_options :
    driver_calls transparent_crypto (fun _ => draws 5 6) initial_state
        inbound_syn_three_options none DIRECTION_INBOUND =
      [(1, outcome.returned
        { error := 1, state := initial_state, opt := blank_option 30 12 0 })] ∧
    mptcp_insert_and_extract_opt_fields transparent_crypto (fun _ => draws 5 6) initial_state
        inbound_syn_three_options none DIRECTION_INBOUND =
      outcome.returned
        { error := STATUS_ERR, state := initial_state, packet := inbound_syn_three_options } := by
  decide

/-! ### Frame properties of the two handlers -/

theorem write_subflow_length (f : mp_subflow → mp_subflow) (l : List mp_subflow) (i : Nat) :
    (write_subflow f l i).length = l.length := by
  induction l generalizing i with
  | nil => rfl
  | cons a t ih =>
    cases i with
    | zero => rfl
    | succ i => simp [write_subflow, ih i]

theorem write_subflow_getElem_ne (f : mp_subflow → mp_subflow) (l : List mp_subflow) (i j : Nat)
    (h : j ≠ i) : (write_subflow f l i)[j]? = l[j]? := by
  induction l generalizing i j with
  | nil => rfl
  | cons a t ih =>
    cases i with
    | zero =>
      cases j with
      | zero => exact absurd rfl h
      | succ j => simp [write_subflow]
    | succ i =>
      cases j with
      | zero => simp [write_subflow]
      | succ j =>
        simp only [write_subflow, List.getElem?_cons_succ]
        exact ih i j (fun hji => h (by rw [hji]))

theorem new_subflow_outound_none (env : environment) (s s1 : mp_state) (p : packet)
    (h : new_subflow_outound env s p = (none, s1)) :
    s1 = s ∧ (get_tcp_option p TCPOPT_MPTCP = none ∨ (p.ipv4 = none ∧ p.ipv6 = none)) := by
  unfold new_subflow_outound subflow_addresses at h
  cases hopt : get_tcp_option p TCPOPT_MPTCP with
  | none =>
    rw [hopt] at h
    simp only [Prod.mk.injEq, true_and] at h
    exact ⟨h.symm, Or.inl rfl⟩
  | some o =>
    rw [hopt] at h
    cases h4 : p.ipv4 with
    | some hdr4 => simp [h4] at h
    | none =>
      cases h6 : p.ipv6 with
      | some hdr6 => simp [h4, h6] at h
      | none =>
        simp only [h4, h6, Prod.mk.injEq, true_and] at h
        exact ⟨h.symm, Or.inr ⟨rfl, rfl⟩⟩

theorem mptcp_subtype_mp_join_outbound_syn_ack (c : crypto) (env : environment) (s : mp_state)
    (packet_to_modify live_packet : packet) (tcp_opt_to_modify : tcp_option)
    (hsyn : packet_to_modify.tcp.syn = true) (hack : packet_to_modify.tcp.ack = true)
    (hlen : tcp_opt_to_modify.length = TCPOLEN_MP_JOIN_SYN_ACK) :
    mptcp_subtype_mp_join c env s packet_to_modify live_packet tcp_opt_to_modify
        DIRECTION_OUTBOUND =
      match find_subflow_matching_outbound_packet s live_packet,
          get_tcp_option live_packet TCPOPT_MPTCP with
      | some (i, subflow), some live_mp_join =>
        outcome.returned {
          error := STATUS_OK,
          state := { s with
            subflows := write_subflow
              (fun (sf : mp_subflow) => { sf with
                kernel_addr_id := live_mp_join.data.mp_join_syn_ack.address_id,
                kernel_rand_nbr := live_mp_join.data.mp_join_syn_ack.sender_random_number })
              s.subflows i },
          opt := { tcp_opt_to_modify with data := { tcp_opt_to_modify.data with
            mp_join_syn_ack := {
              address_id := live_mp_join.data.mp_join_syn_ack.address_id,
              sender_random_number := live_mp_join.data.mp_join_syn_ack.sender_random_number,
              sender_hmac := c.hmac_sha1_truncat_64
                (hmac_key s.kernel_key s.packetdrill_key)
                (hmac_msg live_mp_join.data.mp_join_syn_ack.sender_random_number
                  subflow.packetdrill_rand_nbr) } } } }
      | _, _ => outcome.returned { error := STATUS_ERR, state := s, opt := tcp_opt_to_modify } := by
  simp [mptcp_subtype_mp_join, hsyn, hack, hlen, DIRECTION_INBOUND, DIRECTION_OUTBOUND]

/-- C24: frame properties of the two handlers, for every state and input. A call of
`mptcp_subtype_mp_join` that returns leaves both keys, both key flags, the variable map and the
pending queue as they were (and a call that dereferences `NULL` does so right after
`new_subflow_outound` failed without touching the state). `mptcp_subtype_mp_capable` leaves the
subflow registry and the address-id counter as they were. In MP_JOIN case 2 (outbound, SYN and
ACK set, SYN-ACK length) the counter and the number of subflows stay, a failing call leaves the
registry as it was, and a successful call changes only the remote address id and the remote
random of the matched subflow: the subflows at all other positions are unchanged, and the
matched one keeps its addresses, its ports, its local random and its local address id. -/
theorem handlers_frame (c : crypto) (env : environment) (s : mp_state)
    (packet_to_modify live_packet : packet) (tcp_opt_to_modify : tcp_option) (direction : Nat) :
    (∀ r, mptcp_subtype_mp_join c env s packet_to_modify live_packet tcp_opt_to_modify
        direction = outcome.returned r →
      r.state.packetdrill_key = s.packetdrill_key ∧ r.state.kernel_key = s.kernel_key ∧
      r.state.packetdrill_key_set = s.packetdrill_key_set ∧
      r.state.kernel_key_set = s.kernel_key_set ∧
      r.state.vars = s.vars ∧ r.state.vars_queue = s.vars_queue) ∧
    (mptcp_subtype_mp_join c env s packet_to_modify live_packet tcp_opt_to_modify
        direction = outcome.null_dereference →
      new_subflow_outound env s live_packet = (none, s)) ∧
    ((mptcp_subtype_mp_capable env s packet_to_modify live_packet tcp_opt_to_modify
        direction).state.subflows = s.subflows ∧
      (mptcp_subtype_mp_capable env s packet_to_modify live_packet tcp_opt_to_modify
        direction).state.last_packetdrill_addr_id = s.last_packetdrill_addr_id) ∧
    (direction = DIRECTION_OUTBOUND → packet_to_modify.tcp.ack = true →
      packet_to_modify.tcp.syn = true → tcp_opt_to_modify.length = TCPOLEN_MP_JOIN_SYN_ACK →
      ∀ r, mptcp_subtype_mp_join c env s packet_to_modify live_packet tcp_opt_to_modify
          direction = outcome.returned r →
        r.state.last_packetdrill_addr_id = s.last_packetdrill_addr_id ∧
        r.state.subflows.length = s.subflows.length ∧
        (r.error ≠ STATUS_OK → r.state.subflows = s.subflows) ∧
        (r.error = STATUS_OK →
          ∃ (i : Nat) (subflow subflow1 : mp_subflow) (live_mp_join : tcp_option),
            find_subflow_matching_outbound_packet s live_packet = some (i, subflow) ∧
            get_tcp_option live_packet TCPOPT_MPTCP = some live_mp_join ∧
            (∀ j, j ≠ i → r.state.subflows[j]? = s.subflows[j]?) ∧
            s.subflows[i]? = some subflow ∧
            r.state.subflows[i]? = some subflow1 ∧
            subflow1.src_ip = subflow.src_ip ∧ subflow1.dst_ip = subflow.dst_ip ∧
            subflow1.src_port = subflow.src_port ∧ subflow1.dst_port = subflow.dst_port ∧
            subflow1.packetdrill_rand_nbr = subflow.packetdrill_rand_nbr ∧
            subflow1.packetdrill_addr_id = subflow.packetdrill_addr_id ∧
            subflow1.kernel_addr_id = live_mp_join.data.mp_join_syn_ack.address_id ∧
            subflow1.kernel_rand_nbr =
              live_mp_join.data.mp_join_syn_ack.sender_random_number)) := by
  refine ⟨?_, ?_, mptcp_subtype_mp_capable_registry env s packet_to_modify live_packet
    tcp_opt_to_modify direction, ?_⟩
  · intro r h
    have hf := mptcp_subtype_mp_join_frame c env s packet_to_modify live_packet
      tcp_opt_to_modify direction r h
    refine ⟨?_, ?_, ?_, ?_, ?_, ?_⟩ <;> rw [hf]
  · intro h
    unfold mptcp_subtype_mp_join at h
    split_ifs at h
    · split at h <;> cases h
    · split at h <;> cases h
    · split at h <;> cases h
    · cases hn : new_subflow_outound env s live_packet with
      | mk osf s1 =>
        cases osf with
        | none => rw [(new_subflow_outound_none env s s1 live_packet hn).1]
        | some sf =>
          rw [hn] at h
          cases h
    · split at h <;> cases h
    · split at h <;> cases h
  · intro hdir hack hsyn hlen r h
    subst hdir
    rw [mptcp_subtype_mp_join_outbound_syn_ack c env s packet_to_modify live_packet
      tcp_opt_to_modify hsyn hack hlen] at h
    cases hfind : find_subflow_matching_outbound_packet s live_packet with
    | none =>
      rw [hfind] at h
      simp only [outcome.returned.injEq] at h
      subst h
      exact ⟨rfl, rfl, fun _ => rfl, fun hok => absurd hok.symm status_ok_ne_err⟩
    | some found =>
      obtain ⟨i, subflow⟩ := found
      rw [hfind] at h
      cases hopt : get_tcp_option live_packet TCPOPT_MPTCP with
      | none =>
        rw [hopt] at h
        simp only [outcome.returned.injEq] at h
        subst h
        exact ⟨rfl, rfl, fun _ => rfl, fun hok => absurd hok.symm status_ok_ne_err⟩
      | some live_mp_join =>
        rw [hopt] at h
        simp only [outcome.returned.injEq] at h
        subst h
        have hget := (find_matching_subflow_some hfind).1
        refine ⟨rfl, write_subflow_length _ _ _, fun hne => absurd rfl hne, fun _ => ?_⟩
        exact ⟨i, subflow, _, live_mp_join, rfl, rfl,
          fun j hj => write_subflow_getElem_ne _ _ _ _ hj, hget,
          write_subflow_getElem _ _ _ _ hget, rfl, rfl, rfl, rfl, rfl, rfl, rfl, rfl⟩

/-- MP_JOIN case 2 on a registry of two subflows of which the second matches the live SYN-ACK:
the first subflow is untouched, the second receives the peer's address id 5 and random
`0xBBBB0002` and keeps the rest; keys, flags, variable map and queue are as before. -/
theorem handlers_frame_witness :
    ∃ (r : handled),
      mptcp_subtype_mp_join transparent_crypto (draws 0 0) two_subflows_state
        outbound_join_syn_ack live_join_syn_ack (blank_option 30 16 1) DIRECTION_OUTBOUND =
          outcome.returned r ∧
      r.error = STATUS_OK ∧
      r.state.subflows = [other_subflow, { scenario_b_fresh_subflow with
        kernel_addr_id := 5, kernel_rand_nbr := 0xBBBB0002 }] ∧
      r.state.packetdrill_key = two_subflows_state.packetdrill_key ∧
      r.state.kernel_key = two_subflows_state.kernel_key ∧
      r.state.packetdrill_key_set = two_subflows_state.packetdrill_key_set ∧
      r.state.kernel_key_set = two_subflows_state.kernel_key_set ∧
      r.state.vars = two_subflows_state.vars ∧
      r.state.vars_queue = two_subflows_state.vars_queue :=
  ⟨{ error := STATUS_OK,
     state := { two_subflows_state with
       subflows := [other_subflow, { scenario_b_fresh_subflow with
         kernel_addr_id := 5, kernel_rand_nbr := 0xBBBB0002 }] },
     opt := { blank_option 30 16 1 with data := { (blank_option 30 16 1).data with
       mp_join_syn_ack := {
         address_id := 5, sender_random_number := 0xBBBB0002,
         sender_hmac := transparent_crypto.hmac_sha1_truncat_64
           (hmac_key 0x2222222222222222 0x1111111111111111)
           (hmac_msg 0xBBBB0002 0xAAAA0001) } } } },
    by decide, rfl, rfl,
    (handlers_frame transparent_crypto (draws 0 0) two_subflows_state outbound_join_syn_ack
      live_join_syn_ack (blank_option 30 16 1) DIRECTION_OUTBOUND).1 _ (by decide)⟩

/-! ### Order of the subflow registry -/

theorem create_subflow_registry (s : mp_state) (call : creation) :
    (create_subflow s call).2.subflows =
      (create_subflow s call).1.toList ++ s.subflows := by
  cases call with
  | inbound env p =>
    cases hn : new_subflow_inbound env s p with
    | mk osf s1 =>
      cases osf with
      | none =>
        simp only [create_subflow, hn, Option.toList, List.nil_append]
        rw [new_subflow_inbound_none env s s1 p hn]
      | some sf =>
        simp only [create_subflow, hn, Option.toList]
        rw [(new_subflow_inbound_some env s s1 p sf hn).1]
        rfl
  | outbound env p =>
    cases hn : new_subflow_outound env s p with
    | mk osf s1 =>
      cases osf with
      | none =>
        simp only [create_subflow, hn, Option.toList, List.nil_append]
        rw [(new_subflow_outound_none env s s1 p hn).1]
      | some sf =>
        simp only [create_subflow, hn, Option.toList]
        rw [new_subflow_outound_some env s s1 p sf hn]
        rfl

theorem create_subflows_registry (s : mp_state) (calls : List creation) :
    (create_subflows s calls).2.subflows = (create_subflows s calls).1.reverse ++ s.subflows := by
  induction calls generalizing s with
  | nil => rfl
  | cons call calls ih =>
    have hone := create_subflow_registry s call
    unfold create_subflows
    cases hc : create_subflow s call with
    | mk osf s1 =>
      rw [hc] at hone
      cases osf with
      | none =>
        simp only [Option.toList, List.nil_append] at hone
        simp only []
        rw [ih s1, hone]
      | some sf =>
        simp only [Option.toList, List.singleton_append] at hone
        simp only []
        rw [ih s1, hone]
        simp

theorem find_matching_subflow_most_recent (l : List mp_subflow) (p : packet)
    (m : mp_subflow → packet → Bool) :
    most_recent_match l.reverse p m (find_matching_subflow l p m) := by
  cases hfind : find_matching_subflow l p m with
  | none =>
    intro sf hmem
    exact find_matching_subflow_none.mp hfind sf (List.mem_reverse.mp hmem)
  | some found =>
    obtain ⟨i, sf⟩ := found
    obtain ⟨hget, hm, hbefore⟩ := find_matching_subflow_some hfind
    have hi : i < l.length := by
      by_contra hge
      rw [List.getElem?_eq_none (by omega)] at hget
      cases hget
    refine ⟨l.length - 1 - i, ?_, ?_, hm, ?_⟩
    · rw [List.getElem?_reverse (by omega)]
      have : l.length - 1 - (l.length - 1 - i) = i := by omega
      rw [this]
      exact hget
    · rw [List.length_reverse]
      omega
    · intro j younger hj hgetj
      have hjl : j < l.length := by
        by_contra hge
        rw [List.getElem?_eq_none (by rw [List.length_reverse]; omega)] at hgetj
        cases hgetj
      rw [List.getElem?_reverse hjl] at hgetj
      exact hbefore (l.length - 1 - j) younger (by omega) hgetj

/-- C22: new subflows are put at the head of the registry and the lookups scan from the head.
A creation call (`new_subflow_inbound` or `new_subflow_outound`) leaves the registry with the new
record, if one was created, in front of the records that were there, which are neither changed nor
removed. After any sequence of creation calls the registry is the created records, youngest first,
followed by the old registry, every old record is still there (moved back by the number of
created records), and both lookups return the most recently created record that matches the
packet's ports (`none` only if no record matches). In particular a new record that matches is
what the lookups return from then on, whatever older records match as well. -/
theorem lookup_returns_most_recent_match (s : mp_state) (call : creation)
    (calls : List creation) (p : packet) :
    (create_subflow s call).2.subflows = (create_subflow s call).1.toList ++ s.subflows ∧
    (create_subflows s calls).2.subflows = (create_subflows s calls).1.reverse ++ s.subflows ∧
    (∀ j subflow, s.subflows[j]? = some subflow →
      (create_subflows s calls).2.subflows[(create_subflows s calls).1.length + j]? =
        some subflow) ∧
    most_recent_match (s.subflows.reverse ++ (create_subflows s calls).1) p
      does_subflow_match_inbound_packet
      (find_subflow_matching_inbound_packet (create_subflows s calls).2 p) ∧
    most_recent_match (s.subflows.reverse ++ (create_subflows s calls).1) p
      does_subflow_match_outbound_packet
      (find_subflow_matching_outbound_packet (create_subflows s calls).2 p) ∧
    (∀ subflow s1, create_subflow s call = (some subflow, s1) →
      (does_subflow_match_inbound_packet subflow p = true →
        find_subflow_matching_inbound_packet s1 p = some (0, subflow)) ∧
      (does_subflow_match_outbound_packet subflow p = true →
        find_subflow_matching_outbound_packet s1 p = some (0, subflow))) := by
  have hreg := create_subflows_registry s calls
  have hage : s.subflows.reverse ++ (create_subflows s calls).1 =
      (create_subflows s calls).2.subflows.reverse := by
    rw [hreg]
    simp
  refine ⟨create_subflow_registry s call, hreg, ?_, ?_, ?_, ?_⟩
  · intro j subflow hget
    rw [hreg]
    have := getElem?_length_add_append (create_subflows s calls).1.reverse s.subflows j
    rw [List.length_reverse] at this
    rw [this]
    exact hget
  · rw [hage]
    exact find_matching_subflow_most_recent _ p does_subflow_match_inbound_packet
  · rw [hage]
    exact find_matching_subflow_most_recent _ p does_subflow_match_outbound_packet
  · intro subflow s1 hc
    have hone := create_subflow_registry s call
    rw [hc] at hone
    simp only [Option.toList, List.singleton_append] at hone
    constructor
    · intro hm
      simp [find_subflow_matching_inbound_packet, hone, find_matching_subflow, hm]
    · intro hm
      simp [find_subflow_matching_outbound_packet, hone, find_matching_subflow, hm]

/-- Two subflows are opened between the same ports from start-up: the lookup of an inbound packet
between these ports returns the second one (random 8, address id 1), at the head of the
registry, and that is the most recent match. -/
theorem lookup_returns_most_recent_match_witness :
    find_subflow_matching_inbound_packet (create_subflows initial_state two_creations).2
      inbound_join_syn = some (0, second_created_subflow) ∧
    most_recent_match
      (initial_state.subflows.reverse ++ (create_subflows initial_state two_creations).1)
      inbound_join_syn does_subflow_match_inbound_packet
      (find_subflow_matching_inbound_packet (create_subflows initial_state two_creations).2
        inbound_join_syn) :=
  ⟨by decide,
    (lookup_returns_most_recent_match initial_state
      (creation.inbound (draws 0 7) inbound_join_syn) two_creations inbound_join_syn).2.2.2.1⟩

/-! ### The variable map along a run -/

theorem bindings_kept_refl (s : mp_state) : bindings_kept s s :=
  ⟨fun h => h, List.prefix_refl _⟩

theorem bindings_kept_trans {s t u : mp_state} (h1 : bindings_kept s t)
    (h2 : bindings_kept t u) : bindings_kept s u :=
  ⟨fun h => h2.1 (h1.1 h), List.IsPrefix.trans h1.2 h2.2⟩

theorem bindings_kept_of_same {s t : mp_state} (hvars : t.vars = s.vars)
    (hp : t.packetdrill_key_set = s.packetdrill_key_set)
    (hk : t.kernel_key_set = s.kernel_key_set) : bindings_kept s t := by
  constructor
  · intro h
    unfold bindings_invariant bindings_of at h ⊢
    rw [hvars, hp, hk]
    exact h
  · rw [hvars]

theorem bindings_kept_of_queue {s t : mp_state} (h : t = { s with vars_queue := t.vars_queue }) :
    bindings_kept s t := by
  rw [h]
  exact bindings_kept_of_same rfl rfl rfl

theorem mptcp_gen_key_bindings_kept (env : environment) (s : mp_state) :
    bindings_kept s (mptcp_gen_key env s).2 := by
  unfold mptcp_gen_key queue_front
  cases s.vars_queue.head? with
  | none => exact bindings_kept_refl s
  | some n =>
    cases hset : s.packetdrill_key_set with
    | true => simpa using bindings_kept_refl s
    | false =>
      simp only [if_true]
      constructor
      · intro h
        obtain ⟨hkind, hp, hk⟩ := h
        rw [hset] at hp
        simp only [Bool.false_eq_true, if_false, Nat.le_zero_eq] at hp
        unfold bindings_of at hp hk
        refine ⟨?_, ?_, ?_⟩
        · intro var hmem
          simp only [add_mp_var_key, add_mp_var, set_packetdrill_key, List.mem_append,
            List.mem_singleton] at hmem
          rcases hmem with hmem | rfl
          · exact hkind var hmem
          · rfl
        · simp [bindings_of, add_mp_var_key, add_mp_var, set_packetdrill_key,
            List.countP_append, hp]
        · simpa [bindings_of, add_mp_var_key, add_mp_var, set_packetdrill_key,
            List.countP_append] using hk
      · simp [add_mp_var_key, add_mp_var, set_packetdrill_key]

theorem extract_and_set_kernel_key_bindings_kept (s : mp_state) (live_packet : packet) :
    bindings_kept s (extract_and_set_kernel_key s live_packet).2 := by
  unfold extract_and_set_kernel_key
  cases get_tcp_option live_packet TCPOPT_MPTCP with
  | none => exact bindings_kept_refl s
  | some o =>
    cases hset : s.kernel_key_set with
    | true => simpa using bindings_kept_refl s
    | false =>
      simp only [if_true, queue_front, set_kernel_key]
      cases s.vars_queue.head? with
      | none =>
        constructor
        · intro h
          obtain ⟨hkind, hp, hk⟩ := h
          rw [hset] at hk
          simp only [Bool.false_eq_true, if_false, Nat.le_zero_eq] at hk
          unfold bindings_of at hp hk
          exact ⟨hkind, hp, by simp [bindings_of, hk]⟩
        · exact List.prefix_refl _
      | some n =>
        constructor
        · intro h
          obtain ⟨hkind, hp, hk⟩ := h
          rw [hset] at hk
          simp only [Bool.false_eq_true, if_false, Nat.le_zero_eq] at hk
          unfold bindings_of at hp hk
          refine ⟨?_, ?_, ?_⟩
          · intro var hmem
            simp only [add_mp_var_key, add_mp_var, List.mem_append,
              List.mem_singleton] at hmem
            rcases hmem with hmem | rfl
            · exact hkind var hmem
            · rfl
          · simpa [bindings_of, add_mp_var_key, add_mp_var, List.countP_append] using hp
          · simp [bindings_of, add_mp_var_key, add_mp_var, List.countP_append, hk]
        · simp [add_mp_var_key, add_mp_var]

theorem mptcp_subtype_mp_capable_bindings_kept (env : environment) (s : mp_state)
    (packet_to_modify live_packet : packet) (tcp_opt_to_modify : tcp_option) (direction : Nat) :
    bindings_kept s (mptcp_subtype_mp_capable env s packet_to_modify live_packet
      tcp_opt_to_modify direction).state := by
  unfold mptcp_subtype_mp_capable
  split_ifs
  · exact bindings_kept_trans (mptcp_gen_key_bindings_kept env s)
      (bindings_kept_of_queue (mptcp_set_mp_cap_syn_key_frame _ _))
  · exact bindings_kept_trans (extract_and_set_kernel_key_bindings_kept s live_packet)
      (bindings_kept_of_queue (mptcp_set_mp_cap_syn_key_frame _ _))
  · exact bindings_kept_of_queue (mptcp_set_mp_cap_keys_frame _ _)
  · exact bindings_kept_trans (mptcp_gen_key_bindings_kept env s)
      (bindings_kept_of_queue (mptcp_set_mp_cap_syn_key_frame _ _))
  · exact bindings_kept_refl s

theorem mptcp_option_switch_bindings_kept (c : crypto) (env : environment) (s : mp_state)
    (packet_to_modify live_packet : packet) (tcp_opt_to_modify : tcp_option) (direction : Nat)
    (r : handled)
    (h : mptcp_option_switch c env s packet_to_modify live_packet tcp_opt_to_modify direction =
      outcome.returned r) : bindings_kept s r.state := by
  unfold mptcp_option_switch at h
  split_ifs at h
  · simp only [outcome.returned.injEq] at h
    subst h
    exact mptcp_subtype_mp_capable_bindings_kept _ _ _ _ _ _
  · rw [mptcp_subtype_mp_join_frame _ _ _ _ _ _ _ _ h]
    exact bindings_kept_of_same rfl rfl rfl
  · simp only [outcome.returned.injEq] at h
    subst h
    exact bindings_kept_refl s

theorem step_bindings_kept (c : crypto) (s t : mp_state) (e : event)
    (h : step c s e = some t) : bindings_kept s t := by
  cases e with
  | parse queue =>
    simp only [step, Option.some.injEq] at h
    subst h
    exact bindings_kept_of_same rfl rfl rfl
  | process envs packet_to_modify live_packet direction =>
    simp only [step, mptcp_insert_and_extract_opt_fields] at h
    split at h
    · rename_i res hloop
      simp only [Option.some.injEq] at h
      subst h
      exact options_loop_preserves bindings_kept bindings_kept_refl
        (fun _ _ _ h1 h2 => bindings_kept_trans h1 h2) c envs live_packet direction
        packet_to_modify
        (fun env s p live o r hsw =>
          mptcp_option_switch_bindings_kept c env s p live o direction r hsw)
        _ _ _ _ hloop
    · cases h

theorem run_bindings_kept (c : crypto) (s t : mp_state) (es : List event)
    (h : run c s es = some t) : bindings_kept s t := by
  induction es generalizing s with
  | nil =>
    simp only [run, Option.some.injEq] at h
    subst h
    exact bindings_kept_refl s
  | cons e es ih =>
    unfold run at h
    cases hstep : step c s e with
    | none => simp [hstep] at h
    | some s1 =>
      simp only [hstep] at h
      exact bindings_kept_trans (step_bindings_kept c s s1 e hstep) (ih s1 h)

theorem bindings_invariant_initial : bindings_invariant initial_state := by
  refine ⟨?_, ?_, ?_⟩
  · intro var hmem
    cases hmem
  · decide
  · decide

theorem vars_length_le_two (l : List mp_var)
    (hp : l.countP (fun var => var.value == key_ptr.packetdrill_key) ≤ 1)
    (hk : l.countP (fun var => var.value == key_ptr.kernel_key) ≤ 1) : l.length ≤ 2 := by
  induction l with
  | nil => simp
  | cons a t ih =>
    cases hv : a.value with
    | packetdrill_key =>
      simp only [List.countP_cons, hv, beq_self_eq_true, if_true] at hp hk
      have hk2 : t.countP (fun var => var.value == key_ptr.kernel_key) ≤ 1 := by
        simpa using hk
      have h0 : t.countP (fun var => var.value == key_ptr.packetdrill_key) = 0 := by omega
      have := ih (by omega) hk2
      have hlen : t.length =
          t.countP (fun var => var.value == key_ptr.kernel_key) := by
        clear ih hp hk hk2 this
        induction t with
        | nil => rfl
        | cons b u ihu =>
          cases hb : b.value with
          | packetdrill_key => simp [List.countP_cons, hb] at h0
          | kernel_key =>
            simp only [List.countP_cons, hb] at h0 ⊢
            have h0u : u.countP (fun var => var.value == key_ptr.packetdrill_key) = 0 := by
              simpa using h0
            simp [ihu h0u]
      simp only [List.length_cons]
      omega
    | kernel_key =>
      simp only [List.countP_cons, hv, beq_self_eq_true, if_true] at hp hk
      have hp2 : t.countP (fun var => var.value == key_ptr.packetdrill_key) ≤ 1 := by
        simpa using hp
      have h0 : t.countP (fun var => var.value == key_ptr.kernel_key) = 0 := by omega
      have hlen : t.length =
          t.countP (fun var => var.value == key_ptr.packetdrill_key) := by
        clear ih hp hk hp2
        induction t with
        | nil => rfl
        | cons b u ihu =>
          cases hb : b.value with
          | kernel_key => simp [List.countP_cons, hb] at h0
          | packetdrill_key =>
            simp only [List.countP_cons, hb] at h0 ⊢
            have h0u : u.countP (fun var => var.value == key_ptr.kernel_key) = 0 := by
              simpa using h0
            simp [ihu h0u]
      simp only [List.length_cons]
      omega

/-- C23: invariant of the engine's runs. In every state `s` reached from the start-up state by a
sequence of events (the parser refilling the pending queue, the driver processing packets), every
entry of the variable map is of kind `KEY` and points to the local key or to the remote key; an
entry pointing to the local key exists only if `packetdrill_key_set` is true, and one pointing
to the remote key only if `kernel_key_set` is true; the map holds at most one entry per key and
hence at most two entries. Entries are never removed or changed afterwards: in any state `t`
reached later the map of `s` is an initial segment of the map of `t`, which again holds at most
two entries, so that at most one entry per key is ever created. -/
theorem bindings_stay_within_two_keys (c : crypto) (es later : List event) (s t : mp_state)
    (h : run c initial_state es = some s) (hlater : run c s later = some t) :
    (∀ var ∈ s.vars, var.type = KEY ∧
      (var.value = key_ptr.packetdrill_key ∨ var.value = key_ptr.kernel_key)) ∧
    ((∃ var ∈ s.vars, var.value = key_ptr.packetdrill_key) → s.packetdrill_key_set = true) ∧
    ((∃ var ∈ s.vars, var.value = key_ptr.kernel_key) → s.kernel_key_set = true) ∧
    bindings_of s key_ptr.packetdrill_key ≤ 1 ∧
    bindings_of s key_ptr.kernel_key ≤ 1 ∧
    s.vars.length ≤ 2 ∧
    s.vars <+: t.vars ∧
    bindings_of t key_ptr.packetdrill_key ≤ 1 ∧
    bindings_of t key_ptr.kernel_key ≤ 1 ∧
    t.vars.length ≤ 2 := by
  have hs := (run_bindings_kept c initial_state s es h).1 bindings_invariant_initial
  have hst := run_bindings_kept c s t later hlater
  have ht := hst.1 hs
  have bound : ∀ (u : mp_state), bindings_invariant u →
      bindings_of u key_ptr.packetdrill_key ≤ 1 ∧ bindings_of u key_ptr.kernel_key ≤ 1 := by
    intro u hu
    obtain ⟨_, hp, hk⟩ := hu
    constructor
    · refine le_trans hp ?_
      split_ifs <;> omega
    · refine le_trans hk ?_
      split_ifs <;> omega
  obtain ⟨hkind, hp, hk⟩ := hs
  have hbs := bound s ⟨hkind, hp, hk⟩
  have hbt := bound t ht
  refine ⟨?_, ?_, ?_, hbs.1, hbs.2, vars_length_le_two s.vars hbs.1 hbs.2, hst.2,
    hbt.1, hbt.2, vars_length_le_two t.vars hbt.1 hbt.2⟩
  · intro var hmem
    refine ⟨hkind var hmem, ?_⟩
    cases var.value with
    | packetdrill_key => exact Or.inl rfl
    | kernel_key => exact Or.inr rfl
  · rintro ⟨var, hmem, hval⟩
    by_contra hset
    rw [if_neg hset] at hp
    have hpos : 0 < bindings_of s key_ptr.packetdrill_key :=
      List.countP_pos_iff.mpr ⟨var, hmem, by simp [hval]⟩
    omega
  · rintro ⟨var, hmem, hval⟩
    by_contra hset
    rw [if_neg hset] at hk
    have hpos : 0 < bindings_of s key_ptr.kernel_key :=
      List.countP_pos_iff.mpr ⟨var, hmem, by simp [hval]⟩
    omega

/-- A handshake from start-up: after its first two events the map holds one entry, for the local
key; at its end, after the inbound SYN has been processed a second time, the map holds that
entry and one for the remote key, and no more. -/
theorem bindings_stay_within_two_keys_witness :
    handshake_start_state.vars.length = 1 ∧ handshake_rest_state.vars.length = 2 ∧
    handshake_start_state.vars <+: handshake_rest_state.vars ∧
    bindings_of handshake_rest_state key_ptr.packetdrill_key ≤ 1 ∧
    bindings_of handshake_rest_state key_ptr.kernel_key ≤ 1 ∧
    handshake_rest_state.vars.length ≤ 2 :=
  ⟨rfl, rfl,
    (bindings_stay_within_two_keys transparent_crypto handshake_start handshake_rest
      handshake_start_state handshake_rest_state (by decide) (by decide)).2.2.2.2.2.2⟩

/-! ### Names in memory -/

theorem strlen_none_of_no_zero (l : List Nat) (h : ∀ b ∈ l, b ≠ 0) : strlen l = none := by
  induction l with
  | nil => rfl
  | cons b rest ih =>
    have hb : b ≠ 0 := h b (List.mem_cons_self _ _)
    have hrest := ih (fun x hx => h x (List.mem_cons_of_mem _ hx))
    simp [strlen, hb, hrest]

theorem strlen_some (l : List Nat) (n : Nat) (h : strlen l = some n) :
    n < l.length ∧ (∀ b ∈ l.take n, b ≠ 0) ∧ l[n]? = some 0 ∧ chars l = l.take n := by
  induction l generalizing n with
  | nil => simp [strlen] at h
  | cons b rest ih =>
    unfold strlen at h
    by_cases hb : b = 0
    · rw [if_pos hb] at h
      simp only [Option.some.injEq] at h
      subst h
      subst hb
      simp [chars]
    · rw [if_neg hb] at h
      cases hrest : strlen rest with
      | none => simp [hrest] at h
      | some m =>
        simp only [hrest, Option.some.injEq] at h
        subst h
        obtain ⟨h1, h2, h3, h4⟩ := ih m hrest
        refine ⟨by simpa using h1, ?_, by simpa using h3, ?_⟩
        · intro x hx
          simp only [List.take_succ_cons, List.mem_cons] at hx
          rcases hx with rfl | hx
          · exact hb
          · exact h2 x hx
        · unfold chars at h4 ⊢
          simp [List.takeWhile_cons, hb, h4]

theorem memcpy_malloc (fill : Nat → Nat) (name : List Nat) (n : Nat) (hn : n ≤ name.length) :
    memcpy (malloc fill n) name n = some (name.take n) := by
  simp [memcpy, malloc, hn]

theorem strlen_take_succ (l : List Nat) (n : Nat) (h : strlen l = some n) :
    strlen (l.take (n + 1)) = some n := by
  induction l generalizing n with
  | nil => simp [strlen] at h
  | cons b rest ih =>
    unfold strlen at h
    by_cases hb : b = 0
    · rw [if_pos hb] at h
      simp only [Option.some.injEq] at h
      subst h
      simp [strlen, hb]
    · rw [if_neg hb] at h
      cases hrest : strlen rest with
      | none => simp [hrest] at h
      | some m =>
        simp only [hrest, Option.some.injEq] at h
        subst h
        simp [strlen, hb, ih m hrest]

theorem enqueue_var_of_terminated (fill : Nat → Nat) (capacity : Nat) (s : Memory.mp_state)
    (name : List Nat) (n : Nat) (h : strlen name = some n)
    (hroom : s.vars_queue.length < capacity) :
    Memory.enqueue_var fill capacity s name =
      some (STATUS_OK, { s with vars_queue := s.vars_queue ++ [name.take n] }) := by
  have hn := (strlen_some name n h).1
  simp [Memory.enqueue_var, h, memcpy_malloc fill name n (Nat.le_of_lt hn),
    Memory.queue_enqueue, hroom]

/-- C21 (evaluation of the code): `enqueue_var` copies `strlen(name)` bytes into a block of
`strlen(name)` bytes, so the copy it enqueues holds the characters of the name and no
terminating zero byte. For the name "key1" on an empty queue: the queue then holds the four
bytes of "key1", `strlen` on that block reads past its end, and so does `find_next_key` when it
looks the dequeued pointer up, although `add_mp_var_key` (which copies one byte more) has bound
"key1". In general, for every terminated name: the block enqueued behind the elements already
there is the characters of the name; it is not terminated, while the copy that `add_mp_var_key`
makes is; and on an empty queue `dequeue_var` returns that block and `find_next_key` reads past
its end, whatever the variable map holds. -/
theorem enqueue_var_copy_lacks_terminator :
    Memory.enqueue_var stale_bytes 16 no_names key1_name =
      some (STATUS_OK, { vars_queue := [[107, 101, 121, 49]], vars := [] }) ∧
    strlen [107, 101, 121, 49] = none ∧
    Memory.add_mp_var_key stale_bytes { vars_queue := [[107, 101, 121, 49]], vars := [] }
        key1_name key_ptr.packetdrill_key =
      some { vars_queue := [[107, 101, 121, 49]],
             vars := [{ name := key1_name, value := key_ptr.packetdrill_key, type := KEY }] } ∧
    Memory.find_next_key
        { vars_queue := [[107, 101, 121, 49]],
          vars := [{ name := key1_name, value := key_ptr.packetdrill_key, type := KEY }] } =
      none ∧
    (∀ (fill : Nat → Nat) (capacity : Nat) (s : Memory.mp_state) (name : List Nat) (n : Nat),
      strlen name = some n → s.vars_queue.length < capacity →
      Memory.enqueue_var fill capacity s name =
        some (STATUS_OK, { s with vars_queue := s.vars_queue ++ [name.take n] })) ∧
    (∀ (name : List Nat) (n : Nat), strlen name = some n →
      name.take n = chars name ∧ (name.take n).length = n ∧ strlen (name.take n) = none ∧
      strlen (name.take (n + 1)) = some n) ∧
    (∀ (fill : Nat → Nat) (s : Memory.mp_state) (name : List Nat) (n : Nat) (key : key_ptr),
      strlen name = some n →
      Memory.add_mp_var_key fill s name key =
        some { s with vars := s.vars ++ [{ name := name.take (n + 1), value := key,
                                           type := KEY }] }) ∧
    (∀ (fill : Nat → Nat) (capacity : Nat) (vars : List Memory.mp_var) (name : List Nat)
      (n : Nat), strlen name = some n → 0 < capacity →
      ∃ s1, Memory.enqueue_var fill capacity { vars_queue := [], vars := vars } name =
          some (STATUS_OK, s1) ∧
        Memory.dequeue_var s1 = some (name.take n, { vars_queue := [], vars := vars }) ∧
        Memory.find_next_key s1 = none) := by
  have hcopy : ∀ (name : List Nat) (n : Nat), strlen name = some n →
      name.take n = chars name ∧ (name.take n).length = n ∧ strlen (name.take n) = none ∧
      strlen (name.take (n + 1)) = some n := by
    intro name n h
    obtain ⟨hlt, hnz, _, hchars⟩ := strlen_some name n h
    exact ⟨hchars.symm, by simp [Nat.le_of_lt hlt], strlen_none_of_no_zero _ hnz,
      strlen_take_succ name n h⟩
  refine ⟨by decide, by decide, by decide, by decide, ?_, hcopy, ?_, ?_⟩
  · intro fill capacity s name n h hroom
    exact enqueue_var_of_terminated fill capacity s name n h hroom
  · intro fill s name n key h
    have hn := (strlen_some name n h).1
    simp [Memory.add_mp_var_key, h, memcpy_malloc fill name (n + 1) hn, Memory.add_mp_var,
      strlen_take_succ name n h]
  · intro fill capacity vars name n h hcap
    refine ⟨_, enqueue_var_of_terminated fill capacity _ name n h hcap, rfl, ?_⟩
    simp [Memory.find_next_key, Memory.dequeue_var, Memory.queue_dequeue, Memory.find_mp_var,
      (hcopy name n h).2.2.1]

/-! ### The handlers on the names that `enqueue_var` leaves -/

theorem bytes_add_mp_var_key_open (fill : Nat → Nat) (s : Memory.mp_state) (block : List Nat)
    (key : key_ptr) (hopen : strlen block = none) :
    Memory.add_mp_var_key fill s block key = none := by
  simp [Memory.add_mp_var_key, hopen]

theorem bytes_find_next_key_open (s : Memory.mp_state) (block : List Nat)
    (rest : List (List Nat)) (hqueue : s.vars_queue = block :: rest)
    (hopen : strlen block = none) : Memory.find_next_key s = none := by
  simp [Memory.find_next_key, Memory.dequeue_var, Memory.queue_dequeue, hqueue,
    Memory.find_mp_var, hopen]

theorem bytes_mptcp_set_mp_cap_syn_key_open (s : Memory.state) (tcp_opt : tcp_option)
    (block : List Nat) (rest : List (List Nat)) (hqueue : s.names.vars_queue = block :: rest)
    (hopen : strlen block = none) : Memory.mptcp_set_mp_cap_syn_key s tcp_opt = none := by
  simp [Memory.mptcp_set_mp_cap_syn_key, bytes_find_next_key_open s.names block rest hqueue hopen]

theorem bytes_mptcp_set_mp_cap_keys_open (s : Memory.state) (tcp_opt : tcp_option)
    (block : List Nat) (rest : List (List Nat)) (hqueue : s.names.vars_queue = block :: rest)
    (hopen : strlen block = none) : Memory.mptcp_set_mp_cap_keys s tcp_opt = none := by
  simp [Memory.mptcp_set_mp_cap_keys, bytes_find_next_key_open s.names block rest hqueue hopen]

theorem bytes_mptcp_gen_key_open (fill : Nat → Nat) (env : environment) (s : Memory.state)
    (block : List Nat) (rest : List (List Nat)) (hqueue : s.names.vars_queue = block :: rest)
    (hopen : strlen block = none) :
    Memory.mptcp_gen_key fill env s =
      if s.packetdrill_key_set = false then none else some (STATUS_OK, s) := by
  cases hset : s.packetdrill_key_set <;>
    simp [Memory.mptcp_gen_key, Memory.queue_front, hqueue, hset, Memory.set_packetdrill_key,
      bytes_add_mp_var_key_open fill _ block _ hopen]

theorem bytes_extract_and_set_kernel_key_open (fill : Nat → Nat) (s : Memory.state)
    (live_packet : packet) (block : List Nat) (rest : List (List Nat))
    (hqueue : s.names.vars_queue = block :: rest) (hopen : strlen block = none) :
    Memory.extract_and_set_kernel_key fill s live_packet =
      match get_tcp_option live_packet TCPOPT_MPTCP with
      | none => some (STATUS_ERR, s)
      | some _ => if s.kernel_key_set = false then none else some (STATUS_OK, s) := by
  cases hopt : get_tcp_option live_packet TCPOPT_MPTCP with
  | none => simp [Memory.extract_and_set_kernel_key, hopt]
  | some o =>
    cases hset : s.kernel_key_set <;>
      simp [Memory.extract_and_set_kernel_key, hopt, Memory.queue_front, hqueue, hset,
        Memory.set_kernel_key, bytes_add_mp_var_key_open fill _ block _ hopen]

theorem bytes_mptcp_subtype_mp_capable_open (fill : Nat → Nat) (env : environment)
    (s : Memory.state) (packet_to_modify live_packet : packet) (tcp_opt_to_modify : tcp_option)
    (direction : Nat) (block : List Nat) (rest : List (List Nat))
    (hqueue : s.names.vars_queue = block :: rest) (hopen : strlen block = none)
    (hcase :
      (tcp_opt_to_modify.length = TCPOLEN_MP_CAPABLE_SYN ∧ packet_to_modify.tcp.syn = true ∧
        (direction = DIRECTION_INBOUND ∨ direction = DIRECTION_OUTBOUND)) ∨
      (tcp_opt_to_modify.length = TCPOLEN_MP_CAPABLE ∧ packet_to_modify.tcp.syn = false ∧
        packet_to_modify.tcp.ack = true)) :
    Memory.mptcp_subtype_mp_capable fill env s packet_to_modify live_packet tcp_opt_to_modify
      direction = none := by
  have hgen : ∀ (e : Int) (s1 : Memory.state), Memory.mptcp_gen_key fill env s = some (e, s1) →
      Memory.mptcp_set_mp_cap_syn_key s1 tcp_opt_to_modify = none := by
    intro e s1 h
    rw [bytes_mptcp_gen_key_open fill env s block rest hqueue hopen] at h
    split_ifs at h
    simp only [Option.some.injEq, Prod.mk.injEq] at h
    rw [← h.2]
    exact bytes_mptcp_set_mp_cap_syn_key_open s tcp_opt_to_modify block rest hqueue hopen
  have hext : ∀ (e : Int) (s1 : Memory.state),
      Memory.extract_and_set_kernel_key fill s live_packet = some (e, s1) →
      Memory.mptcp_set_mp_cap_syn_key s1 tcp_opt_to_modify = none := by
    intro e s1 h
    rw [bytes_extract_and_set_kernel_key_open fill s live_packet block rest hqueue hopen] at h
    split at h
    · simp only [Option.some.injEq, Prod.mk.injEq] at h
      rw [← h.2]
      exact bytes_mptcp_set_mp_cap_syn_key_open s tcp_opt_to_modify block rest hqueue hopen
    · split_ifs at h
      simp only [Option.some.injEq, Prod.mk.injEq] at h
      rw [← h.2]
      exact bytes_mptcp_set_mp_cap_syn_key_open s tcp_opt_to_modify block rest hqueue hopen
  have hcase1 : (match Memory.mptcp_gen_key fill env s with
      | none => none
      | some (error, s1) =>
        match Memory.mptcp_set_mp_cap_syn_key s1 tcp_opt_to_modify with
        | none => none
        | some r => some { r with error := c_or r.error error }) = none := by
    cases hg : Memory.mptcp_gen_key fill env s with
    | none => rfl
    | some res =>
      obtain ⟨e, s1⟩ := res
      simp only [hgen e s1 hg]
  have hcase2 : (match Memory.extract_and_set_kernel_key fill s live_packet with
      | none => none
      | some (_, s1) => Memory.mptcp_set_mp_cap_syn_key s1 tcp_opt_to_modify) = none := by
    cases hg : Memory.extract_and_set_kernel_key fill s live_packet with
    | none => rfl
    | some res =>
      obtain ⟨e, s1⟩ := res
      simp only [hext e s1 hg]
  unfold Memory.mptcp_subtype_mp_capable
  split_ifs with h1 h2 h3 h4
  · exact hcase1
  · exact hcase2
  · exact bytes_mptcp_set_mp_cap_keys_open s tcp_opt_to_modify block rest hqueue hopen
  · exact hcase1
  · exfalso
    rcases hcase with ⟨hl, hs, hd⟩ | hc
    · rcases hd with hd | hd
      · cases hack : packet_to_modify.tcp.ack
        · exact h1 ⟨hl, hs, hd, hack⟩
        · exact h4 ⟨hl, hs, hd, hack⟩
      · exact h2 ⟨hl, hs, hd⟩
    · exact h3 hc

theorem bytes_enqueue_var_open (fill : Nat → Nat) (capacity : Nat) (s s1 : Memory.mp_state)
    (name : List Nat) (n : Nat) (e : Int) (hname : strlen name = some n)
    (hopen : ∀ block ∈ s.vars_queue, strlen block = none)
    (h : Memory.enqueue_var fill capacity s name = some (e, s1)) :
    (∀ block ∈ s1.vars_queue, strlen block = none) ∧ s1.vars = s.vars := by
  obtain ⟨hlt, hnz, _, _⟩ := strlen_some name n hname
  simp only [Memory.enqueue_var, hname, memcpy_malloc fill name n (Nat.le_of_lt hlt),
    Memory.queue_enqueue] at h
  by_cases hroom : s.vars_queue.length < capacity
  · simp only [hroom, if_true, Option.some.injEq, Prod.mk.injEq] at h
    obtain ⟨_, rfl⟩ := h
    refine ⟨?_, rfl⟩
    intro block hmem
    simp only [List.mem_append, List.mem_singleton] at hmem
    rcases hmem with hmem | rfl
    · exact hopen block hmem
    · exact strlen_none_of_no_zero _ hnz
  · simp only [hroom, if_false, Option.some.injEq, Prod.mk.injEq] at h
    obtain ⟨_, rfl⟩ := h
    exact ⟨hopen, rfl⟩

theorem bytes_enqueue_vars_open (fill : Nat → Nat) (capacity : Nat) (names : List (List Nat))
    (s s1 : Memory.mp_state) (hnames : ∀ name ∈ names, ∃ n, strlen name = some n)
    (hopen : ∀ block ∈ s.vars_queue, strlen block = none)
    (h : Memory.enqueue_vars fill capacity s names = some s1) :
    (∀ block ∈ s1.vars_queue, strlen block = none) ∧ s1.vars = s.vars := by
  induction names generalizing s with
  | nil =>
    simp only [Memory.enqueue_vars, Option.some.injEq] at h
    subst h
    exact ⟨hopen, rfl⟩
  | cons name names ih =>
    unfold Memory.enqueue_vars at h
    cases hone : Memory.enqueue_var fill capacity s name with
    | none => simp [hone] at h
    | some res =>
      obtain ⟨e, s2⟩ := res
      simp only [hone] at h
      obtain ⟨n, hn⟩ := hnames name (List.mem_cons_self _ _)
      obtain ⟨hopen2, hvars2⟩ := bytes_enqueue_var_open fill capacity s s2 name n e hn hopen hone
      obtain ⟨hopen1, hvars1⟩ :=
        ih s2 (fun x hx => hnames x (List.mem_cons_of_mem _ hx)) hopen2 h
      exact ⟨hopen1, hvars1.trans hvars2⟩

theorem bytes_enqueue_vars_front (fill : Nat → Nat) (capacity : Nat) (names : List (List Nat))
    (vars : List Memory.mp_var) (s1 : Memory.mp_state)
    (hnames : ∀ name ∈ names, ∃ n, strlen name = some n)
    (h : Memory.enqueue_vars fill capacity { vars_queue := [], vars := vars } names = some s1)
    (hpending : s1.vars_queue ≠ []) :
    ∃ block rest, s1.vars_queue = block :: rest ∧ strlen block = none := by
  obtain ⟨hopen, _⟩ := bytes_enqueue_vars_open fill capacity names _ s1 hnames
    (fun block hmem => by cases hmem) h
  cases hq : s1.vars_queue with
  | nil => exact absurd hq hpending
  | cons block rest =>
    exact ⟨block, rest, rfl, hopen block (by rw [hq]; exact List.mem_cons_self _ _)⟩

/-- C5 (evaluation of the code): `find_next_key` on the names that `enqueue_var` leaves. With
"key1" bound, `enqueue_var` of "key1" leaves the four characters in the queue without a
terminating zero byte, and `find_next_key` reads past the end of that block when it looks the
name up, instead of returning the key that "key1" is bound to; had the block its terminator,
`find_next_key` would return the pointer stored under "key1" and leave the queue empty. In
general: on an empty queue `find_next_key` returns `NULL` and changes nothing; whenever the
block at the front of the queue is not terminated it reads past its end; this is so for every
non-empty queue that calls of `enqueue_var` with terminated names have built; and on a
terminated front block it pops the block and returns the pointer of the variable stored under
its characters if that variable is of kind `KEY`, `NULL` otherwise. -/
theorem find_next_key_reads_past_enqueued_name :
    Memory.enqueue_var stale_bytes 16 { vars_queue := [], vars := [key1_var] } key1_name =
      some (STATUS_OK, { vars_queue := [[107, 101, 121, 49]], vars := [key1_var] }) ∧
    Memory.find_next_key { vars_queue := [[107, 101, 121, 49]], vars := [key1_var] } = none ∧
    Memory.find_next_key { vars_queue := [key1_name], vars := [key1_var] } =
      some (some key_ptr.packetdrill_key, { vars_queue := [], vars := [key1_var] }) ∧
    (∀ (s : Memory.mp_state), s.vars_queue = [] → Memory.find_next_key s = some (none, s)) ∧
    (∀ (s : Memory.mp_state) (block : List Nat) (rest : List (List Nat)),
      s.vars_queue = block :: rest → strlen block = none → Memory.find_next_key s = none) ∧
    (∀ (fill : Nat → Nat) (capacity : Nat) (names : List (List Nat))
      (vars : List Memory.mp_var) (s1 : Memory.mp_state),
      (∀ name ∈ names, ∃ n, strlen name = some n) →
      Memory.enqueue_vars fill capacity { vars_queue := [], vars := vars } names = some s1 →
      s1.vars_queue ≠ [] → Memory.find_next_key s1 = none) ∧
    (∀ (s : Memory.mp_state) (block : List Nat) (rest : List (List Nat)) (n : Nat),
      s.vars_queue = block :: rest → strlen block = some n →
      (s.vars.find? (fun var => chars var.name == block.take n) = none →
        Memory.find_next_key s = some (none, { s with vars_queue := rest })) ∧
      (∀ var, s.vars.find? (fun var => chars var.name == block.take n) = some var →
        Memory.find_next_key s =
          some (if var.type = KEY then some var.value else none,
            { s with vars_queue := rest }))) := by
  refine ⟨by decide, by decide, by decide, ?_, ?_, ?_, ?_⟩
  · intro s hq
    simp [Memory.find_next_key, Memory.dequeue_var, Memory.queue_dequeue, hq]
  · intro s block rest hq hopen
    exact bytes_find_next_key_open s block rest hq hopen
  · intro fill capacity names vars s1 hnames h hpending
    obtain ⟨block, rest, hq, hopen⟩ :=
      bytes_enqueue_vars_front fill capacity names vars s1 hnames h hpending
    exact bytes_find_next_key_open s1 block rest hq hopen
  · intro s block rest n hq hlen
    constructor
    · intro hfind
      simp [Memory.find_next_key, Memory.dequeue_var, Memory.queue_dequeue, hq,
        Memory.find_mp_var, hlen, hfind]
    · intro var hfind
      by_cases htype : var.type = KEY <;>
        simp [Memory.find_next_key, Memory.dequeue_var, Memory.queue_dequeue, hq,
          Memory.find_mp_var, hlen, hfind, htype]

/-- C1 (evaluation of the code): scenario A on the names that `enqueue_var` leaves. At start-up
the parser enqueues "key1": the queue holds its four characters without a terminating zero
byte. Processing an MP_CAPABLE option of length 12 on an inbound SYN (ACK clear) then reads past
the end of that block, in `mptcp_gen_key` already (`add_mp_var_key` measures the block with
`strlen`), instead of binding "key1" to the generated key and writing it into the option; had
the block its terminator, the call would succeed, set the local key to the generated value,
bind "key1" to it, write it into the option and leave the queue empty. In general the call
reads past the end of the front block whenever that block is not terminated, which is so for
every non-empty queue that calls of `enqueue_var` with terminated names have built. -/
theorem mp_capable_inbound_syn_reads_past_enqueued_name :
    Memory.enqueue_var stale_bytes 16 no_names key1_name = some (STATUS_OK, key1_pending) ∧
    Memory.mptcp_gen_key stale_bytes (draws 0x0123456789abcdef 7)
      (start_up_with key1_pending) = none ∧
    Memory.mptcp_subtype_mp_capable stale_bytes (draws 0x0123456789abcdef 7)
      (start_up_with key1_pending) inbound_capable_syn inbound_capable_syn
      (blank_option 30 12 0) DIRECTION_INBOUND = none ∧
    Memory.mptcp_subtype_mp_capable stale_bytes (draws 0x0123456789abcdef 7)
        (start_up_with { vars_queue := [key1_name], vars := [] }) inbound_capable_syn
        inbound_capable_syn (blank_option 30 12 0) DIRECTION_INBOUND =
      some {
        error := STATUS_OK,
        state := {
          packetdrill_key := 0x0123456789abcdef, kernel_key := 0,
          packetdrill_key_set := true, kernel_key_set := false,
          names := { vars_queue := [], vars := [key1_var] } },
        opt := { blank_option 30 12 0 with data := { (blank_option 30 12 0).data with
          mp_capable_syn := { key := 0x0123456789abcdef } } } } ∧
    (∀ (fill : Nat → Nat) (env : environment) (s : Memory.state)
      (packet_to_modify live_packet : packet) (tcp_opt_to_modify : tcp_option)
      (block : List Nat) (rest : List (List Nat)),
      s.names.vars_queue = block :: rest → strlen block = none →
      tcp_opt_to_modify.length = TCPOLEN_MP_CAPABLE_SYN → packet_to_modify.tcp.syn = true →
      packet_to_modify.tcp.ack = false →
      Memory.mptcp_subtype_mp_capable fill env s packet_to_modify live_packet
        tcp_opt_to_modify DIRECTION_INBOUND = none) ∧
    (∀ (fill fill2 : Nat → Nat) (capacity : Nat) (names : List (List Nat))
      (env : environment) (s : Memory.state) (names1 : Memory.mp_state)
      (packet_to_modify live_packet : packet) (tcp_opt_to_modify : tcp_option),
      (∀ name ∈ names, ∃ n, strlen name = some n) →
      Memory.enqueue_vars fill capacity { vars_queue := [], vars := s.names.vars } names =
        some names1 →
      names1.vars_queue ≠ [] →
      tcp_opt_to_modify.length = TCPOLEN_MP_CAPABLE_SYN → packet_to_modify.tcp.syn = true →
      packet_to_modify.tcp.ack = false →
      Memory.mptcp_subtype_mp_capable fill2 env { s with names := names1 } packet_to_modify
        live_packet tcp_opt_to_modify DIRECTION_INBOUND = none) := by
  refine ⟨by decide, by decide, by decide, by decide, ?_, ?_⟩
  · intro fill env s p live opt block rest hq hopen hlen hsyn _
    exact bytes_mptcp_subtype_mp_capable_open fill env s p live opt DIRECTION_INBOUND block rest
      hq hopen (Or.inl ⟨hlen, hsyn, Or.inl rfl⟩)
  · intro fill fill2 capacity names env s names1 p live opt hnames h hpending hlen hsyn _
    obtain ⟨block, rest, hq, hopen⟩ :=
      bytes_enqueue_vars_front fill capacity names s.names.vars names1 hnames h hpending
    exact bytes_mptcp_subtype_mp_capable_open fill2 env { s with names := names1 } p live opt
      DIRECTION_INBOUND block rest hq hopen (Or.inl ⟨hlen, hsyn, Or.inl rfl⟩)

/-- C9 (evaluation of the code): MP_CAPABLE case 2 on the names that `enqueue_var` leaves. At
start-up the parser enqueues "key2"; the peer's SYN carries the key `0x2222222222222222`.
Processing the outbound SYN reads past the end of the queue's block, in
`extract_and_set_kernel_key` already (`add_mp_var_key` measures the block with `strlen`),
instead of binding "key2" to the captured key and writing it into the script option. With the
remote key already set and "key2" bound, the call reads past the end of the block in
`find_next_key`, instead of writing the value of the next pending variable. Had the block its
terminator, the first call would succeed, capture the key, bind "key2" to it, write it into the
script option and pop the name. In general the call reads past the end of the front block
whenever that block is not terminated, which is so for every non-empty queue that calls of
`enqueue_var` with terminated names have built. -/
theorem mp_capable_outbound_syn_reads_past_enqueued_name :
    Memory.enqueue_var stale_bytes 16 no_names key2_name = some (STATUS_OK, key2_pending) ∧
    Memory.extract_and_set_kernel_key stale_bytes (start_up_with key2_pending)
      live_capable_syn = none ∧
    Memory.mptcp_subtype_mp_capable stale_bytes (draws 0 0) (start_up_with key2_pending)
      outbound_capable_syn live_capable_syn (blank_option 30 12 0) DIRECTION_OUTBOUND = none ∧
    Memory.mptcp_subtype_mp_capable stale_bytes (draws 0 0)
      (both_keys_with { vars_queue := [[107, 101, 121, 50]], vars := [key1_var, key2_var] })
      outbound_capable_syn live_capable_syn (blank_option 30 12 0) DIRECTION_OUTBOUND = none ∧
    Memory.mptcp_subtype_mp_capable stale_bytes (draws 0 0)
        (start_up_with { vars_queue := [key2_name], vars := [] }) outbound_capable_syn
        live_capable_syn (blank_option 30 12 0) DIRECTION_OUTBOUND =
      some {
        error := STATUS_OK,
        state := {
          packetdrill_key := 0, kernel_key := 0x2222222222222222,
          packetdrill_key_set := false, kernel_key_set := true,
          names := { vars_queue := [], vars := [key2_var] } },
        opt := { blank_option 30 12 0 with data := { (blank_option 30 12 0).data with
          mp_capable_syn := { key := 0x2222222222222222 } } } } ∧
    (∀ (fill : Nat → Nat) (env : environment) (s : Memory.state)
      (packet_to_modify live_packet : packet) (tcp_opt_to_modify : tcp_option)
      (block : List Nat) (rest : List (List Nat)),
      s.names.vars_queue = block :: rest → strlen block = none →
      tcp_opt_to_modify.length = TCPOLEN_MP_CAPABLE_SYN → packet_to_modify.tcp.syn = true →
      Memory.mptcp_subtype_mp_capable fill env s packet_to_modify live_packet
        tcp_opt_to_modify DIRECTION_OUTBOUND = none) ∧
    (∀ (fill fill2 : Nat → Nat) (capacity : Nat) (names : List (List Nat))
      (env : environment) (s : Memory.state) (names1 : Memory.mp_state)
      (packet_to_modify live_packet : packet) (tcp_opt_to_modify : tcp_option),
      (∀ name ∈ names, ∃ n, strlen name = some n) →
      Memory.enqueue_vars fill capacity { vars_queue := [], vars := s.names.vars } names =
        some names1 →
      names1.vars_queue ≠ [] →
      tcp_opt_to_modify.length = TCPOLEN_MP_CAPABLE_SYN → packet_to_modify.tcp.syn = true →
      Memory.mptcp_subtype_mp_capable fill2 env { s with names := names1 } packet_to_modify
        live_packet tcp_opt_to_modify DIRECTION_OUTBOUND = none) := by
  refine ⟨by decide, by decide, by decide, by decide, by decide, ?_, ?_⟩
  · intro fill env s p live opt block rest hq hopen hlen hsyn
    exact bytes_mptcp_subtype_mp_capable_open fill env s p live opt DIRECTION_OUTBOUND block
      rest hq hopen (Or.inl ⟨hlen, hsyn, Or.inr rfl⟩)
  · intro fill fill2 capacity names env s names1 p live opt hnames h hpending hlen hsyn
    obtain ⟨block, rest, hq, hopen⟩ :=
      bytes_enqueue_vars_front fill capacity names s.names.vars names1 hnames h hpending
    exact bytes_mptcp_subtype_mp_capable_open fill2 env { s with names := names1 } p live opt
      DIRECTION_OUTBOUND block rest hq hopen (Or.inl ⟨hlen, hsyn, Or.inr rfl⟩)

/-- C11 (evaluation of the code): MP_CAPABLE case 3 on the names that `enqueue_var` leaves.
Both keys are set, "key1" is bound to the local key and "key2" to the remote key, and the
parser enqueues "key1" and "key2": the queue holds their characters without terminating zero
bytes. Processing an MP_CAPABLE option of length 20 on an ACK (SYN clear) then reads past the
end of the first block, in the first `find_next_key`, instead of writing the two keys; it also
does so when only the second block lacks its terminator. Had both blocks their terminators, the
call would succeed, write the local key into `sender_key` and the remote key into
`receiver_key` and pop both names. On an empty queue the call fails and changes nothing. In
general the call reads past the end of the front block whenever that block is not terminated,
in either direction, which is so for every non-empty queue that calls of `enqueue_var` with
terminated names have built. -/
theorem mp_capable_ack_reads_past_enqueued_name :
    Memory.enqueue_vars stale_bytes 16 { vars_queue := [], vars := [key1_var, key2_var] }
        [key1_name, key2_name] =
      some { vars_queue := [[107, 101, 121, 49], [107, 101, 121, 50]],
             vars := [key1_var, key2_var] } ∧
    Memory.mptcp_subtype_mp_capable stale_bytes (draws 0 0)
      (both_keys_with { vars_queue := [[107, 101, 121, 49], [107, 101, 121, 50]],
                        vars := [key1_var, key2_var] })
      inbound_capable_ack inbound_capable_ack (blank_option 30 20 0) DIRECTION_INBOUND = none ∧
    Memory.mptcp_subtype_mp_capable stale_bytes (draws 0 0)
      (both_keys_with { vars_queue := [key1_name, [107, 101, 121, 50]],
                        vars := [key1_var, key2_var] })
      inbound_capable_ack inbound_capable_ack (blank_option 30 20 0) DIRECTION_INBOUND = none ∧
    Memory.mptcp_subtype_mp_capable stale_bytes (draws 0 0)
        (both_keys_with { vars_queue := [key1_name, key2_name], vars := [key1_var, key2_var] })
        inbound_capable_ack inbound_capable_ack (blank_option 30 20 0) DIRECTION_INBOUND =
      some {
        error := STATUS_OK,
        state := both_keys_with { vars_queue := [], vars := [key1_var, key2_var] },
        opt := { blank_option 30 20 0 with data := { (blank_option 30 20 0).data with
          mp_capable := {
            subtype := 0, sender_key := 0x1111111111111111,
            receiver_key := 0x2222222222222222 } } } } ∧
    (∀ (fill : Nat → Nat) (env : environment) (s : Memory.state)
      (packet_to_modify live_packet : packet) (tcp_opt_to_modify : tcp_option)
      (direction : Nat),
      s.names.vars_queue = [] →
      tcp_opt_to_modify.length = TCPOLEN_MP_CAPABLE → packet_to_modify.tcp.syn = false →
      packet_to_modify.tcp.ack = true →
      Memory.mptcp_subtype_mp_capable fill env s packet_to_modify live_packet
          tcp_opt_to_modify direction =
        some { error := STATUS_ERR, state := s, opt := tcp_opt_to_modify }) ∧
    (∀ (fill : Nat → Nat) (env : environment) (s : Memory.state)
      (packet_to_modify live_packet : packet) (tcp_opt_to_modify : tcp_option)
      (direction : Nat) (block : List Nat) (rest : List (List Nat)),
      s.names.vars_queue = block :: rest → strlen block = none →
      tcp_opt_to_modify.length = TCPOLEN_MP_CAPABLE → packet_to_modify.tcp.syn = false →
      packet_to_modify.tcp.ack = true →
      Memory.mptcp_subtype_mp_capable fill env s packet_to_modify live_packet
        tcp_opt_to_modify direction = none) ∧
    (∀ (fill fill2 : Nat → Nat) (capacity : Nat) (names : List (List Nat))
      (env : environment) (s : Memory.state) (names1 : Memory.mp_state)
      (packet_to_modify live_packet : packet) (tcp_opt_to_modify : tcp_option)
      (direction : Nat),
      (∀ name ∈ names, ∃ n, strlen name = some n) →
      Memory.enqueue_vars fill capacity { vars_queue := [], vars := s.names.vars } names =
        some names1 →
      names1.vars_queue ≠ [] →
      tcp_opt_to_modify.length = TCPOLEN_MP_CAPABLE → packet_to_modify.tcp.syn = false →
      packet_to_modify.tcp.ack = true →
      Memory.mptcp_subtype_mp_capable fill2 env { s with names := names1 } packet_to_modify
        live_packet tcp_opt_to_modify direction = none) := by
  refine ⟨by decide, by decide, by decide, by decide, ?_, ?_, ?_⟩
  · intro fill env s p live opt direction hq hlen hsyn hack
    have hnext : Memory.find_next_key s.names = some (none, s.names) := by
      simp [Memory.find_next_key, Memory.dequeue_var, Memory.queue_dequeue, hq]
    simp [Memory.mptcp_subtype_mp_capable, hlen, hsyn, hack, TCPOLEN_MP_CAPABLE,
      TCPOLEN_MP_CAPABLE_SYN, Memory.mptcp_set_mp_cap_keys, hnext]
  · intro fill env s p live opt direction block rest hq hopen hlen hsyn hack
    exact bytes_mptcp_subtype_mp_capable_open fill env s p live opt direction block rest
      hq hopen (Or.inr ⟨hlen, hsyn, hack⟩)
  · intro fill fill2 capacity names env s names1 p live opt direction hnames h hpending hlen
      hsyn hack
    obtain ⟨block, rest, hq, hopen⟩ :=
      bytes_enqueue_vars_front fill capacity names s.names.vars names1 hnames h hpending
    exact bytes_mptcp_subtype_mp_capable_open fill2 env { s with names := names1 } p live opt
      direction block rest hq hopen (Or.inr ⟨hlen, hsyn, hack⟩)

/-! ### MP_CAPABLE on an inbound SYN once the local key is set -/

theorem bytes_find_next_key_vars (s s1 : Memory.mp_state) (key : Option key_ptr)
    (h : Memory.find_next_key s = some (key, s1)) : s1.vars = s.vars := by
  unfold Memory.find_next_key Memory.dequeue_var Memory.queue_dequeue at h
  cases hq : s.vars_queue with
  | nil =>
    simp only [hq, Option.some.injEq, Prod.mk.injEq] at h
    rw [← h.2]
  | cons block rest =>
    simp only [hq] at h
    cases hfind : Memory.find_mp_var { s with vars_queue := rest } block with
    | none => simp [hfind] at h
    | some found =>
      cases found with
      | none =>
        simp only [hfind, Option.some.injEq, Prod.mk.injEq] at h
        rw [← h.2]
      | some var =>
        simp only [hfind] at h
        split_ifs at h <;>
        · simp only [Option.some.injEq, Prod.mk.injEq] at h
          rw [← h.2]

theorem bytes_mptcp_set_mp_cap_syn_key_keeps (s : Memory.state) (tcp_opt : tcp_option)
    (r : Memory.handled) (h : Memory.mptcp_set_mp_cap_syn_key s tcp_opt = some r) :
    r.state.packetdrill_key = s.packetdrill_key ∧
    r.state.packetdrill_key_set = s.packetdrill_key_set ∧
    r.state.kernel_key = s.kernel_key ∧ r.state.kernel_key_set = s.kernel_key_set ∧
    r.state.names.vars = s.names.vars ∧
    (r.opt = tcp_opt ∨ r.opt.data.mp_capable_syn.key = s.packetdrill_key ∨
      r.opt.data.mp_capable_syn.key = s.kernel_key) := by
  unfold Memory.mptcp_set_mp_cap_syn_key at h
  cases hnext : Memory.find_next_key s.names with
  | none => simp [hnext] at h
  | some res =>
    obtain ⟨key, names1⟩ := res
    have hvars := bytes_find_next_key_vars s.names names1 key hnext
    cases key with
    | none =>
      simp only [hnext, Option.some.injEq] at h
      subst h
      exact ⟨rfl, rfl, rfl, rfl, hvars, Or.inl rfl⟩
    | some k =>
      simp only [hnext, Option.some.injEq] at h
      subst h
      refine ⟨rfl, rfl, rfl, rfl, hvars, Or.inr ?_⟩
      cases k with
      | packetdrill_key => exact Or.inl rfl
      | kernel_key => exact Or.inr rfl

theorem bytes_mptcp_gen_key_of_set (fill : Nat → Nat) (env : environment) (s : Memory.state)
    (hset : s.packetdrill_key_set = true) :
    (s.names.vars_queue = [] → Memory.mptcp_gen_key fill env s = some (STATUS_ERR, s)) ∧
    (s.names.vars_queue ≠ [] → Memory.mptcp_gen_key fill env s = some (STATUS_OK, s)) := by
  cases hq : s.names.vars_queue with
  | nil => simp [Memory.mptcp_gen_key, Memory.queue_front, hq]
  | cons block rest => simp [Memory.mptcp_gen_key, Memory.queue_front, hq, hset]

theorem bytes_mptcp_subtype_mp_capable_inbound_syn (fill : Nat → Nat) (env : environment)
    (s : Memory.state) (packet_to_modify live_packet : packet) (tcp_opt_to_modify : tcp_option)
    (hlen : tcp_opt_to_modify.length = TCPOLEN_MP_CAPABLE_SYN)
    (hsyn : packet_to_modify.tcp.syn = true) :
    Memory.mptcp_subtype_mp_capable fill env s packet_to_modify live_packet tcp_opt_to_modify
        DIRECTION_INBOUND =
      match Memory.mptcp_gen_key fill env s with
      | none => none
      | some (error, s1) =>
        match Memory.mptcp_set_mp_cap_syn_key s1 tcp_opt_to_modify with
        | none => none
        | some r => some { r with error := c_or r.error error } := by
  cases hack : packet_to_modify.tcp.ack <;>
    simp [Memory.mptcp_subtype_mp_capable, hlen, hsyn, hack, TCPOLEN_MP_CAPABLE_SYN,
      TCPOLEN_MP_CAPABLE, DIRECTION_INBOUND, DIRECTION_OUTBOUND]

/-- C6 (as the code behaves): MP_CAPABLE case 1 (inbound, SYN set, ACK clear, length 12)
processed when the local key is already set, as the second of two calls in sequence is.
No key is generated: `mptcp_gen_key` returns without touching the state (with `STATUS_OK` when a
name is pending, `STATUS_ERR` on an empty queue), so the outcome of the call is the same
whatever the random source would draw; and if the call returns, the local key, both flags, the
remote key and the variable map are as before, and the option is untouched or its key field
holds one of the two keys that were stored before the call. A state with the local key set is
what a first such call leaves: made while the local key is not set and a name is pending, it
has, if it returns, set the local key to the value drawn then and marked it set. -/
theorem mp_capable_second_inbound_syn_generates_no_key (fill : Nat → Nat) (env : environment)
    (s : Memory.state) (packet_to_modify live_packet : packet) (tcp_opt_to_modify : tcp_option)
    (hset : s.packetdrill_key_set = true)
    (hlen : tcp_opt_to_modify.length = TCPOLEN_MP_CAPABLE_SYN)
    (hsyn : packet_to_modify.tcp.syn = true) (hack : packet_to_modify.tcp.ack = false) :
    (s.names.vars_queue = [] → Memory.mptcp_gen_key fill env s = some (STATUS_ERR, s)) ∧
    (s.names.vars_queue ≠ [] → Memory.mptcp_gen_key fill env s = some (STATUS_OK, s)) ∧
    (∀ (env2 : environment),
      Memory.mptcp_subtype_mp_capable fill env2 s packet_to_modify live_packet
          tcp_opt_to_modify DIRECTION_INBOUND =
        Memory.mptcp_subtype_mp_capable fill env s packet_to_modify live_packet
          tcp_opt_to_modify DIRECTION_INBOUND) ∧
    (∀ (r : Memory.handled),
      Memory.mptcp_subtype_mp_capable fill env s packet_to_modify live_packet
          tcp_opt_to_modify DIRECTION_INBOUND = some r →
      r.state.packetdrill_key = s.packetdrill_key ∧ r.state.packetdrill_key_set = true ∧
      r.state.kernel_key = s.kernel_key ∧ r.state.kernel_key_set = s.kernel_key_set ∧
      r.state.names.vars = s.names.vars ∧
      (r.opt = tcp_opt_to_modify ∨ r.opt.data.mp_capable_syn.key = s.packetdrill_key ∨
        r.opt.data.mp_capable_syn.key = s.kernel_key)) ∧
    (∀ (env1 : environment) (s0 : Memory.state) (packet1 live1 : packet) (opt1 : tcp_option)
      (r1 : Memory.handled),
      s0.packetdrill_key_set = false → s0.names.vars_queue ≠ [] →
      opt1.length = TCPOLEN_MP_CAPABLE_SYN → packet1.tcp.syn = true →
      packet1.tcp.ack = false →
      Memory.mptcp_subtype_mp_capable fill env1 s0 packet1 live1 opt1 DIRECTION_INBOUND =
        some r1 →
      r1.state.packetdrill_key_set = true ∧
      r1.state.packetdrill_key = env1.generate_key64) := by
  have _ := hack
  have hgen : ∀ (e : environment), ∃ status,
      Memory.mptcp_gen_key fill e s = some (status, s) := by
    intro e
    by_cases hq : s.names.vars_queue = []
    · exact ⟨_, (bytes_mptcp_gen_key_of_set fill e s hset).1 hq⟩
    · exact ⟨_, (bytes_mptcp_gen_key_of_set fill e s hset).2 hq⟩
  have hsame : ∀ (e : environment),
      Memory.mptcp_gen_key fill e s = Memory.mptcp_gen_key fill env s := by
    intro e
    by_cases hq : s.names.vars_queue = []
    · rw [(bytes_mptcp_gen_key_of_set fill e s hset).1 hq,
        (bytes_mptcp_gen_key_of_set fill env s hset).1 hq]
    · rw [(bytes_mptcp_gen_key_of_set fill e s hset).2 hq,
        (bytes_mptcp_gen_key_of_set fill env s hset).2 hq]
  refine ⟨(bytes_mptcp_gen_key_of_set fill env s hset).1,
    (bytes_mptcp_gen_key_of_set fill env s hset).2, ?_, ?_, ?_⟩
  · intro env2
    rw [bytes_mptcp_subtype_mp_capable_inbound_syn fill env2 s packet_to_modify live_packet
        tcp_opt_to_modify hlen hsyn,
      bytes_mptcp_subtype_mp_capable_inbound_syn fill env s packet_to_modify live_packet
        tcp_opt_to_modify hlen hsyn, hsame env2]
  · intro r h
    rw [bytes_mptcp_subtype_mp_capable_inbound_syn fill env s packet_to_modify live_packet
      tcp_opt_to_modify hlen hsyn] at h
    obtain ⟨status, hg⟩ := hgen env
    rw [hg] at h
    simp only [] at h
    cases hsyn_key : Memory.mptcp_set_mp_cap_syn_key s tcp_opt_to_modify with
    | none => simp [hsyn_key] at h
    | some r0 =>
      simp only [hsyn_key, Option.some.injEq] at h
      subst h
      obtain ⟨h1, h2, h3, h4, h5, h6⟩ :=
        bytes_mptcp_set_mp_cap_syn_key_keeps s tcp_opt_to_modify r0 hsyn_key
      exact ⟨h1, by rw [h2, hset], h3, h4, h5, h6⟩
  · intro env1 s0 packet1 live1 opt1 r1 hset0 hpending hlen1 hsyn1 _ h
    rw [bytes_mptcp_subtype_mp_capable_inbound_syn fill env1 s0 packet1 live1 opt1 hlen1
      hsyn1] at h
    cases hq : s0.names.vars_queue with
    | nil => exact absurd hq hpending
    | cons block rest =>
      cases hadd : Memory.add_mp_var_key fill s0.names block key_ptr.packetdrill_key with
      | none =>
        simp [Memory.mptcp_gen_key, Memory.queue_front, hq, hset0, Memory.set_packetdrill_key,
          hadd] at h
      | some names1 =>
        have hg : Memory.mptcp_gen_key fill env1 s0 =
            some (STATUS_OK,
              { Memory.set_packetdrill_key s0 env1.generate_key64 with names := names1 }) := by
          simp [Memory.mptcp_gen_key, Memory.queue_front, hq, hset0,
            Memory.set_packetdrill_key, hadd]
        rw [hg] at h
        simp only [] at h
        cases hsyn_key : Memory.mptcp_set_mp_cap_syn_key
            { Memory.set_packetdrill_key s0 env1.generate_key64 with names := names1 }
            opt1 with
        | none => simp [hsyn_key] at h
        | some r0 =>
          simp only [hsyn_key, Option.some.injEq] at h
          subst h
          obtain ⟨h1, h2, _, _, _, _⟩ :=
            bytes_mptcp_set_mp_cap_syn_key_keeps _ opt1 r0 hsyn_key
          exact ⟨h2, h1⟩

/-- The local key `0x1111111111111111` is set and "key1" is bound; the random source would draw
`0x2222222222222222`. With "key2" pending as `enqueue_var` leaves it, `mptcp_gen_key` returns
`STATUS_OK` and leaves the state as it is. With "key2" pending and terminated, the call
returns: the local key is still `0x1111111111111111` and marked set. And the first call, made
at start-up with "key1" and "key2" pending and terminated while the random source draws
`0x1111111111111111`, has left the local key set to that value. -/
theorem mp_capable_second_inbound_syn_generates_no_key_witness :
    Memory.mptcp_gen_key stale_bytes (draws 0x2222222222222222 0)
        (local_key_with { vars_queue := [[107, 101, 121, 50]], vars := [key1_var] }) =
      some (STATUS_OK,
        local_key_with { vars_queue := [[107, 101, 121, 50]], vars := [key1_var] }) ∧
    Memory.mptcp_subtype_mp_capable stale_bytes (draws 0x2222222222222222 0)
        (local_key_with { vars_queue := [key2_name], vars := [key1_var] })
        inbound_capable_syn inbound_capable_syn (blank_option 30 12 0) DIRECTION_INBOUND =
      some { error := 1, state := local_key_with { vars_queue := [], vars := [key1_var] },
             opt := blank_option 30 12 0 } ∧
    (local_key_with { vars_queue := [], vars := [key1_var] }).packetdrill_key =
      (local_key_with { vars_queue := [key2_name], vars := [key1_var] }).packetdrill_key ∧
    (local_key_with { vars_queue := [], vars := [key1_var] }).packetdrill_key_set = true ∧
    (local_key_with { vars_queue := [key2_name], vars := [key1_var] }).packetdrill_key_set =
        true ∧
      (local_key_with { vars_queue := [key2_name], vars := [key1_var] }).packetdrill_key =
        (draws 0x1111111111111111 0).generate_key64 :=
  ⟨(mp_capable_second_inbound_syn_generates_no_key stale_bytes (draws 0x2222222222222222 0)
      (local_key_with { vars_queue := [[107, 101, 121, 50]], vars := [key1_var] })
      inbound_capable_syn inbound_capable_syn (blank_option 30 12 0) rfl rfl rfl rfl).2.1
      (by decide),
    by decide,
    ((mp_capable_second_inbound_syn_generates_no_key stale_bytes (draws 0x2222222222222222 0)
      (local_key_with { vars_queue := [key2_name], vars := [key1_var] })
      inbound_capable_syn inbound_capable_syn (blank_option 30 12 0) rfl rfl rfl rfl).2.2.2.1
      { error := 1, state := local_key_with { vars_queue := [], vars := [key1_var] },
        opt := blank_option 30 12 0 }
      (by decide)).1,
    ((mp_capable_second_inbound_syn_generates_no_key stale_bytes (draws 0x2222222222222222 0)
      (local_key_with { vars_queue := [key2_name], vars := [key1_var] })
      inbound_capable_syn inbound_capable_syn (blank_option 30 12 0) rfl rfl rfl rfl).2.2.2.1
      { error := 1, state := local_key_with { vars_queue := [], vars := [key1_var] },
        opt := blank_option 30 12 0 }
      (by decide)).2.1,
    (mp_capable_second_inbound_syn_generates_no_key stale_bytes (draws 0x2222222222222222 0)
      (local_key_with { vars_queue := [key2_name], vars := [key1_var] })
      inbound_capable_syn inbound_capable_syn (blank_option 30 12 0) rfl rfl rfl rfl).2.2.2.2
      (draws 0x1111111111111111 0)
      (start_up_with { vars_queue := [key1_name, key2_name], vars := [] })
      inbound_capable_syn inbound_capable_syn (blank_option 30 12 0)
      { error := STATUS_OK,
        state := local_key_with { vars_queue := [key2_name], vars := [key1_var] },
        opt := { blank_option 30 12 0 with data := { (blank_option 30 12 0).data with
          mp_capable_syn := { key := 0x1111111111111111 } } } }
      rfl (by decide) rfl rfl rfl (by decide)⟩

/-- C6 as stated fails. The random source draws `0x1111111111111111` and then
`0x2222222222222222`, two different values. Once the local key is set, `mptcp_gen_key` returns
`STATUS_OK` without generating anything, also on the names that `enqueue_var` leaves. With
"key1" and "key2" pending and terminated, the first call generates `0x1111111111111111` and
binds "key1"; the second call returns a non-zero status, the local key is still
`0x1111111111111111`, the variable map holds the binding of "key1" only and the second option
is untouched, so neither its key field nor a second binding holds `0x2222222222222222`. With
"key1" and "key2" pending as `enqueue_var` leaves them, the first call already reads past the
end of a block and produces no key and no binding at all. -/
theorem mp_capable_second_inbound_syn_counterexample :
    (0x1111111111111111 : Nat) ≠ 0x2222222222222222 ∧
    Memory.mptcp_gen_key stale_bytes (draws 0x2222222222222222 0)
        (local_key_with { vars_queue := [[107, 101, 121, 50]], vars := [key1_var] }) =
      some (STATUS_OK,
        local_key_with { vars_queue := [[107, 101, 121, 50]], vars := [key1_var] }) ∧
    Memory.mptcp_subtype_mp_capable stale_bytes (draws 0x1111111111111111 0)
        (start_up_with { vars_queue := [key1_name, key2_name], vars := [] })
        inbound_capable_syn inbound_capable_syn (blank_option 30 12 0) DIRECTION_INBOUND =
      some {
        error := STATUS_OK,
        state := local_key_with { vars_queue := [key2_name], vars := [key1_var] },
        opt := { blank_option 30 12 0 with data := { (blank_option 30 12 0).data with
          mp_capable_syn := { key := 0x1111111111111111 } } } } ∧
    Memory.mptcp_subtype_mp_capable stale_bytes (draws 0x2222222222222222 0)
        (local_key_with { vars_queue := [key2_name], vars := [key1_var] })
        inbound_capable_syn inbound_capable_syn (blank_option 30 12 0) DIRECTION_INBOUND =
      some { error := 1, state := local_key_with { vars_queue := [], vars := [key1_var] },
             opt := blank_option 30 12 0 } ∧
    (blank_option 30 12 0).data.mp_capable_syn.key ≠ 0x2222222222222222 ∧
    Memory.enqueue_vars stale_bytes 16 no_names [key1_name, key2_name] =
      some { vars_queue := [[107, 101, 121, 49], [107, 101, 121, 50]], vars := [] } ∧
    Memory.mptcp_subtype_mp_capable stale_bytes (draws 0x1111111111111111 0)
      (start_up_with { vars_queue := [[107, 101, 121, 49], [107, 101, 121, 50]], vars := [] })
      inbound_capable_syn inbound_capable_syn (blank_option 30 12 0) DIRECTION_INBOUND = none := by
  decide

end Mptcp
